import Mathlib

/-!
# Image source descriptors, the FFmpeg decode session and widgets of LVGL

A shallow embedding of `src/draw/lv_img_src.c`, of the decoder callbacks of
`src/libs/ffmpeg/lv_ffmpeg.c`, of the blit functions of `lv_draw_pxp_blend.c`, and of the
setters and getters of the widgets `lv_img.c`, `lv_flex.c`, `lv_animbtn.c` and
`lv_btnmatrix.c` that the statements below are about.

C objects that are reached through pointers live in an explicit heap of blocks;
a function that would read through a null or dangling pointer, or free a block
that is not live, has no defined result and returns `none`.
-/

namespace Lvgl

/-! ## Memory -/

/-- A C pointer: null, or an offset into a heap block. -/
inductive Ptr where
  | null : Ptr
  | mk (blk : Nat) (off : Nat) : Ptr
  deriving DecidableEq, Repr

/-- One heap block: its bytes and whether it is still allocated. -/
structure Block where
  bytes : List Nat
  live : Bool
  deriving DecidableEq, Repr

/-- The heap: the blocks ever handed out (a block id is its position), the outcomes the
allocator will give to the coming requests (`true` grants the request, `false` or an
exhausted list refuses it), and the log of the block ids passed to `lv_mem_free`. -/
structure Heap where
  blocks : List Block
  grants : List Bool
  freed : List Nat
  deriving DecidableEq, Repr

/-- Modelled from the spec: `lv_mem_alloc` is not among the sources. A request is either
refused, returning NULL, or answered with a block that no earlier pointer refers to. -/
def lv_mem_alloc (h : Heap) (size : Nat) : Heap × Ptr :=
  match h.grants with
  | true :: g =>
    ({ h with blocks := h.blocks ++ [{ bytes := List.replicate size 0, live := true }],
              grants := g },
     Ptr.mk h.blocks.length 0)
  | false :: g => ({ h with grants := g }, Ptr.null)
  | [] => (h, Ptr.null)

/-- Modelled from the spec: `lv_mem_free` is not among the sources. Freeing NULL does
nothing; freeing the start of a live block releases it; anything else is undefined. -/
def lv_mem_free (h : Heap) (p : Ptr) : Option Heap :=
  match p with
  | Ptr.null => some h
  | Ptr.mk b o =>
    match h.blocks[b]? with
    | some blk =>
      if blk.live = true ∧ o = 0 then
        some { h with blocks := h.blocks.set b { blk with live := false },
                      freed := b :: h.freed }
      else none
    | none => none

/-- A byte that is not the string terminator. -/
def nz (c : Nat) : Bool := c != 0

/-- The bytes of the null-terminated string that starts at `p`, terminator excluded. Undefined
when `p` is null or dangling or when the block holds no terminator from `p` on. -/
def cstr (h : Heap) (p : Ptr) : Option (List Nat) :=
  match p with
  | Ptr.null => none
  | Ptr.mk b o =>
    match h.blocks[b]? with
    | some blk =>
      if blk.live = true ∧ 0 ∈ blk.bytes.drop o then
        some ((blk.bytes.drop o).takeWhile nz)
      else none
    | none => none

/-- C `strlen`. -/
def strlen (h : Heap) (p : Ptr) : Option Nat :=
  (cstr h p).map List.length

/-- Position of the last occurrence of `c` in a list of bytes. -/
def lastIdx (c : Nat) : List Nat → Option Nat
  | [] => none
  | x :: xs =>
    match lastIdx c xs with
    | some i => some (i + 1)
    | none => if x = c then some 0 else none

/-- C `strrchr`: pointer to the last occurrence of `c` in the string at `p` (the terminator
counts as part of the string), NULL when there is none. -/
def strrchr (h : Heap) (p : Ptr) (c : Nat) : Option Ptr :=
  match p with
  | Ptr.null => none
  | Ptr.mk b o =>
    match cstr h (Ptr.mk b o) with
    | some s =>
      if c = 0 then some (Ptr.mk b (o + s.length))
      else
        match lastIdx c s with
        | some i => some (Ptr.mk b (o + i))
        | none => some Ptr.null
    | none => none

/-- `lv_memcpy(dst, src, n)`: copies `n` bytes; both ranges must lie inside live blocks. -/
def lv_memcpy (h : Heap) (dst src : Ptr) (n : Nat) : Option Heap :=
  match dst, src with
  | Ptr.mk bd od, Ptr.mk bs os =>
    match h.blocks[bd]?, h.blocks[bs]? with
    | some d, some s =>
      if d.live = true ∧ s.live = true ∧ os + n ≤ s.bytes.length ∧ od + n ≤ d.bytes.length then
        let d1 : Block :=
          { d with bytes := d.bytes.take od ++ (s.bytes.drop os).take n ++ d.bytes.drop (od + n) }
        some { h with blocks := h.blocks.set bd d1 }
      else none
    | _, _ => none
  | _, _ => none

/-- A store of one byte through a pointer, `p[0] = v`. -/
def store (h : Heap) (p : Ptr) (v : Nat) : Option Heap :=
  match p with
  | Ptr.null => none
  | Ptr.mk b o =>
    match h.blocks[b]? with
    | some blk =>
      if blk.live = true ∧ o < blk.bytes.length then
        some { h with blocks := h.blocks.set b { blk with bytes := blk.bytes.set o v } }
      else none
    | none => none

/-! ## `lv_img_src.c` -/

inductive lv_res_t where
  | LV_RES_INV : lv_res_t
  | LV_RES_OK : lv_res_t
  deriving DecidableEq, Repr

inductive lv_img_src_type_t where
  | LV_IMG_SRC_UNKNOWN : lv_img_src_type_t
  | LV_IMG_SRC_VARIABLE : lv_img_src_type_t
  | LV_IMG_SRC_FILE : lv_img_src_type_t
  | LV_IMG_SRC_SYMBOL : lv_img_src_type_t
  deriving DecidableEq, Repr

open lv_res_t lv_img_src_type_t

/-- The descriptor `lv_img_src_t`, with the members `lv_img_src.c` uses. -/
structure lv_img_src_t where
  type : lv_img_src_type_t
  uri_len : Nat
  uri : Ptr
  ext : Ptr
  deriving DecidableEq, Repr

/-- Modelled from the spec: `lv_img_src.h` is not among the sources. The descriptor that
`lv_memset_00` leaves is "the zero/unknown state": the type tag with value zero is
`LV_IMG_SRC_UNKNOWN`, the length is 0 and both pointers are NULL. -/
def lv_img_src_zero : lv_img_src_t :=
  { type := LV_IMG_SRC_UNKNOWN, uri_len := 0, uri := Ptr.null, ext := Ptr.null }

/-- `lv_img_src_free`. -/
def lv_img_src_free (h : Heap) (src : lv_img_src_t) : Option (Heap × lv_img_src_t) :=
  if src.type = LV_IMG_SRC_SYMBOL ∨ src.type = LV_IMG_SRC_FILE then
    match lv_mem_free h src.uri with
    | some h1 => some (h1, lv_img_src_zero)
    | none => none
  else some (h, lv_img_src_zero)

/-- `alloc_str_src`. `LV_ASSERT_MALLOC` comes from `lv_assert.h`, which is not among the
sources; it is taken in the configuration where it expands to nothing, the one in which the
NULL branch that follows it is reached. -/
def alloc_str_src (h : Heap) (src : lv_img_src_t) (str : Ptr) :
    Option (Heap × lv_img_src_t × lv_res_t) :=
  match strlen h str with
  | none => none
  | some n =>
    let src1 := { src with uri_len := n }
    let a := lv_mem_alloc h (src1.uri_len + 1)
    let src2 := { src1 with uri := a.2 }
    if src2.uri = Ptr.null then
      some (a.1, { src2 with uri_len := 0 }, LV_RES_INV)
    else
      match lv_memcpy a.1 src2.uri str (src2.uri_len + 1) with
      | some h2 => some (h2, src2, LV_RES_OK)
      | none => none

/-- `lv_img_src_set_file`; the character `'.'` is byte 46. -/
def lv_img_src_set_file (h : Heap) (obj : lv_img_src_t) (file_path : Ptr) :
    Option (Heap × lv_img_src_t) :=
  match lv_img_src_free h obj with
  | none => none
  | some (h1, obj1) =>
    let obj2 := { obj1 with type := LV_IMG_SRC_FILE }
    match alloc_str_src h1 obj2 file_path with
    | none => none
    | some (h2, obj3, res) =>
      if res = LV_RES_INV then some (h2, obj3)
      else
        match strrchr h2 obj3.uri 46 with
        | some e => some (h2, { obj3 with ext := e })
        | none => none

/-- `lv_img_src_set_data`. -/
def lv_img_src_set_data (h : Heap) (obj : lv_img_src_t) (data : Ptr) (len : Nat) :
    Option (Heap × lv_img_src_t) :=
  match lv_img_src_free h obj with
  | none => none
  | some (h1, obj1) =>
    some (h1, { obj1 with type := LV_IMG_SRC_VARIABLE, uri := data, uri_len := len })

/-- `lv_img_src_set_symbol`. -/
def lv_img_src_set_symbol (h : Heap) (obj : lv_img_src_t) (symbol : Ptr) :
    Option (Heap × lv_img_src_t) :=
  match lv_img_src_free h obj with
  | none => none
  | some (h1, obj1) =>
    let obj2 := { obj1 with type := LV_IMG_SRC_SYMBOL }
    match alloc_str_src h1 obj2 symbol with
    | none => none
    | some (h2, obj3, _) => some (h2, obj3)

/-- The last two statements of `lv_img_src_copy`: the type is taken over and the extension of
a file source is searched in the destination's own string. -/
def lv_img_src_copy_tail (h : Heap) (dest src : lv_img_src_t) : Option (Heap × lv_img_src_t) :=
  let dest1 := { dest with type := src.type }
  if src.type = LV_IMG_SRC_FILE then
    match strrchr h dest1.uri 46 with
    | some e => some (h, { dest1 with ext := e })
    | none => none
  else some (h, dest1)

/-- `lv_img_src_copy`, for `dest` and `src` two distinct descriptor objects. The `&&` of the
source is short-circuit: `alloc_str_src` runs only when the source is not a VARIABLE. -/
def lv_img_src_copy (h : Heap) (dest src : lv_img_src_t) : Option (Heap × lv_img_src_t) :=
  match lv_img_src_free h dest with
  | none => none
  | some (h1, dest1) =>
    let dest2 := { dest1 with type := LV_IMG_SRC_UNKNOWN, uri := src.uri,
                              uri_len := src.uri_len, ext := Ptr.null }
    if src.type ≠ LV_IMG_SRC_VARIABLE then
      match alloc_str_src h1 dest2 src.uri with
      | none => none
      | some (h2, dest3, res) =>
        if res = LV_RES_INV then some (h2, dest3)
        else lv_img_src_copy_tail h2 dest3 src
    else lv_img_src_copy_tail h1 dest2 src

/-- Whether two pointers point into the same heap block. -/
def Ptr.sameBlock : Ptr → Ptr → Bool
  | Ptr.mk b _, Ptr.mk c _ => b == c
  | _, _ => false

/-- The descriptor owns its string: it is a symbol or a file source. -/
def owns (d : lv_img_src_t) : Prop :=
  d.type = LV_IMG_SRC_SYMBOL ∨ d.type = LV_IMG_SRC_FILE

instance (d : lv_img_src_t) : Decidable (owns d) := by
  unfold owns; infer_instance

/-- The pointer `p` does not point into the string that the descriptor `d` owns. -/
def separate (d : lv_img_src_t) (p : Ptr) : Prop :=
  owns d → Ptr.sameBlock d.uri p = false

instance (d : lv_img_src_t) (p : Ptr) : Decidable (separate d p) := by
  unfold separate; infer_instance

/-- The heap after a granted `alloc_str_src`: one new block that holds the copy of `s`. -/
def Heap.withCopy (h : Heap) (s : List Nat) (g : List Bool) : Heap :=
  { blocks := h.blocks ++ [{ bytes := s ++ [0], live := true }], grants := g, freed := h.freed }

/-- The allocator refuses the next request. -/
def Heap.refuses (h : Heap) : Prop := h.grants.head? ≠ some true

instance (h : Heap) : Decidable h.refuses := by
  unfold Heap.refuses; infer_instance

/-- The heap after a refused request: only the allocator outcome is consumed. -/
def Heap.afterRefusal (h : Heap) : Heap := { h with grants := h.grants.tail }

/-- The value `strrchr(uri, '.')` takes for a string `s` stored at the start of block `b`. -/
def extOf (b : Nat) (s : List Nat) : Ptr :=
  match lastIdx 46 s with
  | some i => Ptr.mk b (0 + i)
  | none => Ptr.null

/-- Whether `p` points at the start of a live block. -/
def Heap.liveStart (h : Heap) (p : Ptr) : Bool :=
  match p with
  | Ptr.null => false
  | Ptr.mk b o =>
    match h.blocks[b]? with
    | some blk => blk.live && o == 0
    | none => false

/-- A well-formed descriptor: a symbol or file source holds NULL (after a refused allocation)
or the start of a live block. -/
def valid (h : Heap) (d : lv_img_src_t) : Prop :=
  owns d → d.uri = Ptr.null ∨ h.liveStart d.uri = true

instance (h : Heap) (d : lv_img_src_t) : Decidable (valid h d) := by
  unfold valid; infer_instance

/-- The extension pointer `e` of a file source whose string `s` starts block `b`: NULL when
`s` has no `'.'`, and otherwise the position in block `b` of the last `'.'` of `s`. -/
def extAtLastDot (b : Nat) (s : List Nat) (e : Ptr) : Prop :=
  (46 ∉ s → e = Ptr.null) ∧
    (46 ∈ s → ∃ i, e = Ptr.mk b i ∧ s[i]? = some 46 ∧ 46 ∉ s.drop (i + 1))

/-- A read of one byte through a pointer, `p[0]`. -/
def load (h : Heap) (p : Ptr) : Option Nat :=
  match p with
  | Ptr.null => none
  | Ptr.mk b o =>
    match h.blocks[b]? with
    | some blk => if blk.live = true then blk.bytes[o]? else none
    | none => none

/-- `lv_img_src_get_type`. -/
def lv_img_src_get_type (h : Heap) (src : Ptr) : Option lv_img_src_type_t :=
  if src = Ptr.null then some LV_IMG_SRC_UNKNOWN
  else
    match load h src with
    | none => none
    | some u8 =>
      if u8 ≥ 0x20 ∧ u8 ≤ 0x7F then some LV_IMG_SRC_FILE
      else if u8 ≥ 0x80 then some LV_IMG_SRC_SYMBOL
      else some LV_IMG_SRC_VARIABLE

/-- `lv_img_src_parse`. The member `data_size` of `lv_img_dsc_t` (declared in `lv_img_buf.h`,
which is not among the sources) is read by the parameter `data_size`. -/
def lv_img_src_parse (data_size : Heap → Ptr → Option Nat) (h : Heap) (uri : lv_img_src_t)
    (src : Ptr) : Option (Heap × lv_img_src_t × lv_res_t) :=
  match lv_img_src_get_type h src with
  | none => none
  | some LV_IMG_SRC_FILE =>
    match lv_img_src_set_file h uri src with
    | some (h1, d) => some (h1, d, LV_RES_OK)
    | none => none
  | some LV_IMG_SRC_VARIABLE =>
    match data_size h src with
    | some n =>
      match lv_img_src_set_data h uri src n with
      | some (h1, d) => some (h1, d, LV_RES_OK)
      | none => none
    | none => none
  | some LV_IMG_SRC_SYMBOL =>
    match lv_img_src_set_symbol h uri src with
    | some (h1, d) => some (h1, d, LV_RES_OK)
    | none => none
  | some LV_IMG_SRC_UNKNOWN =>
    match lv_img_src_free h uri with
    | some (h1, d) => some (h1, d, LV_RES_INV)
    | none => none

/-- The descriptor part of a result. -/
def dscOf (r : Option (Heap × lv_img_src_t)) : Option lv_img_src_t := r.map Prod.snd

/-- A heap with one block that holds the path `a.b`; the allocator grants one request. -/
def heapAB : Heap :=
  { blocks := [{ bytes := [97, 46, 98, 0], live := true }], grants := [true], freed := [] }

/-- The same heap with an allocator that refuses. -/
def heapABfull : Heap :=
  { blocks := [{ bytes := [97, 46, 98, 0], live := true }], grants := [], freed := [] }

/-- A file source that owns the string of `heapAB`. -/
def fileAB : lv_img_src_t :=
  { type := LV_IMG_SRC_FILE, uri_len := 3, uri := Ptr.mk 0 0, ext := Ptr.mk 0 1 }

/-- A heap with two blocks, the strings `a.b` and `c`; the allocator grants one request. -/
def heapABC : Heap :=
  { blocks := [{ bytes := [97, 46, 98, 0], live := true }, { bytes := [99, 0], live := true }],
    grants := [true], freed := [] }

/-- A buffer source that refers to the block of `heapAB` without owning it. -/
def bufAB : lv_img_src_t :=
  { type := LV_IMG_SRC_VARIABLE, uri_len := 4, uri := Ptr.mk 0 0, ext := Ptr.null }

/-! ## `lv_ffmpeg.c`

The libav libraries are outside the repository. A media file is described by what the
library reports about it, allocations are answered by a list of outcomes, and the resources
that are released are logged. The decode context and the decoder-private context are held by
value: `none` stands for a NULL pointer. -/

inductive lv_img_cf_t where
  | LV_IMG_CF_UNKNOWN : lv_img_cf_t
  | LV_IMG_CF_TRUE_COLOR : lv_img_cf_t
  | LV_IMG_CF_TRUE_COLOR_ALPHA : lv_img_cf_t
  deriving DecidableEq, Repr

inductive lv_img_dec_flags_t where
  | LV_IMG_DEC_ALL : lv_img_dec_flags_t
  | LV_IMG_DEC_ONLYMETA : lv_img_dec_flags_t
  deriving DecidableEq, Repr

open lv_img_cf_t lv_img_dec_flags_t

/-- The header `lv_img_header_t`. Its declaration (`lv_img_buf.h`) is not among the sources, so
the width of the members is not known: the assigned values are kept as they are. -/
structure lv_img_header_t where
  w : Int
  h : Int
  always_zero : Nat
  cf : lv_img_cf_t
  deriving DecidableEq, Repr

/-- One packet as `av_read_frame` delivers it: a packet of another stream, or a packet of the
video stream with the value `ffmpeg_decode_packet` returns for it and the picture that is
written to the destination buffer when that value is positive. -/
inductive Packet where
  | other : Packet
  | video (ret : Int) (picture : Nat) : Packet
  deriving DecidableEq, Repr

/-- What libav reports about a file that `avformat_open_input` can open. -/
structure Media where
  info_ok : Bool
  codec_ok : Bool
  nb_frames : Int
  avg_num : Int
  avg_den : Int
  width : Int
  height : Int
  pix_alpha : Bool
  packets : List Packet
  deriving DecidableEq, Repr

/-- The members of `struct ffmpeg_context_s` that the decoder callbacks use. `fmt_ctx` holds
the opened file and `pos` its read position; a `Bool` member tells whether the pointer of that
name is non-NULL; `video_dst_data0` is the destination buffer with the picture it holds. -/
structure ffmpeg_context_s where
  fmt_ctx : Option Media
  pos : Nat
  video_dec_ctx : Bool
  video_stream : Bool
  video_src_data0 : Bool
  video_dst_data0 : Option (Option Nat)
  frame : Bool
  pkt : Bool
  has_alpha : Bool
  last_rendered_frame : Nat
  deriving DecidableEq, Repr

/-- The context `lv_img_dec_ctx_t` of `lv_img_decoder.h`. -/
structure lv_img_dec_ctx_t where
  auto_allocated : Bool
  frame_rate : Nat
  current_frame : Nat
  total_frames : Nat
  dest_frame : Nat
  last_rendering : Nat
  frame_delay : Nat
  user_data : Option ffmpeg_context_s
  deriving DecidableEq, Repr

/-- The members of `lv_img_dec_dsc_t` that the decoder callbacks use; `input_src_type` and
`input_src_data` are `input.src->type` and the string at `input.src->data`. -/
structure lv_img_dec_dsc_t where
  input_src_type : lv_img_src_type_t
  input_src_data : Option (List Nat)
  header : lv_img_header_t
  img_data : Option (Option Nat)
  dec_ctx : Option lv_img_dec_ctx_t
  caps : Nat
  deriving DecidableEq, Repr

/-- The environment of the decoder: the files that can be opened, the outcomes of the coming
allocations, the contexts passed to `ffmpeg_close` and to `lv_free`, and the tick counter. -/
structure Sys where
  fs : List (List Nat × Media)
  grants : List Bool
  closed : List ffmpeg_context_s
  freed : List lv_img_dec_ctx_t
  tick : Nat
  deriving DecidableEq, Repr

/-- One allocation request: the outcome is taken from the list (an exhausted list refuses). -/
def Sys.alloc (sys : Sys) : Sys × Bool :=
  match sys.grants with
  | b :: g => ({ sys with grants := g }, b)
  | [] => (sys, false)

/-- A zeroed `lv_img_dec_ctx_t`, as `LV_ZERO_ALLOC` leaves it. -/
def lv_img_dec_ctx_zero : lv_img_dec_ctx_t :=
  { auto_allocated := false, frame_rate := 0, current_frame := 0, total_frames := 0,
    dest_frame := 0, last_rendering := 0, frame_delay := 0, user_data := none }

/-- A zeroed `struct ffmpeg_context_s`, as `calloc` leaves it. -/
def ffmpeg_context_zero : ffmpeg_context_s :=
  { fmt_ctx := none, pos := 0, video_dec_ctx := false, video_stream := false,
    video_src_data0 := false, video_dst_data0 := none, frame := false, pkt := false,
    has_alpha := false, last_rendered_frame := 0 }

def INT_MIN : Int := -2147483648

def INT_MAX : Int := 2147483647

/-- Division of two C `int`: undefined for a zero divisor and for `INT_MIN / -1`. -/
def c_int_div (a b : Int) : Option Int :=
  if b = 0 ∨ (a = INT_MIN ∧ b = -1) then none else some (Int.tdiv a b)

/-- Product of two C `int`: undefined when it overflows. -/
def c_int_mul (a b : Int) : Option Int :=
  if INT_MIN ≤ a * b ∧ a * b ≤ INT_MAX then some (a * b) else none

/-- `ffmpeg_close`: a NULL context is ignored, any other is released as a whole. -/
def ffmpeg_close (sys : Sys) (ffmpeg_ctx : Option ffmpeg_context_s) : Sys :=
  match ffmpeg_ctx with
  | none => sys
  | some f => { sys with closed := f :: sys.closed }

/-- `decoder_close`. -/
def decoder_close (sys : Sys) (dsc : lv_img_dec_dsc_t) : Sys × lv_img_dec_dsc_t :=
  match dsc.dec_ctx with
  | some ctx =>
    if ctx.auto_allocated = true then
      let sys1 := match ctx.user_data with
        | some f => ffmpeg_close sys (some f)
        | none => sys
      let ctx1 := { ctx with user_data := none }
      ({ sys1 with freed := ctx1 :: sys1.freed }, { dsc with dec_ctx := none })
    else (sys, dsc)
  | none => (sys, dsc)

/-- `ffmpeg_open_file`. -/
def ffmpeg_open_file (sys : Sys) (path : Option (List Nat)) : Sys × Option ffmpeg_context_s :=
  match path with
  | none => (sys, none)
  | some p =>
    if p.length = 0 then (sys, none)
    else
      let a := sys.alloc
      if a.2 = false then (ffmpeg_close a.1 none, none)
      else
        let c0 := ffmpeg_context_zero
        match a.1.fs.lookup p with
        | none => (ffmpeg_close a.1 (some c0), none)
        | some m =>
          let c1 := { c0 with fmt_ctx := some m }
          if m.info_ok = false then (ffmpeg_close a.1 (some c1), none)
          else
            let c2 := if m.codec_ok = true then
                { c1 with video_dec_ctx := true, video_stream := true, has_alpha := m.pix_alpha }
              else c1
            if c2.video_stream = false then (ffmpeg_close a.1 (some c2), none)
            else (a.1, some { c2 with last_rendered_frame := 4294967295 })

/-- `ffmpeg_get_img_header`: the header and the returned `int`. -/
def ffmpeg_get_img_header (sys : Sys) (filepath : Option (List Nat))
    (header : lv_img_header_t) : lv_img_header_t × Int :=
  match filepath.bind fun p => sys.fs.lookup p with
  | none => (header, -1)
  | some m =>
    if m.info_ok = false then (header, -1)
    else if m.codec_ok = true then
      ({ w := m.width, h := m.height, always_zero := 0,
         cf := if m.pix_alpha = true then LV_IMG_CF_TRUE_COLOR_ALPHA else LV_IMG_CF_TRUE_COLOR },
       0)
    else (header, -1)

/-- `ffmpeg_image_allocate`: the two image buffers, the frame and the packet, in this order;
the first refused allocation ends the function with a negative value. -/
def ffmpeg_image_allocate (sys : Sys) (f : ffmpeg_context_s) : Sys × ffmpeg_context_s × Int :=
  let a1 := sys.alloc
  if a1.2 = false then (a1.1, f, -1)
  else
    let f1 := { f with video_src_data0 := true }
    let a2 := a1.1.alloc
    if a2.2 = false then (a2.1, f1, -1)
    else
      let f2 := { f1 with video_dst_data0 := some none }
      let a3 := a2.1.alloc
      if a3.2 = false then (a3.1, f2, -1)
      else
        let f3 := { f2 with frame := true }
        let a4 := a3.1.alloc
        if a4.2 = false then (a4.1, f3, -1)
        else (a4.1, { f3 with pkt := true }, 0)

/-- The loop of `ffmpeg_update_next_frame` over the packets that are still to be read. -/
def ffmpeg_update_next_frame_loop (f : ffmpeg_context_s) : List Packet → ffmpeg_context_s × Int
  | [] => (f, -1)
  | Packet.other :: rest => ffmpeg_update_next_frame_loop { f with pos := f.pos + 1 } rest
  | Packet.video ret picture :: rest =>
    let f1 := { f with pos := f.pos + 1,
                       video_dst_data0 := if ret > 0 then some (some picture)
                                          else f.video_dst_data0 }
    if ret < 0 then (f1, ret)
    else if ret > 0 then (f1, ret)
    else ffmpeg_update_next_frame_loop f1 rest

/-- `ffmpeg_update_next_frame`; reading needs the file, the frame and the packet. -/
def ffmpeg_update_next_frame (f : ffmpeg_context_s) : Option (ffmpeg_context_s × Int) :=
  match f.fmt_ctx with
  | some m =>
    if f.frame = true ∧ f.pkt = true then
      some (ffmpeg_update_next_frame_loop f (m.packets.drop f.pos))
    else none
  | none => none

/-- The descriptor with the decode context `ctx` whose `user_data` points to `f`. -/
def attach (dsc : lv_img_dec_dsc_t) (ctx : lv_img_dec_ctx_t) (f : Option ffmpeg_context_s) :
    lv_img_dec_dsc_t :=
  { dsc with dec_ctx := some { ctx with user_data := f } }

/-- The label `error_out` of `decoder_open`. -/
def error_out (sys : Sys) (dsc : lv_img_dec_dsc_t) : Sys × lv_img_dec_dsc_t × lv_res_t :=
  let r := decoder_close sys dsc
  (r.1, r.2, LV_RES_INV)

/-- The end of `decoder_open`, from the allocation of the image buffers on. The colour depth
is a configuration constant that is not among the sources; it is taken as 32, the configuration
in which `convert_color_depth` is compiled out. -/
def decoder_open_frame (sys : Sys) (dsc : lv_img_dec_dsc_t) (ctx : lv_img_dec_ctx_t)
    (f : ffmpeg_context_s) : Option (Sys × lv_img_dec_dsc_t × lv_res_t) :=
  let a := if f.video_src_data0 = false then ffmpeg_image_allocate sys f else (sys, f, 0)
  if a.2.2 < 0 then some (error_out a.1 (attach dsc ctx (some a.2.1)))
  else
    let f1 := if ctx.current_frame = 0 then { a.2.1 with pos := 0 } else a.2.1
    if ctx.current_frame ≠ f1.last_rendered_frame ∧ ctx.current_frame < ctx.total_frames then
      match ffmpeg_update_next_frame f1 with
      | none => none
      | some u =>
        if u.2 < 0 then some (error_out a.1 (attach dsc ctx (some u.1)))
        else
          let ctx1 := { ctx with last_rendering := a.1.tick % 65536 }
          let f2 := { u.1 with last_rendered_frame := ctx.current_frame }
          some (a.1, { attach dsc ctx1 (some f2) with img_data := f2.video_dst_data0 }, LV_RES_OK)
    else
      some (a.1, { attach dsc ctx (some f1) with img_data := f1.video_dst_data0 }, LV_RES_OK)

/-- The part of `decoder_open` that extracts the metadata, after the decoder-private context
`f` has been found or opened. -/
def decoder_open_meta (sys : Sys) (dsc : lv_img_dec_dsc_t) (ctx : lv_img_dec_ctx_t)
    (f : ffmpeg_context_s) (flags : lv_img_dec_flags_t) :
    Option (Sys × lv_img_dec_dsc_t × lv_res_t) :=
  match f.fmt_ctx with
  | none => none
  | some m =>
    if f.video_stream = false then none
    else
      let ctx1 := { ctx with total_frames := (m.nb_frames % 4294967296).toNat }
      if ctx1.total_frames = 0 then some (error_out sys (attach dsc ctx1 (some f)))
      else
        match c_int_div m.avg_num m.avg_den with
        | none => none
        | some rate =>
          match (c_int_mul 1000 m.avg_den).bind fun x => c_int_div x m.avg_num with
          | none => none
          | some delay =>
            let ctx2 := { ctx1 with frame_rate := (rate % 32768).toNat,
                                    frame_delay := (delay % 65536).toNat }
            if f.video_dec_ctx = false then none
            else
              let dsc1 := { dsc with
                caps := 0x02 ||| 0x08,
                header := { w := m.width, h := m.height, always_zero := 0,
                            cf := if f.has_alpha = true then LV_IMG_CF_TRUE_COLOR_ALPHA
                                  else LV_IMG_CF_TRUE_COLOR } }
              if flags = LV_IMG_DEC_ONLYMETA then
                let r := decoder_close sys (attach dsc1 ctx2 (some f))
                some (r.1, r.2, LV_RES_OK)
              else decoder_open_frame sys dsc1 ctx2 f

/-- The part of `decoder_open` that follows the allocation of the decode context `ctx`. -/
def decoder_open_ctx (sys : Sys) (dsc : lv_img_dec_dsc_t) (ctx : lv_img_dec_ctx_t)
    (flags : lv_img_dec_flags_t) : Option (Sys × lv_img_dec_dsc_t × lv_res_t) :=
  let fn := dsc.input_src_data
  match ctx.user_data with
  | some f => decoder_open_meta sys dsc ctx f flags
  | none =>
    let o := ffmpeg_open_file sys fn
    match o.2 with
    | none => some (error_out o.1 (attach dsc ctx none))
    | some f => decoder_open_meta o.1 dsc ctx f flags

/-- `decoder_open`. A result `none` is undefined behaviour: a division by zero or a read
through a NULL pointer. -/
def decoder_open (sys : Sys) (dsc : lv_img_dec_dsc_t) (flags : lv_img_dec_flags_t) :
    Option (Sys × lv_img_dec_dsc_t × lv_res_t) :=
  if dsc.input_src_type ≠ LV_IMG_SRC_FILE then some (sys, dsc, LV_RES_INV)
  else
    match dsc.dec_ctx with
    | some ctx => decoder_open_ctx sys dsc ctx flags
    | none =>
      let a := sys.alloc
      if a.2 = false then some (a.1, dsc, LV_RES_INV)
      else decoder_open_ctx a.1 dsc { lv_img_dec_ctx_zero with auto_allocated := true } flags

/-- `decoder_accept`: the result and the capabilities written through `caps`. -/
def decoder_accept (sys : Sys) (src_type : lv_img_src_type_t) (src_data : Option (List Nat))
    (caps : Nat) : lv_res_t × Nat :=
  if src_type = LV_IMG_SRC_FILE then
    if (ffmpeg_get_img_header sys src_data
          { w := 0, h := 0, always_zero := 0, cf := LV_IMG_CF_UNKNOWN }).2 < 0 then
      (LV_RES_INV, caps)
    else (LV_RES_OK, 0x02 ||| 0x08)
  else (LV_RES_INV, caps)

/-- A video file of two frames, 4 by 3 pixels, 25 frames per second, no alpha channel. -/
def mediaA : Media :=
  { info_ok := true, codec_ok := true, nb_frames := 2, avg_num := 25, avg_den := 1,
    width := 4, height := 3, pix_alpha := false,
    packets := [Packet.video 1 0, Packet.video 1 1] }

/-- An environment where the path `a` leads to `mediaA` and six allocations are granted. -/
def sysA : Sys :=
  { fs := [([97], mediaA)], grants := [true, true, true, true, true, true], closed := [],
    freed := [], tick := 7 }

/-- A descriptor for the file `a` that arrives without a decode context. -/
def dscNew : lv_img_dec_dsc_t :=
  { input_src_type := LV_IMG_SRC_FILE, input_src_data := some [97],
    header := { w := 0, h := 0, always_zero := 0, cf := LV_IMG_CF_UNKNOWN },
    img_data := none, dec_ctx := none, caps := 0 }

/-- The same descriptor with a zeroed decode context supplied by the caller. -/
def dscCaller : lv_img_dec_dsc_t :=
  { dscNew with dec_ctx := some lv_img_dec_ctx_zero }

/-- The decoder-private context that `ffmpeg_open_file` returns for `mediaA`. -/
def ffA : ffmpeg_context_s :=
  { fmt_ctx := some mediaA, pos := 0, video_dec_ctx := true, video_stream := true,
    video_src_data0 := false, video_dst_data0 := none, frame := false, pkt := false,
    has_alpha := false, last_rendered_frame := 4294967295 }

/-- A descriptor whose caller-supplied decode context holds the decoder-private context. -/
def dscHeld : lv_img_dec_dsc_t :=
  { dscNew with dec_ctx := some { lv_img_dec_ctx_zero with user_data := some ffA } }

/-- A descriptor whose auto-allocated decode context holds the decoder-private context. -/
def dscAuto : lv_img_dec_dsc_t :=
  { dscNew with
    dec_ctx := some { lv_img_dec_ctx_zero with auto_allocated := true, user_data := some ffA } }

/-- The header that the decoder fills for a file `m` with the alpha flag `a`. -/
def header_of (m : Media) (a : Bool) : lv_img_header_t :=
  { w := m.width, h := m.height, always_zero := 0,
    cf := if a = true then LV_IMG_CF_TRUE_COLOR_ALPHA else LV_IMG_CF_TRUE_COLOR }

/-- The decoder-private context after the first frame of `mediaA` has been decoded. -/
def ffOpened : ffmpeg_context_s :=
  { fmt_ctx := some mediaA, pos := 1, video_dec_ctx := true, video_stream := true,
    video_src_data0 := true, video_dst_data0 := some (some 0), frame := true, pkt := true,
    has_alpha := false, last_rendered_frame := 0 }

/-- A descriptor of an open session on `mediaA` whose `current_frame` has been set to 2, the
number of frames. -/
def dscOpened : lv_img_dec_dsc_t :=
  { dscNew with
    header := { w := 4, h := 3, always_zero := 0, cf := LV_IMG_CF_TRUE_COLOR },
    img_data := some (some 0),
    caps := 10,
    dec_ctx := some { auto_allocated := true, frame_rate := 25, current_frame := 2,
                      total_frames := 2, dest_frame := 0, last_rendering := 7,
                      frame_delay := 40, user_data := some ffOpened } }

/-! ## `lv_draw_pxp_blend.c`

The PXP is programmed between `lv_pxp_reset` and `lv_pxp_run`; a blit function is described by
the configuration it programs in between. Coordinates are integers (the width of `lv_coord_t`
is declared outside the sources; the values are taken in the range where the expressions of
the source do not overflow). -/

/-- A colour format code `lv_color_format_t`. -/
abbrev lv_color_format_t := Nat

structure lv_point_t where
  x : Int
  y : Int
  deriving DecidableEq, Repr

structure lv_area_t where
  x1 : Int
  y1 : Int
  x2 : Int
  y2 : Int
  deriving DecidableEq, Repr

/-- The channels `ch.red`, `ch.green`, `ch.blue` of a colour `lv_color_t`. -/
structure lv_color_t where
  red : Nat
  green : Nat
  blue : Nat
  deriving DecidableEq, Repr

/-- The members of `lv_draw_img_dsc_t` that the blit functions read. -/
structure lv_draw_img_dsc_t where
  angle : Int
  pivot : lv_point_t
  recolor : lv_color_t
  recolor_opa : Nat
  opa : Nat
  deriving DecidableEq, Repr

/-- The constants, macros and helpers of the library that `lv_draw_pxp_blend.c` uses and that
are declared outside the sources. -/
structure PxpConf where
  LV_COLOR_DEPTH : Nat
  LV_OPA_TRANSP : Nat
  LV_OPA_MAX : Nat
  LV_COLOR_FORMAT_NATIVE_CHROMA_KEYED : lv_color_format_t
  LV_COLOR_CHROMA_KEY : lv_color_t
  lv_color_format_has_alpha : lv_color_format_t → Bool
  lv_color_mix : lv_color_t → lv_color_t → Nat → lv_color_t
  lv_color_to32 : lv_color_t → Nat

/-- Modelled from the spec: `lv_area_get_width` is not among the sources; the width of an area
counts both border columns. -/
def lv_area_get_width (a : lv_area_t) : Int := a.x2 - a.x1 + 1

/-- Modelled from the spec: `lv_area_get_height` is not among the sources; the height of an
area counts both border rows. -/
def lv_area_get_height (a : lv_area_t) : Int := a.y2 - a.y1 + 1

/-- Modelled from the spec: `lv_area_move` is not among the sources; it adds the offset to the
coordinates of both corners. -/
def lv_area_move (a : lv_area_t) (x_ofs y_ofs : Int) : lv_area_t :=
  { x1 := a.x1 + x_ofs, y1 := a.y1 + y_ofs, x2 := a.x2 + x_ofs, y2 := a.y2 + y_ofs }

inductive pxp_rotate_degree_t where
  | kPXP_Rotate0 : pxp_rotate_degree_t
  | kPXP_Rotate90 : pxp_rotate_degree_t
  | kPXP_Rotate180 : pxp_rotate_degree_t
  | kPXP_Rotate270 : pxp_rotate_degree_t
  deriving DecidableEq, Repr

inductive pxp_alpha_mode_t where
  | kPXP_AlphaEmbedded : pxp_alpha_mode_t
  | kPXP_AlphaOverride : pxp_alpha_mode_t
  | kPXP_AlphaMultiply : pxp_alpha_mode_t
  | kPXP_AlphaRop : pxp_alpha_mode_t
  deriving DecidableEq, Repr

open pxp_rotate_degree_t pxp_alpha_mode_t

/-- The buffers a PXP job reads or writes. -/
inductive PxpBuf where
  | destination : PxpBuf
  | source : PxpBuf
  | temporary : PxpBuf
  deriving DecidableEq, Repr

/-- The members of `pxp_porter_duff_config_t` that depend on the arguments:
`srcGlobalAlphaMode` (local alpha or global alpha) and `dstGlobalAlpha`. -/
structure pxp_porter_duff_config_t where
  srcLocalAlpha : Bool
  dstGlobalAlpha : Nat
  deriving DecidableEq, Repr

/-- What `lv_pxp_blit_cover` programs: the rotation (when `PXP_SetRotateConfig` is called), the
alpha surface (buffer, pixel offset of its first pixel, last column and row), the background
colour of the process surface (when it is set), the output buffer and the Porter-Duff
configuration (when it is set). -/
structure CoverJob where
  rotate : Option pxp_rotate_degree_t
  as_buf : PxpBuf
  as_offset : Int
  as_lr_x : Int
  as_lr_y : Int
  ps_background : Option Nat
  out_buf : PxpBuf
  out_offset : Int
  out_width : Int
  out_height : Int
  porter_duff : Option pxp_porter_duff_config_t
  deriving DecidableEq, Repr

/-- What `lv_pxp_blit_cf` programs: the blend configuration of the alpha surface, the process
surface (its pixel offset and last column and row, `none` when it is disabled), the alpha
surface, the colour key range (when `PXP_SetAlphaSurfaceOverlayColorKey` is called) with its
enable flag, and the output buffer. -/
structure CfJob where
  alpha : Nat
  alphaMode : pxp_alpha_mode_t
  ps : Option (Int × Int × Int)
  as_buf : PxpBuf
  as_offset : Int
  as_lr_x : Int
  as_lr_y : Int
  colorKey : Option (Nat × Nat)
  colorKeyEnable : Bool
  out_buf : PxpBuf
  out_offset : Int
  out_width : Int
  out_height : Int
  deriving DecidableEq, Repr

/-- One run of the PXP. -/
inductive PxpJob where
  | cover (j : CoverJob) : PxpJob
  | cf (j : CfJob) : PxpJob
  deriving DecidableEq, Repr

/-- The `switch` of `lv_pxp_blit_cover`: the PXP rotation and the offsets caused by the pivot. -/
def pivot_switch (dsc : lv_draw_img_dsc_t) (dest_w dest_h : Int) :
    pxp_rotate_degree_t × Int × Int :=
  let pivot := dsc.pivot
  if dsc.angle = 0 then (kPXP_Rotate0, 0, 0)
  else if dsc.angle = 900 then (kPXP_Rotate90, pivot.x + pivot.y - dest_h, pivot.y - pivot.x)
  else if dsc.angle = 1800 then (kPXP_Rotate180, 2 * pivot.x - dest_w, 2 * pivot.y - dest_h)
  else if dsc.angle = 2700 then (kPXP_Rotate270, pivot.x - pivot.y, pivot.x + pivot.y - dest_w)
  else (kPXP_Rotate0, 0, 0)

/-- `lv_pxp_blit_cover`: the destination area as the function leaves it (it is moved in place)
and the job that is run. -/
def lv_pxp_blit_cover (conf : PxpConf) (dest_buf : PxpBuf) (dest_area : lv_area_t)
    (dest_stride : Int) (src_buf : PxpBuf) (src_area : lv_area_t) (src_stride : Int)
    (dsc : lv_draw_img_dsc_t) (cf : lv_color_format_t) : lv_area_t × CoverJob :=
  let dest_w := lv_area_get_width dest_area
  let dest_h := lv_area_get_height dest_area
  let src_w := lv_area_get_width src_area
  let src_h := lv_area_get_height src_area
  let has_recolor := decide (dsc.recolor_opa ≠ conf.LV_OPA_TRANSP)
  let has_rotation := decide (dsc.angle ≠ 0)
  let sw := pivot_switch dsc dest_w dest_h
  let dest_area1 := if has_rotation = true then lv_area_move dest_area sw.2.1 sw.2.2
                    else dest_area
  (dest_area1,
   { rotate := if has_rotation = true then some sw.1 else none,
     as_buf := src_buf,
     as_offset := src_stride * src_area.y1 + src_area.x1,
     as_lr_x := src_w - 1,
     as_lr_y := src_h - 1,
     ps_background := if has_recolor = true then some (conf.lv_color_to32 dsc.recolor) else none,
     out_buf := dest_buf,
     out_offset := dest_stride * dest_area1.y1 + dest_area1.x1,
     out_width := dest_w,
     out_height := dest_h,
     porter_duff :=
       if has_recolor = true ∨ conf.lv_color_format_has_alpha cf = true then
         some { srcLocalAlpha := conf.lv_color_format_has_alpha cf,
                dstGlobalAlpha := if has_recolor = true then dsc.recolor_opa else 0x00 }
       else none })

/-- The macros `LV_COLOR_SET_R`, `LV_COLOR_SET_G`, `LV_COLOR_SET_B` store a value in a channel,
cut to the width of the channel: 5, 6 and 5 bits at a colour depth of 16, 8 bits otherwise. -/
def LV_COLOR_SET_R (conf : PxpConf) (c : lv_color_t) (v : Nat) : lv_color_t :=
  { c with red := if conf.LV_COLOR_DEPTH = 16 then v % 32 else v % 256 }

def LV_COLOR_SET_G (conf : PxpConf) (c : lv_color_t) (v : Nat) : lv_color_t :=
  { c with green := if conf.LV_COLOR_DEPTH = 16 then v % 64 else v % 256 }

def LV_COLOR_SET_B (conf : PxpConf) (c : lv_color_t) (v : Nat) : lv_color_t :=
  { c with blue := if conf.LV_COLOR_DEPTH = 16 then v % 32 else v % 256 }

/-- The colours `colorKeyLow` and `colorKeyHigh` that `lv_pxp_blit_cf` computes for a
chroma-keyed source. -/
def color_key_range (conf : PxpConf) (dsc : lv_draw_img_dsc_t) : lv_color_t × lv_color_t :=
  let colorKeyLow := conf.LV_COLOR_CHROMA_KEY
  let colorKeyHigh := conf.LV_COLOR_CHROMA_KEY
  let has_recolor := decide (dsc.recolor_opa ≠ conf.LV_OPA_TRANSP)
  if has_recolor = true then
    let colorKey := conf.lv_color_mix dsc.recolor conf.LV_COLOR_CHROMA_KEY dsc.recolor_opa
    let low1 := LV_COLOR_SET_R conf colorKeyLow
      (if colorKey.red ≠ 0 then colorKey.red - 1 else 0)
    let low2 := LV_COLOR_SET_G conf low1 (if colorKey.green ≠ 0 then colorKey.green - 1 else 0)
    let low3 := LV_COLOR_SET_B conf low2 (if colorKey.blue ≠ 0 then colorKey.blue - 1 else 0)
    if conf.LV_COLOR_DEPTH = 16 then
      let high1 := LV_COLOR_SET_R conf colorKeyHigh
        (if colorKey.red ≠ 0x1f then colorKey.red + 1 else 0x1f)
      let high2 := LV_COLOR_SET_G conf high1
        (if colorKey.green ≠ 0x3f then colorKey.green + 1 else 0x3f)
      let high3 := LV_COLOR_SET_B conf high2
        (if colorKey.blue ≠ 0x1f then colorKey.blue + 1 else 0x1f)
      (low3, high3)
    else
      let high1 := LV_COLOR_SET_R conf colorKeyHigh
        (if colorKey.red ≠ 0xff then colorKey.red + 1 else 0xff)
      let high2 := LV_COLOR_SET_G conf high1
        (if colorKey.green ≠ 0xff then colorKey.green + 1 else 0xff)
      let high3 := LV_COLOR_SET_B conf high2
        (if colorKey.blue ≠ 0xff then colorKey.blue + 1 else 0xff)
      (low3, high3)
  else (colorKeyLow, colorKeyHigh)

/-- The value of `asBlendConfig.alphaMode` when `lv_pxp_blit_cf` programs the blend. -/
def blit_cf_alpha_mode (conf : PxpConf) (dsc : lv_draw_img_dsc_t) (cf : lv_color_format_t) :
    pxp_alpha_mode_t :=
  if dsc.opa ≥ conf.LV_OPA_MAX ∧ ¬ (conf.lv_color_format_has_alpha cf = true) ∧
      cf ≠ conf.LV_COLOR_FORMAT_NATIVE_CHROMA_KEYED then
    kPXP_AlphaRop
  else if dsc.opa ≥ conf.LV_OPA_MAX then
    (if conf.lv_color_format_has_alpha cf = true then kPXP_AlphaEmbedded else kPXP_AlphaOverride)
  else
    (if conf.lv_color_format_has_alpha cf = true then kPXP_AlphaMultiply else kPXP_AlphaOverride)

/-- `lv_pxp_blit_cf`: the job that is run. -/
def lv_pxp_blit_cf (conf : PxpConf) (dest_buf : PxpBuf) (dest_area : lv_area_t)
    (dest_stride : Int) (src_buf : PxpBuf) (src_area : lv_area_t) (src_stride : Int)
    (dsc : lv_draw_img_dsc_t) (cf : lv_color_format_t) : CfJob :=
  let dest_w := lv_area_get_width dest_area
  let dest_h := lv_area_get_height dest_area
  let src_w := lv_area_get_width src_area
  let src_h := lv_area_get_height src_area
  let range := color_key_range conf dsc
  { alpha := dsc.opa,
    alphaMode := blit_cf_alpha_mode conf dsc cf,
    ps := if dsc.opa ≥ conf.LV_OPA_MAX ∧ ¬ (conf.lv_color_format_has_alpha cf = true) ∧
              cf ≠ conf.LV_COLOR_FORMAT_NATIVE_CHROMA_KEYED then none
          else some (dest_stride * dest_area.y1 + dest_area.x1, dest_w - 1, dest_h - 1),
    as_buf := src_buf,
    as_offset := src_stride * src_area.y1 + src_area.x1,
    as_lr_x := src_w - 1,
    as_lr_y := src_h - 1,
    colorKey := if cf = conf.LV_COLOR_FORMAT_NATIVE_CHROMA_KEYED then
        some (conf.lv_color_to32 range.1, conf.lv_color_to32 range.2)
      else none,
    colorKeyEnable := decide (cf = conf.LV_COLOR_FORMAT_NATIVE_CHROMA_KEYED),
    out_buf := dest_buf,
    out_offset := dest_stride * dest_area.y1 + dest_area.x1,
    out_width := dest_w,
    out_height := dest_h }

/-- `lv_pxp_blit_opa`: the two jobs that are run, the transformation into `temp_buf` and the
blit of the temporary result. -/
def lv_pxp_blit_opa (conf : PxpConf) (dest_buf : PxpBuf) (dest_area : lv_area_t)
    (dest_stride : Int) (src_buf : PxpBuf) (src_area : lv_area_t) (src_stride : Int)
    (dsc : lv_draw_img_dsc_t) (cf : lv_color_format_t) : List PxpJob :=
  let temp_area := dest_area
  let temp_stride := dest_stride
  let temp_w := lv_area_get_width temp_area
  let temp_h := lv_area_get_height temp_area
  let step1 := lv_pxp_blit_cover conf PxpBuf.temporary temp_area temp_stride src_buf src_area
    src_stride dsc cf
  let temp_area1 := step1.1
  let temp_area2 :=
    if dsc.angle = 900 ∨ dsc.angle = 2700 then
      { temp_area1 with x2 := temp_area1.x1 + temp_h - 1, y2 := temp_area1.y1 + temp_w - 1 }
    else temp_area1
  [PxpJob.cover step1.2,
   PxpJob.cf (lv_pxp_blit_cf conf dest_buf temp_area2 dest_stride PxpBuf.temporary temp_area2
     temp_stride dsc cf)]

/-- `lv_gpu_nxp_pxp_blit_transform`: the destination area as the function leaves it and the
jobs that are run. -/
def lv_gpu_nxp_pxp_blit_transform (conf : PxpConf) (dest_buf : PxpBuf) (dest_area : lv_area_t)
    (dest_stride : Int) (src_buf : PxpBuf) (src_area : lv_area_t) (src_stride : Int)
    (dsc : lv_draw_img_dsc_t) (cf : lv_color_format_t) : lv_area_t × List PxpJob :=
  let has_recolor := decide (dsc.recolor_opa ≠ conf.LV_OPA_TRANSP)
  let has_rotation := decide (dsc.angle ≠ 0)
  if has_recolor = true ∨ has_rotation = true then
    if dsc.opa ≥ conf.LV_OPA_MAX ∧ ¬ (conf.lv_color_format_has_alpha cf = true) ∧
        cf ≠ conf.LV_COLOR_FORMAT_NATIVE_CHROMA_KEYED then
      let r := lv_pxp_blit_cover conf dest_buf dest_area dest_stride src_buf src_area src_stride
        dsc cf
      (r.1, [PxpJob.cover r.2])
    else
      (dest_area, lv_pxp_blit_opa conf dest_buf dest_area dest_stride src_buf src_area
        src_stride dsc cf)
  else
    (dest_area, [PxpJob.cf (lv_pxp_blit_cf conf dest_buf dest_area dest_stride src_buf src_area
      src_stride dsc cf)])

/-- Whether the pixel `p` lies in the colour key range from `low` to `high`: every channel of
`p` lies between the channel of `low` and the channel of `high`. -/
def inKeyRange (low high p : lv_color_t) : Prop :=
  (low.red ≤ p.red ∧ p.red ≤ high.red) ∧ (low.green ≤ p.green ∧ p.green ≤ high.green) ∧
    (low.blue ≤ p.blue ∧ p.blue ≤ high.blue)

instance (low high p : lv_color_t) : Decidable (inKeyRange low high p) := by
  unfold inKeyRange; infer_instance

/-- The largest value of the red, green and blue channel at the configured colour depth. -/
def channelMax (conf : PxpConf) : lv_color_t :=
  if conf.LV_COLOR_DEPTH = 16 then { red := 0x1f, green := 0x3f, blue := 0x1f }
  else { red := 0xff, green := 0xff, blue := 0xff }

/-- A colour whose channels fit their bit fields. -/
def fits (conf : PxpConf) (c : lv_color_t) : Prop :=
  c.red ≤ (channelMax conf).red ∧ c.green ≤ (channelMax conf).green ∧
    c.blue ≤ (channelMax conf).blue

instance (conf : PxpConf) (c : lv_color_t) : Decidable (fits conf c) := by
  unfold fits; infer_instance

/-- Two values that are `n` apart, in either direction. -/
def apart (a b n : Nat) : Prop := a = b + n ∨ b = a + n

instance (a b n : Nat) : Decidable (apart a b n) := by
  unfold apart; infer_instance

/-- A configuration of 32-bit colour depth with the green chroma key; the colour mix returns
its first argument, formats 3 and 4 have an alpha channel and format 2 is chroma-keyed. -/
def confA : PxpConf :=
  { LV_COLOR_DEPTH := 32, LV_OPA_TRANSP := 0, LV_OPA_MAX := 253,
    LV_COLOR_FORMAT_NATIVE_CHROMA_KEYED := 2,
    LV_COLOR_CHROMA_KEY := { red := 0, green := 255, blue := 0 },
    lv_color_format_has_alpha := fun cf => decide (cf = 3 ∨ cf = 4),
    lv_color_mix := fun c1 _ _ => c1,
    lv_color_to32 := fun c => 0xff000000 + c.red * 65536 + c.green * 256 + c.blue }

/-- A draw descriptor without rotation and recolor, opaque. -/
def dscPlain : lv_draw_img_dsc_t :=
  { angle := 0, pivot := { x := 0, y := 0 }, recolor := { red := 0, green := 0, blue := 0 },
    recolor_opa := 0, opa := 255 }

/-- A draw descriptor with a recolor to the colour (10, 20, 30). -/
def dscRecolor : lv_draw_img_dsc_t :=
  { angle := 0, pivot := { x := 0, y := 0 }, recolor := { red := 10, green := 20, blue := 30 },
    recolor_opa := 128, opa := 255 }

/-- The area of 10 by 10 pixels at the origin. -/
def area10 : lv_area_t := { x1 := 0, y1 := 0, x2 := 9, y2 := 9 }

/-! ## Decode session: streams without a nominal rate, and animation steps -/

/-- The file `mediaA` with the average frame rate `num / den`. -/
def mediaVfr (num den : Int) : Media := { mediaA with avg_num := num, avg_den := den }

/-- The environment `sysA` with the path `a` leading to `mediaVfr num den`. -/
def sysVfr (num den : Int) : Sys := { sysA with fs := [([97], mediaVfr num den)] }

/-- The step of the caller between two opens of an animation:
`dsc->dec_ctx->current_frame = n`. -/
def set_current_frame (dsc : lv_img_dec_dsc_t) (n : Nat) : lv_img_dec_dsc_t :=
  { dsc with dec_ctx := dsc.dec_ctx.map fun c => { c with current_frame := n } }

/-- A session on one descriptor: a full open for each entry of the list, with `current_frame`
set to the entry before the open. The result lists, for each open, what `decoder_open` returned
and the picture that `img_data` holds afterwards. -/
def session (sys : Sys) (dsc : lv_img_dec_dsc_t) :
    List Nat → Option (List (lv_res_t × Option (Option Nat)))
  | [] => some []
  | n :: rest =>
    match decoder_open sys (set_current_frame dsc n) LV_IMG_DEC_ALL with
    | none => none
    | some r => (session r.1 r.2.1 rest).map fun l => (r.2.2, r.2.1.img_data) :: l

/-! ## `lv_img.c` (the image widget): the rotation angle -/

/-- The member `angle` of `lv_img_ext_t`. The structure is declared in `lv_img.h`, which is not
among the sources; `lv_img_get_angle` returns the member as `uint16_t`, and the member is taken
with that type. -/
structure lv_img_ext_t where
  angle : Nat
  deriving DecidableEq, Repr

/-- `lv_img_set_angle`. The parameter is an `int16_t`; `%` is the remainder of the C division,
which truncates toward zero. The calls `lv_obj_invalidate` and `lv_obj_refresh_ext_draw_pad`
do not write the member and are left out. -/
def lv_img_set_angle (ext : lv_img_ext_t) (angle : Int) : lv_img_ext_t :=
  let angle1 := if angle < 0 ∨ angle ≥ 360 then Int.tmod angle 360 else angle
  if angle1 = (ext.angle : Int) then ext
  else { ext with angle := (angle1 % 65536).toNat }

/-- `lv_img_get_angle`. -/
def lv_img_get_angle (ext : lv_img_ext_t) : Nat := ext.angle % 65536


/-! ## `lv_flex.c`: the flex direction of a container -/

/-- The members `dir`, `wrap` and `rev` of `flex_cont` in the object's `spec_attr`. -/
structure lv_flex_cont_t where
  dir : Nat
  wrap : Nat
  rev : Nat
  deriving DecidableEq, Repr

/-- The flag values `_LV_FLEX_WRAP` and `_LV_FLEX_REVERSE` of `lv_flex.h`, which is not among
the sources. -/
structure FlexFlags where
  _LV_FLEX_WRAP : Nat
  _LV_FLEX_REVERSE : Nat
  deriving DecidableEq, Repr

/-- An object as `lv_flex.c` sees it: `spec_attr` (NULL or allocated), the outcome of the next
allocation, and the number of calls of `_lv_flex_refresh`, which moves the children and leaves
the settings alone. -/
structure FlexObj where
  spec_attr : Option lv_flex_cont_t
  grant : Bool
  refreshed : Nat
  deriving DecidableEq, Repr

/-- Modelled from the spec: `lv_obj_allocate_spec_attr` is not among the sources; it
allocates a zeroed `spec_attr` when the object has none. -/
def lv_obj_allocate_spec_attr (obj : FlexObj) : FlexObj :=
  match obj.spec_attr with
  | some _ => obj
  | none => if obj.grant = true then { obj with spec_attr := some ⟨0, 0, 0⟩ } else obj

/-- `lv_obj_set_flex_dir`; `none` is the write through a NULL `spec_attr`. -/
def lv_obj_set_flex_dir (k : FlexFlags) (obj : FlexObj) (flex_dir : Nat) : Option FlexObj :=
  let obj1 := lv_obj_allocate_spec_attr obj
  match obj1.spec_attr with
  | none => none
  | some c =>
    if c.dir = flex_dir then some obj1
    else
      some { obj1 with
             spec_attr := some { dir := flex_dir &&& 0x3,
                                 wrap := if flex_dir &&& k._LV_FLEX_WRAP ≠ 0 then 1 else 0,
                                 rev := if flex_dir &&& k._LV_FLEX_REVERSE ≠ 0 then 1 else 0 },
             refreshed := obj1.refreshed + 1 }

/-- `get_dir`. -/
def get_dir (obj : FlexObj) : Nat :=
  match obj.spec_attr with
  | some c => c.dir
  | none => 0

/-- `get_rev`. -/
def get_rev (obj : FlexObj) : Bool :=
  match obj.spec_attr with
  | some c => c.rev != 0
  | none => false

/-- `get_wrap`. -/
def get_wrap (obj : FlexObj) : Bool :=
  match obj.spec_attr with
  | some c => c.wrap != 0
  | none => false


/-! ## `lv_animbtn.c`: the state of an animated button -/

/-- The states `lv_animbtn_state_t`; `lv_animbtn.h` is not among the sources. The source
indexes `state_desc` with `state - 1` and stores 0 in `prev_state` for "no state", so a
state is one of these six and `Option` adds the value 0. -/
inductive lv_animbtn_state_t where
  | LV_ANIMBTN_STATE_RELEASED
  | LV_ANIMBTN_STATE_PRESSED
  | LV_ANIMBTN_STATE_DISABLED
  | LV_ANIMBTN_STATE_CHECKED_RELEASED
  | LV_ANIMBTN_STATE_CHECKED_PRESSED
  | LV_ANIMBTN_STATE_CHECKED_DISABLED
  deriving DecidableEq, Repr

open lv_animbtn_state_t

/-- The object state flags of `lv_obj.h`, which is not among the sources, with the values of
the library. -/
def LV_STATE_DEFAULT : Nat := 0x0000

def LV_STATE_CHECKED : Nat := 0x0001

def LV_STATE_PRESSED : Nat := 0x0020

def LV_STATE_DISABLED : Nat := 0x0080

/-- The members of `lv_animbtn_state_desc_t` that `setup_anim` and `is_state_valid` read. -/
structure lv_animbtn_state_desc_t where
  first_frame : Nat
  last_frame : Nat
  control : Nat
  deriving DecidableEq, Repr

/-- One entry of `trans_desc`; the members `from` and `to` are written `from_` and `to_`. -/
structure lv_animbtn_transition_t where
  from_ : Option lv_animbtn_state_t
  to_ : Option lv_animbtn_state_t
  desc : lv_animbtn_state_desc_t
  deriving DecidableEq, Repr

/-- A call on the image object `animbtn->img`. -/
inductive ImgCall where
  | lv_img_set_current_frame (frame : Nat) : ImgCall
  | lv_img_set_stop_at_frame (frame : Nat) (forward : Bool) : ImgCall
  deriving DecidableEq, Repr

/-- The control flags of `lv_img.h` and the bit test `LV_BT`, declared outside the sources. -/
structure AnimbtnConf where
  LV_IMG_CTRL_MARKED : Nat
  LV_IMG_CTRL_BACKWARD : Nat
  LV_BT : Nat → Nat → Bool

/-- An animated button: the state flags of the object (`lv_obj_get_state`), the members of
`lv_animbtn_t`, and the calls made on the image so far. `state_desc s` is
`state_desc[s - 1]`; `img` tells whether the pointer is non-NULL; `trans_count` is the
length of `trans_desc`. -/
structure lv_animbtn_t where
  state : Nat
  state_desc : lv_animbtn_state_t → lv_animbtn_state_desc_t
  img : Bool
  img_calls : List ImgCall
  prev_state : Option lv_animbtn_state_t
  trans_desc : List lv_animbtn_transition_t

/-- Modelled from the spec: `lv_obj_clear_state` is not among the sources; it clears the
given flags of the 16-bit object state. -/
def lv_obj_clear_state (obj : lv_animbtn_t) (state : Nat) : lv_animbtn_t :=
  { obj with state := obj.state &&& (0xFFFF ^^^ state) }

/-- Modelled from the spec: `lv_obj_add_state` is not among the sources; it sets the given
flags of the object state. -/
def lv_obj_add_state (obj : lv_animbtn_t) (state : Nat) : lv_animbtn_t :=
  { obj with state := obj.state ||| state }

/-- `get_state`. -/
def get_state (animbtn : lv_animbtn_t) : lv_animbtn_state_t :=
  let obj_state := animbtn.state
  if obj_state &&& LV_STATE_DISABLED ≠ 0 then
    if obj_state &&& LV_STATE_CHECKED ≠ 0 then LV_ANIMBTN_STATE_CHECKED_DISABLED
    else LV_ANIMBTN_STATE_DISABLED
  else if obj_state &&& LV_STATE_CHECKED ≠ 0 then
    if obj_state &&& LV_STATE_PRESSED ≠ 0 then LV_ANIMBTN_STATE_CHECKED_PRESSED
    else LV_ANIMBTN_STATE_CHECKED_RELEASED
  else
    if obj_state &&& LV_STATE_PRESSED ≠ 0 then LV_ANIMBTN_STATE_PRESSED
    else LV_ANIMBTN_STATE_RELEASED

/-- `is_state_valid`. -/
def is_state_valid (k : AnimbtnConf) (state : lv_animbtn_state_desc_t) : Bool :=
  k.LV_BT state.control k.LV_IMG_CTRL_MARKED

/-- `suggest_state`. -/
def suggest_state (k : AnimbtnConf) (obj : lv_animbtn_t) (state : lv_animbtn_state_t) :
    lv_animbtn_state_t :=
  let ok := fun s => is_state_valid k (obj.state_desc s)
  if ok state = false then
    match state with
    | LV_ANIMBTN_STATE_PRESSED =>
      if ok LV_ANIMBTN_STATE_RELEASED then LV_ANIMBTN_STATE_RELEASED else state
    | LV_ANIMBTN_STATE_CHECKED_RELEASED =>
      if ok LV_ANIMBTN_STATE_RELEASED then LV_ANIMBTN_STATE_RELEASED else state
    | LV_ANIMBTN_STATE_CHECKED_PRESSED =>
      if ok LV_ANIMBTN_STATE_CHECKED_RELEASED then LV_ANIMBTN_STATE_CHECKED_RELEASED
      else if ok LV_ANIMBTN_STATE_PRESSED then LV_ANIMBTN_STATE_PRESSED
      else if ok LV_ANIMBTN_STATE_RELEASED then LV_ANIMBTN_STATE_RELEASED
      else state
    | LV_ANIMBTN_STATE_DISABLED =>
      if ok LV_ANIMBTN_STATE_RELEASED then LV_ANIMBTN_STATE_RELEASED else state
    | LV_ANIMBTN_STATE_CHECKED_DISABLED =>
      if ok LV_ANIMBTN_STATE_CHECKED_RELEASED then LV_ANIMBTN_STATE_CHECKED_RELEASED
      else if ok LV_ANIMBTN_STATE_RELEASED then LV_ANIMBTN_STATE_RELEASED
      else state
    | LV_ANIMBTN_STATE_RELEASED => state
  else state

/-- `find_trans`: the index of the first transition from `from_` to `to_`, or `trans_count`. -/
def find_trans (trans_desc : List lv_animbtn_transition_t)
    (from_ to_ : Option lv_animbtn_state_t) : Nat :=
  match trans_desc with
  | [] => 0
  | t :: rest => if t.from_ = from_ ∧ t.to_ = to_ then 0 else find_trans rest from_ to_ + 1

/-- `is_transiting`. -/
def is_transiting (animbtn : lv_animbtn_t) (current_state : lv_animbtn_state_t) : Bool :=
  animbtn.prev_state != some current_state

/-- `setup_anim`: the two calls on the image. -/
def setup_anim (k : AnimbtnConf) (animbtn : lv_animbtn_t) (desc : lv_animbtn_state_desc_t) :
    lv_animbtn_t :=
  let backward := k.LV_BT desc.control k.LV_IMG_CTRL_BACKWARD
  if backward = true ∧ desc.first_frame < desc.last_frame then
    { animbtn with
      img_calls := animbtn.img_calls ++
        [ImgCall.lv_img_set_current_frame desc.last_frame,
         ImgCall.lv_img_set_stop_at_frame desc.first_frame (!backward)] }
  else
    { animbtn with
      img_calls := animbtn.img_calls ++
        [ImgCall.lv_img_set_current_frame desc.first_frame,
         ImgCall.lv_img_set_stop_at_frame desc.last_frame (!backward)] }

/-- `apply_state`. `lv_obj_refresh_self_size` and `lv_obj_invalidate` do not write the
members above and are left out. -/
def apply_state (k : AnimbtnConf) (obj : lv_animbtn_t) (skip_transition : Bool) :
    lv_animbtn_t :=
  let current_state := get_state obj
  let state := suggest_state k obj current_state
  let pos := find_trans obj.trans_desc obj.prev_state (some current_state)
  if (is_transiting obj current_state = true ∧ skip_transition = false) ∧
      pos ≠ obj.trans_desc.length then
    match obj.trans_desc[pos]? with
    | some t => setup_anim k obj t.desc
    | none => obj
  else if some state = obj.prev_state ∨ obj.img = false ∨
      is_state_valid k (obj.state_desc state) = false then obj
  else
    { setup_anim k obj (obj.state_desc state) with prev_state := some state }

/-- `lv_animbtn_set_state`. -/
def lv_animbtn_set_state (k : AnimbtnConf) (obj : lv_animbtn_t) (state : lv_animbtn_state_t)
    (skip_transition : Bool) : lv_animbtn_t :=
  let s0 := LV_STATE_DEFAULT
  let s1 := if state = LV_ANIMBTN_STATE_PRESSED ∨ state = LV_ANIMBTN_STATE_CHECKED_PRESSED
    then s0 ||| LV_STATE_PRESSED else s0
  let s2 := if state = LV_ANIMBTN_STATE_DISABLED ∨ state = LV_ANIMBTN_STATE_CHECKED_DISABLED
    then s1 ||| LV_STATE_DISABLED else s1
  let obj_state := if state = LV_ANIMBTN_STATE_CHECKED_DISABLED ∨
      state = LV_ANIMBTN_STATE_CHECKED_PRESSED ∨ state = LV_ANIMBTN_STATE_CHECKED_RELEASED
    then s2 ||| LV_STATE_CHECKED else s2
  let obj1 := lv_obj_clear_state obj (LV_STATE_CHECKED ||| LV_STATE_PRESSED ||| LV_STATE_DISABLED)
  let obj2 := lv_obj_add_state obj1 obj_state
  apply_state k obj2 skip_transition

/-! ## `lv_btnmatrix.c`

A string of the map is its list of bytes; the map is the array of strings up to and including
the closing `""`, and a read past its end has no defined result. The arrays `button_areas` and
`ctrl_bits` are NULL (`none`) or hold their elements. The 8-bit and 16-bit counters are
reduced modulo their width; the `uint32_t` counters `row`, `btn`, `btn_tot_i` and
`row_unit_cnt` are bounded by them and never wrap. `lv_coord_t` and `lv_style_int_t` are
declared in the configuration header, which is not among the sources; they are `int16_t`
there, and `int` has 32 bits. So an operation with a `uint32_t` operand converts the other
operand to `uint32_t` and is done modulo `2 ^ 32`, and the assignment of the result to an
`lv_coord_t` keeps its low 16 bits. `lv_obj_invalidate` and `invalidate_button_area` mark
screen areas as dirty and write none of the members; they are left out. -/

/-- The control bits of `lv_btnmatrix.h`, which is not among the sources, with the values of
the library. -/
def LV_BTNMATRIX_WIDTH_MASK : Nat := 0x0007

def LV_BTNMATRIX_CTRL_DISABLED : Nat := 0x0020

def LV_BTNMATRIX_CTRL_CHECKABLE : Nat := 0x0040

def LV_BTNMATRIX_CTRL_CHECKED : Nat := 0x0080

def LV_BTNMATRIX_BTN_NONE : Nat := 0xFFFF

/-- The string `"\n"` of a line break. -/
def LINE_BREAK : List Nat := [10]

/-- A button matrix: the members of `lv_btnmatrix_ext_t` that the functions below use, and
what they obtain from the object through the library: the base direction, the style values,
the fitted size, and the outcomes of the coming allocations. -/
structure lv_btnmatrix_t where
  map_p : List (List Nat)
  button_areas : Option (List lv_area_t)
  ctrl_bits : Option (List Nat)
  btn_cnt : Nat
  btn_id_pr : Nat
  one_check : Bool
  base_dir_rtl : Bool
  pad_left : Int
  pad_top : Int
  margin_top : Int
  margin_bottom : Int
  margin_left : Int
  margin_right : Int
  width_fit : Int
  height_fit : Int
  grants : List Bool
  deriving DecidableEq, Repr

/-- `get_button_width`. -/
def get_button_width (ctrl_bits : Nat) : Nat :=
  let w := (ctrl_bits &&& LV_BTNMATRIX_WIDTH_MASK) % 256
  if w ≠ 0 then w else 1

/-- `button_is_inactive`. -/
def button_is_inactive (ctrl_bits : Nat) : Bool :=
  ctrl_bits &&& LV_BTNMATRIX_CTRL_DISABLED != 0

/-- `button_is_tgl_enabled`. -/
def button_is_tgl_enabled (ctrl_bits : Nat) : Bool :=
  ctrl_bits &&& LV_BTNMATRIX_CTRL_CHECKABLE != 0

/-- `button_get_checked`. -/
def button_get_checked (ctrl_bits : Nat) : Bool :=
  ctrl_bits &&& LV_BTNMATRIX_CTRL_CHECKED != 0

/-- The counting loop of `allocate_btn_areas_and_controls`, from `map[i]` on, with the
`uint16_t` index `i` and the `uint16_t` counter `btn_cnt`. When `i` wraps to 0 the loop reads
the map again from its start and never ends: there is no result. -/
def count_btns : List (List Nat) → Nat → Nat → Option Nat
  | [], _, _ => none
  | s :: rest, i, btn_cnt =>
    if s.length ≠ 0 then
      if i + 1 = 65536 then none
      else count_btns rest (i + 1) (if s ≠ LINE_BREAK then (btn_cnt + 1) % 65536 else btn_cnt)
    else some btn_cnt

/-- `allocate_btn_areas_and_controls`. The two allocations take their outcome from `grants`
(an exhausted list refuses); `_lv_memset_00` zeroes `btn_cnt` control words. New areas are
taken as zero; when an allocation is refused the count is 0 and no element is in use. The
calls of `lv_mem_free` on the old arrays are left out. -/
def allocate_btn_areas_and_controls (btnm : lv_btnmatrix_t) (map : List (List Nat)) :
    Option lv_btnmatrix_t :=
  match count_btns map 0 0 with
  | none => none
  | some btn_cnt =>
    if btn_cnt = btnm.btn_cnt then some btnm
    else
      let g1 := btnm.grants.head?.getD false
      let g2 := btnm.grants.tail.head?.getD false
      let areas : Option (List lv_area_t) :=
        if g1 = true then some (List.replicate btn_cnt ⟨0, 0, 0, 0⟩) else none
      let ctrl : Option (List Nat) := if g2 = true then some (List.replicate btn_cnt 0) else none
      let btn_cnt1 := if areas = none ∨ ctrl = none then 0 else btn_cnt
      some { btnm with button_areas := areas, ctrl_bits := ctrl, btn_cnt := btn_cnt1,
                       grants := btnm.grants.tail.tail }

/-- The loop of `lv_btnmatrix_set_map` that counts the lines, from `map[i]` on, with the
`uint8_t` counter `row_cnt`. -/
def count_rows : List (List Nat) → Nat → Option Nat
  | [], _ => none
  | s :: rest, row_cnt =>
    if s.length ≠ 0 then count_rows rest (if s = LINE_BREAK then (row_cnt + 1) % 256 else row_cnt)
    else some row_cnt

/-- The `while` loop of `lv_btnmatrix_set_map` that counts the units and the buttons of the
row that starts at `map_row`; both counters are `uint16_t`. When `btn_cnt` wraps to 0 the
loop reads the row again from its start and never ends: there is no result. -/
def count_row (ctrl_bits : List Nat) (btn_tot_i : Nat) :
    List (List Nat) → Nat → Nat → Option (Nat × Nat)
  | [], _, _ => none
  | s :: rest, unit_cnt, btn_cnt =>
    if s ≠ LINE_BREAK ∧ s.length ≠ 0 then
      match ctrl_bits[btn_tot_i + btn_cnt]? with
      | none => none
      | some c =>
        if btn_cnt + 1 = 65536 then none
        else
          count_row ctrl_bits btn_tot_i rest ((unit_cnt + get_button_width c) % 65536)
            (btn_cnt + 1)
    else some (unit_cnt, btn_cnt)

/-- The conversion of an integer to `lv_coord_t`, taken as `int16_t`: the value in
`-32768 .. 32767` with the same low 16 bits. -/
def lv_coord_t_of (x : Int) : Int := (x + 32768) % 65536 - 32768

/-- The conversion of an integer to `uint32_t`. -/
def uint32_t_of (x : Int) : Int := x % 4294967296

/-- The sum `a + b` of C when one operand is a `uint32_t`. -/
def add32 (a b : Int) : Int := uint32_t_of (uint32_t_of a + uint32_t_of b)

/-- The difference `a - b` of C when one operand is a `uint32_t`. -/
def sub32 (a b : Int) : Int := uint32_t_of (uint32_t_of a - uint32_t_of b)

/-- The product `a * b` of C when one operand is a `uint32_t`. -/
def mul32 (a b : Int) : Int := uint32_t_of (uint32_t_of a * uint32_t_of b)

/-- The quotient `a / b` of C when one operand is a `uint32_t`, for a divisor other than 0. -/
def div32 (a b : Int) : Int := uint32_t_of a / uint32_t_of b

/-- The values of `lv_coord_t`. -/
abbrev is_coord (x : Int) : Prop := -32768 ≤ x ∧ x ≤ 32767

/-- The style values and the fitted size that the object gives are values of
`lv_style_int_t` and of `lv_coord_t`. -/
abbrev coords_fit (btnm : lv_btnmatrix_t) : Prop :=
  is_coord btnm.pad_left ∧ is_coord btnm.pad_top ∧ is_coord btnm.margin_top ∧
  is_coord btnm.margin_bottom ∧ is_coord btnm.margin_left ∧ is_coord btnm.margin_right ∧
  is_coord btnm.width_fit ∧ is_coord btnm.height_fit

/-- `row_gap` of `lv_btnmatrix_set_map`. -/
def row_gap (btnm : lv_btnmatrix_t) : Int := max btnm.margin_top btnm.margin_bottom

/-- `col_gap` of `lv_btnmatrix_set_map`. -/
def col_gap (btnm : lv_btnmatrix_t) : Int := max btnm.margin_left btnm.margin_right

/-- `max_h_no_gap` of `lv_btnmatrix_set_map`: the difference is computed in `int` and stored
in an `lv_coord_t`. -/
def max_h_no_gap (btnm : lv_btnmatrix_t) (row_cnt : Nat) : Int :=
  lv_coord_t_of (btnm.height_fit - row_gap btnm * ((row_cnt : Int) - 1))

/-- `row_y1` of `lv_btnmatrix_set_map` for the row `row`, a `uint32_t`:
`top + (max_h_no_gap * row) / row_cnt + row * row_gap`, stored in an `lv_coord_t`. -/
def row_y1 (btnm : lv_btnmatrix_t) (row_cnt : Nat) (max_h_no_gap : Int) (row : Nat) : Int :=
  lv_coord_t_of
    (add32 (add32 btnm.pad_top (div32 (mul32 max_h_no_gap row) row_cnt))
      (mul32 row (row_gap btnm)))

/-- `row_y2` of `lv_btnmatrix_set_map` for the row `row`, a `uint32_t`:
`top + (max_h_no_gap * (row + 1)) / row_cnt + row * row_gap - 1`, stored in an
`lv_coord_t`. -/
def row_y2 (btnm : lv_btnmatrix_t) (row_cnt : Nat) (max_h_no_gap : Int) (row : Nat) : Int :=
  lv_coord_t_of
    (sub32
      (add32 (add32 btnm.pad_top (div32 (mul32 max_h_no_gap (add32 row 1)) row_cnt))
        (mul32 row (row_gap btnm)))
      1)

/-- `max_w_no_gap` of `lv_btnmatrix_set_map` for a row of `btn_cnt` buttons: the difference
is computed in `int`, stored in an `lv_coord_t`, and a negative value is then replaced
by 0. -/
def max_w_no_gap (btnm : lv_btnmatrix_t) (btn_cnt : Nat) : Int :=
  let w := lv_coord_t_of (btnm.width_fit - col_gap btnm * ((btn_cnt : Int) - 1))
  if w < 0 then 0 else w

/-- The area that `lv_btnmatrix_set_map` gives to the button `btn` of a row, `row_unit_cnt`
units from the start of the row. -/
def btn_area (btnm : lv_btnmatrix_t) (unit_cnt : Nat) (y1 y2 w_no_gap : Int)
    (btn row_unit_cnt btn_u : Nat) : lv_area_t :=
  let btn_x1 := lv_coord_t_of
    (add32 (add32 btnm.pad_left (div32 (mul32 w_no_gap row_unit_cnt) unit_cnt))
      (mul32 btn (col_gap btnm)))
  let btn_x2 := lv_coord_t_of
    (sub32
      (add32 (add32 btnm.pad_left (div32 (mul32 w_no_gap (add32 row_unit_cnt btn_u)) unit_cnt))
        (mul32 btn (col_gap btnm)))
      1)
  if btnm.base_dir_rtl = true then
    { x1 := lv_coord_t_of (btnm.width_fit - btn_x2), y1 := y1,
      x2 := lv_coord_t_of (btnm.width_fit - btn_x1), y2 := y2 }
  else { x1 := btn_x1, y1 := y1, x2 := btn_x2, y2 := y2 }

/-- The `for` loop of `lv_btnmatrix_set_map` over the buttons of one row, with `n` buttons
still to place; a division by a unit count of zero and an access outside the arrays have no
defined result. -/
def set_map_btns (btnm : lv_btnmatrix_t) (ctrl_bits : List Nat) (unit_cnt : Nat)
    (y1 y2 w_no_gap : Int) :
    Nat → Nat → Nat → Nat → List lv_area_t → Option (List lv_area_t × Nat)
  | 0, _, btn_tot_i, _, areas => some (areas, btn_tot_i)
  | n + 1, btn, btn_tot_i, row_unit_cnt, areas =>
    match ctrl_bits[btn_tot_i]? with
    | none => none
    | some c =>
      let btn_u := get_button_width c
      if unit_cnt = 0 ∨ areas.length ≤ btn_tot_i then none
      else
        set_map_btns btnm ctrl_bits unit_cnt y1 y2 w_no_gap n (btn + 1) (btn_tot_i + 1)
          (row_unit_cnt + btn_u)
          (areas.set btn_tot_i (btn_area btnm unit_cnt y1 y2 w_no_gap btn row_unit_cnt btn_u))

/-- The `for` loop of `lv_btnmatrix_set_map` over the rows, with `n` rows still to lay out. -/
def set_map_rows (btnm : lv_btnmatrix_t) (ctrl_bits : List Nat) (row_cnt : Nat)
    (max_h_no_gap : Int) :
    Nat → Nat → List (List Nat) → Nat → List lv_area_t → Option (List lv_area_t)
  | 0, _, _, _, areas => some areas
  | n + 1, row, map_row, btn_tot_i, areas =>
    match count_row ctrl_bits btn_tot_i map_row 0 0 with
    | none => none
    | some (unit_cnt, btn_cnt) =>
      if btn_cnt = 0 then
        set_map_rows btnm ctrl_bits row_cnt max_h_no_gap n (row + 1) (map_row.drop (btn_cnt + 1))
          btn_tot_i areas
      else
        match set_map_btns btnm ctrl_bits unit_cnt (row_y1 btnm row_cnt max_h_no_gap row)
            (row_y2 btnm row_cnt max_h_no_gap row) (max_w_no_gap btnm btn_cnt) btn_cnt 0
            btn_tot_i 0 areas with
        | none => none
        | some (areas1, btn_tot_i1) =>
          set_map_rows btnm ctrl_bits row_cnt max_h_no_gap n (row + 1)
            (map_row.drop (btn_cnt + 1)) btn_tot_i1 areas1

/-- `lv_btnmatrix_set_map`. -/
def lv_btnmatrix_set_map (btnm : lv_btnmatrix_t) (map : List (List Nat)) :
    Option lv_btnmatrix_t :=
  match allocate_btn_areas_and_controls btnm map with
  | none => none
  | some b1 =>
    let b2 := { b1 with map_p := map }
    match count_rows map 1 with
    | none => none
    | some row_cnt =>
      match set_map_rows b2 (b2.ctrl_bits.getD []) row_cnt (max_h_no_gap b2 row_cnt) row_cnt 0
          map 0 (b2.button_areas.getD []) with
      | none => none
      | some areas => some { b2 with button_areas := b2.button_areas.map fun _ => areas }

/-- The `while` loop of `lv_btnmatrix_get_btn_text` with `n` buttons still to pass: the final
value of the `uint16_t` index `txt_i`. -/
def get_btn_text_loop (map_p : List (List Nat)) : Nat → Nat → Option Nat
  | 0, txt_i => some txt_i
  | n + 1, txt_i =>
    let txt_i1 := (txt_i + 1) % 65536
    match map_p[txt_i1]? with
    | none => none
    | some s => get_btn_text_loop map_p n (if s = LINE_BREAK then (txt_i1 + 1) % 65536 else txt_i1)

/-- `lv_btnmatrix_get_btn_text`: `some none` is the result NULL, `some (some s)` the string
`s` of the map, `none` a read outside the map. -/
def lv_btnmatrix_get_btn_text (btnm : lv_btnmatrix_t) (btn_id : Nat) :
    Option (Option (List Nat)) :=
  if btn_id > btnm.btn_cnt then some none
  else
    match get_btn_text_loop btnm.map_p btn_id 0 with
    | none => none
    | some txt_i =>
      if btn_id = btnm.btn_cnt then some none
      else (btnm.map_p[txt_i]?).map some

/-- Write `f` of the control word of the button `btn_id`; `none` outside the array. -/
def ctrl_update (btnm : lv_btnmatrix_t) (btn_id : Nat) (f : Nat → Nat) : Option lv_btnmatrix_t :=
  match btnm.ctrl_bits with
  | none => none
  | some cb =>
    match cb[btn_id]? with
    | none => none
    | some v => some { btnm with ctrl_bits := some (cb.set btn_id (f v % 65536)) }

/-- `lv_btnmatrix_get_btn_ctrl`. -/
def lv_btnmatrix_get_btn_ctrl (btnm : lv_btnmatrix_t) (btn_id ctrl : Nat) : Option Bool :=
  if btn_id ≥ btnm.btn_cnt then some false
  else
    match btnm.ctrl_bits with
    | none => none
    | some cb => (cb[btn_id]?).map fun v => v &&& ctrl != 0

/-- `lv_btnmatrix_clear_btn_ctrl`; `~ctrl` is the complement in the 16 bits of the word. -/
def lv_btnmatrix_clear_btn_ctrl (btnm : lv_btnmatrix_t) (btn_id ctrl : Nat) :
    Option lv_btnmatrix_t :=
  if btn_id ≥ btnm.btn_cnt then some btnm
  else ctrl_update btnm btn_id fun v => v &&& (0xFFFF ^^^ ctrl)

/-- A loop `for(i = ...; i < ext->btn_cnt; i++) f(btnm, i)` with `n` buttons still to visit. -/
def for_btns (f : lv_btnmatrix_t → Nat → Option lv_btnmatrix_t) :
    Nat → Nat → lv_btnmatrix_t → Option lv_btnmatrix_t
  | 0, _, btnm => some btnm
  | n + 1, i, btnm =>
    match f btnm i with
    | none => none
    | some b1 => for_btns f n (i + 1) b1

/-- `lv_btnmatrix_clear_btn_ctrl_all`. -/
def lv_btnmatrix_clear_btn_ctrl_all (btnm : lv_btnmatrix_t) (ctrl : Nat) :
    Option lv_btnmatrix_t :=
  for_btns (fun b i => lv_btnmatrix_clear_btn_ctrl b i ctrl) btnm.btn_cnt 0 btnm

/-- `lv_btnmatrix_set_btn_ctrl`. -/
def lv_btnmatrix_set_btn_ctrl (btnm : lv_btnmatrix_t) (btn_id ctrl : Nat) :
    Option lv_btnmatrix_t :=
  if btn_id ≥ btnm.btn_cnt then some btnm
  else
    let r := if btnm.one_check = true ∧ ctrl &&& LV_BTNMATRIX_CTRL_CHECKED ≠ 0
      then lv_btnmatrix_clear_btn_ctrl_all btnm LV_BTNMATRIX_CTRL_CHECKED else some btnm
    match r with
    | none => none
    | some b1 => ctrl_update b1 btn_id fun v => v ||| ctrl

/-- `lv_btnmatrix_set_btn_ctrl_all`. -/
def lv_btnmatrix_set_btn_ctrl_all (btnm : lv_btnmatrix_t) (ctrl : Nat) : Option lv_btnmatrix_t :=
  for_btns (fun b i => lv_btnmatrix_set_btn_ctrl b i ctrl) btnm.btn_cnt 0 btnm

/-- `lv_btnmatrix_set_ctrl_map`: `_lv_memcpy` copies `btn_cnt` control words from `ctrl_map`,
then the map is laid out again. -/
def lv_btnmatrix_set_ctrl_map (btnm : lv_btnmatrix_t) (ctrl_map : List Nat) :
    Option lv_btnmatrix_t :=
  if ctrl_map.length < btnm.btn_cnt ∨
      (btnm.btn_cnt ≠ 0 ∧ (btnm.ctrl_bits.map List.length).getD 0 < btnm.btn_cnt) then none
  else
    let copied := btnm.ctrl_bits.map fun cb => ctrl_map.take btnm.btn_cnt ++ cb.drop btnm.btn_cnt
    lv_btnmatrix_set_map { btnm with ctrl_bits := copied } btnm.map_p

/-- `lv_btnmatrix_set_btn_width`. -/
def lv_btnmatrix_set_btn_width (btnm : lv_btnmatrix_t) (btn_id width : Nat) :
    Option lv_btnmatrix_t :=
  if btn_id ≥ btnm.btn_cnt then some btnm
  else
    match ctrl_update btnm btn_id fun v => v &&& (0xFFFF ^^^ LV_BTNMATRIX_WIDTH_MASK) with
    | none => none
    | some b1 =>
      match ctrl_update b1 btn_id fun v => v ||| (LV_BTNMATRIX_WIDTH_MASK &&& width) with
      | none => none
      | some b2 => lv_btnmatrix_set_map b2 b2.map_p

/-- `make_one_button_checked`. -/
def make_one_button_checked (btnm : lv_btnmatrix_t) (btn_idx : Nat) : Option lv_btnmatrix_t :=
  match lv_btnmatrix_get_btn_ctrl btnm btn_idx LV_BTNMATRIX_CTRL_CHECKED with
  | none => none
  | some was_toggled =>
    match lv_btnmatrix_clear_btn_ctrl_all btnm LV_BTNMATRIX_CTRL_CHECKED with
    | none => none
    | some b1 =>
      if was_toggled = true then lv_btnmatrix_set_btn_ctrl b1 btn_idx LV_BTNMATRIX_CTRL_CHECKED
      else some b1

/-- `lv_btnmatrix_set_one_checked`. -/
def lv_btnmatrix_set_one_checked (btnm : lv_btnmatrix_t) (one_chk : Bool) :
    Option lv_btnmatrix_t :=
  make_one_button_checked { btnm with one_check := one_chk } 0

/-- The branch `LV_SIGNAL_RELEASED` of `lv_btnmatrix_signal` as far as it writes the control
words: the toggle of the pressed button and the end of the press. The invalidation of the
areas, the update of the focused button and the event that is sent at the end are left out. -/
def signal_released (btnm : lv_btnmatrix_t) : Option lv_btnmatrix_t :=
  if btnm.btn_id_pr ≠ LV_BTNMATRIX_BTN_NONE then
    match btnm.ctrl_bits.bind fun cb => cb[btnm.btn_id_pr]? with
    | none => none
    | some v =>
      let r := if button_is_tgl_enabled v = true ∧ button_is_inactive v = false then
          let t := if button_get_checked v = true ∧ btnm.one_check = false
            then ctrl_update btnm btnm.btn_id_pr fun w => w &&& (0xFFFF ^^^ LV_BTNMATRIX_CTRL_CHECKED)
            else ctrl_update btnm btnm.btn_id_pr fun w => w ||| LV_BTNMATRIX_CTRL_CHECKED
          if btnm.one_check = true then t.bind fun b => make_one_button_checked b b.btn_id_pr
          else t
        else some btnm
      r.map fun b => { b with btn_id_pr := LV_BTNMATRIX_BTN_NONE }
  else some btnm

/-- The number of buttons whose control word has `LV_BTNMATRIX_CTRL_CHECKED`. -/
def checked_count (btnm : lv_btnmatrix_t) : Nat :=
  (((btnm.ctrl_bits.getD []).take btnm.btn_cnt).filter button_get_checked).length

/-- A button matrix as `lv_btnmatrix_create` leaves it before the first map is set, with zero
paddings and margins, a fitted size of 100 by 40, and two granted allocations. -/
def btnmNew : lv_btnmatrix_t :=
  { map_p := [[]], button_areas := none, ctrl_bits := none, btn_cnt := 0,
    btn_id_pr := LV_BTNMATRIX_BTN_NONE, one_check := false, base_dir_rtl := false,
    pad_left := 0, pad_top := 0, margin_top := 0, margin_bottom := 0, margin_left := 0,
    margin_right := 0, width_fit := 100, height_fit := 40, grants := [true, true] }

/-- The map `{"A", "B", ""}`. -/
def mapAB : List (List Nat) := [[65], [66], []]

/-- The map `{"\n", "A", ""}`, which starts with a line break. -/
def mapNlA : List (List Nat) := [[10], [65], []]

/-- The map `{"A", "\n", "\n", "B", ""}`, with two line breaks in a row. -/
def mapANlNlB : List (List Nat) := [[65], [10], [10], [66], []]

/-- The unit count of the buttons with the control words `cs`. -/
def units (cs : List Nat) : Nat := (cs.map get_button_width).sum

/-- The areas that the `for` loop over the buttons of a row writes for the control words `cs`,
from the button `btn` of the row on, `row_unit_cnt` units from its start. -/
def row_areas (btnm : lv_btnmatrix_t) (unit_cnt : Nat) (y1 y2 w_no_gap : Int) :
    Nat → Nat → List Nat → List lv_area_t
  | _, _, [] => []
  | btn, row_unit_cnt, c :: cs =>
    btn_area btnm unit_cnt y1 y2 w_no_gap btn row_unit_cnt (get_button_width c) ::
      row_areas btnm unit_cnt y1 y2 w_no_gap (btn + 1) (row_unit_cnt + get_button_width c) cs

/-- The map with the given rows of button texts: the rows joined by line breaks, then the
closing `""`. -/
def map_of_rows : List (List (List Nat)) → List (List Nat)
  | [] => [[]]
  | [r] => r ++ [[]]
  | r :: r2 :: rs => r ++ LINE_BREAK :: map_of_rows (r2 :: rs)

/-- The areas of the rows with the control words `crows`, the first of them being the row
`row` of the map: one list of areas for each row. -/
def rows_areas (btnm : lv_btnmatrix_t) (row_cnt : Nat) (max_h_no_gap : Int) :
    Nat → List (List Nat) → List (List lv_area_t)
  | _, [] => []
  | row, cs :: rest =>
    row_areas btnm (units cs) (row_y1 btnm row_cnt max_h_no_gap row)
        (row_y2 btnm row_cnt max_h_no_gap row) (max_w_no_gap btnm cs.length) 0 0 cs ::
      rows_areas btnm row_cnt max_h_no_gap (row + 1) rest

/-- Four buttons in the rows `A B`, `C`, an empty row, and `D`, with the unit widths 2, 1, 3
and 1. -/
def rowsW : List (List (List Nat × Nat)) :=
  [[([65], 2), ([66], 1)], [([67], 3)], [], [([68], 1)]]

/-- A button matrix that holds the map and the control words of `rowsW`, with left padding 5,
top padding 4, margins 2, 1, 3 and 0, and a fitted size of 100 by 40. -/
def btnmW : lv_btnmatrix_t :=
  { map_p := [[65], [66], [10], [67], [10], [10], [68], []],
    button_areas := some [⟨0, 0, 0, 0⟩, ⟨0, 0, 0, 0⟩, ⟨0, 0, 0, 0⟩, ⟨0, 0, 0, 0⟩],
    ctrl_bits := some [2, 1, 3, 1], btn_cnt := 4, btn_id_pr := LV_BTNMATRIX_BTN_NONE,
    one_check := false, base_dir_rtl := false, pad_left := 5, pad_top := 4, margin_top := 2,
    margin_bottom := 1, margin_left := 3, margin_right := 0, width_fit := 100,
    height_fit := 40, grants := [] }

/-- A new button matrix with left padding 5, left and right margins of -3000 on the buttons,
and a fitted size of 100 by 40. -/
def btnmWide : lv_btnmatrix_t :=
  { map_p := [[]], button_areas := none, ctrl_bits := none, btn_cnt := 0,
    btn_id_pr := LV_BTNMATRIX_BTN_NONE, one_check := false, base_dir_rtl := false,
    pad_left := 5, pad_top := 0, margin_top := 0, margin_bottom := 0, margin_left := -3000,
    margin_right := -3000, width_fit := 100, height_fit := 40, grants := [true, true] }

/-- A new button matrix with a top margin of 20 on the buttons and a fitted size of 100
by 10. -/
def btnmShort : lv_btnmatrix_t :=
  { map_p := [[]], button_areas := none, ctrl_bits := none, btn_cnt := 0,
    btn_id_pr := LV_BTNMATRIX_BTN_NONE, one_check := false, base_dir_rtl := false,
    pad_left := 0, pad_top := 0, margin_top := 20, margin_bottom := 0, margin_left := 0,
    margin_right := 0, width_fit := 100, height_fit := 10, grants := [true, true] }

/-- The map `{"A", "\n", "B", "\n", "C", ""}` of three rows. -/
def mapThreeRows : List (List Nat) := [[65], [10], [66], [10], [67], []]

/-- The map of one row with the twelve buttons `A` to `L`. -/
def mapWide : List (List Nat) :=
  [[65], [66], [67], [68], [69], [70], [71], [72], [73], [74], [75], [76], []]

/-- The "one check" invariant: the mode is on and at most one button is checked. -/
def one_checked (btnm : lv_btnmatrix_t) : Prop :=
  btnm.one_check = true ∧ checked_count btnm ≤ 1

/-- The number of checked words among the first `n` of `l`. -/
def cc (l : List Nat) (n : Nat) : Nat := (l.take n).countP button_get_checked

/-- A map in which no line break comes first or follows another line break: each button text
with the flag that tells whether a line break follows it. -/
def plain_map : List (List Nat × Bool) → List (List Nat)
  | [] => [[]]
  | (t, lb) :: w => if lb = true then t :: LINE_BREAK :: plain_map w else t :: plain_map w

/-! ## Lemmas on strings and the heap -/

theorem nz_zero : nz 0 = false := rfl

theorem nz_of_ne {x : Nat} (hx : x ≠ 0) : nz x = true := by
  simp [nz, hx]

theorem ne_of_nz {x : Nat} (hx : nz x = true) : x ≠ 0 := by
  simpa [nz] using hx

theorem takeWhile_nz_length_lt (r : List Nat) (h0 : 0 ∈ r) :
    (r.takeWhile nz).length + 1 ≤ r.length := by
  induction r with
  | nil => simp at h0
  | cons x xs ih =>
    by_cases hx : x = 0
    · subst hx; simp [List.takeWhile, nz_zero]
    · have h1 : 0 ∈ xs := by
        rcases List.mem_cons.mp h0 with h | h
        · exact absurd h.symm hx
        · exact h
      have := ih h1
      simp only [List.takeWhile, nz_of_ne hx, List.length_cons]
      omega

theorem take_takeWhile_nz (r : List Nat) (h0 : 0 ∈ r) :
    r.take ((r.takeWhile nz).length + 1)
      = r.takeWhile nz ++ [0] := by
  induction r with
  | nil => simp at h0
  | cons x xs ih =>
    by_cases hx : x = 0
    · subst hx; simp [List.takeWhile, nz_zero]
    · have h1 : 0 ∈ xs := by
        rcases List.mem_cons.mp h0 with h | h
        · exact absurd h.symm hx
        · exact h
      have := ih h1
      simp only [List.takeWhile, nz_of_ne hx, List.length_cons, List.take_succ_cons, this,
        List.cons_append]

theorem takeWhile_nz_append_zero (s : List Nat) (hs : ∀ x ∈ s, x ≠ 0) :
    (s ++ [0]).takeWhile nz = s := by
  induction s with
  | nil => simp [List.takeWhile, nz_zero]
  | cons x xs ih =>
    have hx : x ≠ 0 := hs x (List.mem_cons_self x xs)
    have := ih (fun y hy => hs y (List.mem_cons_of_mem x hy))
    rw [List.cons_append, List.takeWhile_cons, nz_of_ne hx, if_pos rfl, this]

theorem takeWhile_nz_ne (r : List Nat) :
    ∀ x ∈ r.takeWhile nz, x ≠ 0 := by
  intro x hx
  exact ne_of_nz (List.mem_takeWhile_imp hx)

/-- A string read from the heap holds no zero byte. -/
theorem cstr_ne_zero {h : Heap} {p : Ptr} {s : List Nat} (hs : cstr h p = some s) :
    ∀ x ∈ s, x ≠ 0 := by
  unfold cstr at hs
  cases p with
  | null => simp at hs
  | mk b o =>
    simp only at hs
    cases hb : h.blocks[b]? with
    | none => simp [hb] at hs
    | some blk =>
      simp only [hb] at hs
      split at hs
      · cases hs; exact takeWhile_nz_ne _
      · simp at hs

/-- What `cstr` reads depends only on the block the pointer points into. -/
theorem cstr_congr {h1 h2 : Heap} {b : Nat} (hb : h1.blocks[b]? = h2.blocks[b]?) (o : Nat) :
    cstr h1 (Ptr.mk b o) = cstr h2 (Ptr.mk b o) := by
  simp [cstr, hb]

/-- The string stored at the start of a live block that holds `s` and a terminator. -/
theorem cstr_of_block {h : Heap} {b : Nat} {s : List Nat}
    (hb : h.blocks[b]? = some { bytes := s ++ [0], live := true }) (hs : ∀ x ∈ s, x ≠ 0) :
    cstr h (Ptr.mk b 0) = some s := by
  simp [cstr, hb, takeWhile_nz_append_zero s hs]

/-- Releasing a block keeps the allocator outcomes and the number of blocks, and leaves every
other block as it was. -/
theorem lv_mem_free_frame {h h1 : Heap} {p : Ptr} (hf : lv_mem_free h p = some h1) :
    h1.grants = h.grants ∧ h1.blocks.length = h.blocks.length ∧
      ∀ q, Ptr.sameBlock p q = false → cstr h1 q = cstr h q := by
  cases p with
  | null =>
    simp only [lv_mem_free, Option.some.injEq] at hf
    subst hf
    exact ⟨rfl, rfl, fun _ _ => rfl⟩
  | mk b o =>
    simp only [lv_mem_free] at hf
    cases hb : h.blocks[b]? with
    | none => simp [hb] at hf
    | some blk =>
      simp only [hb] at hf
      split at hf
      · simp only [Option.some.injEq] at hf
        subst hf
        refine ⟨rfl, by simp, ?_⟩
        intro q hq
        cases q with
        | null => rfl
        | mk c oc =>
          have hne : b ≠ c := by
            simpa [Ptr.sameBlock] using hq
          apply cstr_congr
          simp [List.getElem?_set_ne hne]
      · simp at hf

/-- What `lv_img_src_free` leaves: the zero descriptor, the same allocator outcomes and number
of blocks, and every string the descriptor did not own. -/
theorem lv_img_src_free_frame {h h1 : Heap} {d z : lv_img_src_t}
    (hf : lv_img_src_free h d = some (h1, z)) :
    z = lv_img_src_zero ∧ h1.grants = h.grants ∧ h1.blocks.length = h.blocks.length ∧
      ∀ q, separate d q → cstr h1 q = cstr h q := by
  unfold lv_img_src_free at hf
  split at hf
  · rename_i ho
    cases hm : lv_mem_free h d.uri with
    | none => simp [hm] at hf
    | some h2 =>
      simp only [hm, Option.some.injEq, Prod.mk.injEq] at hf
      obtain ⟨rfl, rfl⟩ := hf
      obtain ⟨hg, hl, hc⟩ := lv_mem_free_frame hm
      exact ⟨rfl, hg, hl, fun q hq => hc q (hq ho)⟩
  · simp only [Option.some.injEq, Prod.mk.injEq] at hf
    obtain ⟨rfl, rfl⟩ := hf
    exact ⟨rfl, rfl, rfl, fun _ _ => rfl⟩

/-- A block that holds the string `s` has room for it and its terminator. -/
theorem cstr_block {h : Heap} {b o : Nat} {s : List Nat} (hs : cstr h (Ptr.mk b o) = some s) :
    ∃ blk, h.blocks[b]? = some blk ∧ blk.live = true ∧ 0 ∈ blk.bytes.drop o ∧
      s = (blk.bytes.drop o).takeWhile nz := by
  simp only [cstr] at hs
  cases hb : h.blocks[b]? with
  | none => simp [hb] at hs
  | some blk =>
    simp only [hb] at hs
    split at hs
    · rename_i hc
      simp only [Option.some.injEq] at hs
      exact ⟨blk, rfl, hc.1, hc.2, hs.symm⟩
    · simp at hs

/-- A granted `alloc_str_src` stores the length of the string and a pointer to a new block that
holds a copy of it, and reports `LV_RES_OK`. -/
theorem alloc_str_src_ok {h : Heap} {src : lv_img_src_t} {str : Ptr} {s : List Nat}
    {g : List Bool} (hs : cstr h str = some s) (hg : h.grants = true :: g) :
    alloc_str_src h src str
      = some (h.withCopy s g,
              { src with uri_len := s.length, uri := Ptr.mk h.blocks.length 0 }, LV_RES_OK) := by
  cases str with
  | null => simp [cstr] at hs
  | mk b o =>
    obtain ⟨blk, hb, hlive, h0, hseq⟩ := cstr_block hs
    have hlt : b < h.blocks.length := by
      rcases List.getElem?_eq_some_iff.mp hb with ⟨hlt, _⟩
      exact hlt
    have hlen := takeWhile_nz_length_lt _ h0
    have htake := take_takeWhile_nz _ h0
    rw [← hseq] at hlen htake
    have hdl : (blk.bytes.drop o).length = blk.bytes.length - o := List.length_drop o blk.bytes
    have hne : b ≠ h.blocks.length := Nat.ne_of_lt hlt
    simp only [alloc_str_src, strlen, hs, Option.map_some', lv_mem_alloc, hg, lv_memcpy]
    simp only [reduceCtorEq, if_false]
    rw [List.getElem?_append_right (Nat.le_refl _), List.getElem?_append_left hlt]
    simp only [Nat.sub_self, List.getElem?_cons_zero, hb]
    have hcond : (True ∧ blk.live = true ∧ o + (s.length + 1) ≤ blk.bytes.length ∧
        0 + (s.length + 1) ≤ (List.replicate (s.length + 1) 0).length) := by
      refine ⟨trivial, hlive, ?_, ?_⟩
      · omega
      · simp
    rw [if_pos hcond]
    simp only [Heap.withCopy, htake, List.take_zero, List.nil_append, Nat.zero_add]
    have hdrop : List.drop (s.length + 1) (List.replicate (s.length + 1) 0) = [] := by
      simp
    rw [hdrop, List.append_nil]
    have hset : (h.blocks ++ [({ bytes := List.replicate (s.length + 1) 0, live := true } : Block)]).set
        h.blocks.length { bytes := s ++ [0], live := true }
        = h.blocks ++ [{ bytes := s ++ [0], live := true }] := by
      simp
    rw [hset]

/-- A refused `alloc_str_src` stores NULL and the length 0 and reports `LV_RES_INV`. -/
theorem alloc_str_src_refused {h : Heap} {src : lv_img_src_t} {str : Ptr} {s : List Nat}
    (hs : cstr h str = some s) (hg : h.refuses) :
    alloc_str_src h src str
      = some (h.afterRefusal, { src with uri_len := 0, uri := Ptr.null }, LV_RES_INV) := by
  unfold Heap.refuses at hg
  simp only [alloc_str_src, strlen, hs, Option.map_some', lv_mem_alloc, Heap.afterRefusal]
  cases hgr : h.grants with
  | nil =>
    cases h
    simp only at hgr
    subst hgr
    simp
  | cons x g =>
    cases x with
    | true => simp [hgr] at hg
    | false => simp

theorem alloc_str_src_undefined {h : Heap} {src : lv_img_src_t} {str : Ptr}
    (hs : cstr h str = none) : alloc_str_src h src str = none := by
  simp [alloc_str_src, strlen, hs]

theorem lastIdx_none {c : Nat} {s : List Nat} : lastIdx c s = none ↔ c ∉ s := by
  induction s with
  | nil => simp [lastIdx]
  | cons x xs ih =>
    simp only [lastIdx]
    cases hl : lastIdx c xs with
    | some i =>
      have : c ∈ xs := by
        by_contra hc
        rw [ih.mpr hc] at hl
        cases hl
      simp [this]
    | none =>
      have hc : c ∉ xs := ih.mp hl
      by_cases hx : x = c
      · simp [hx]
      · simp [hx, hc, Ne.symm hx]

theorem lastIdx_some {c : Nat} {s : List Nat} {i : Nat} (hi : lastIdx c s = some i) :
    s[i]? = some c ∧ c ∉ s.drop (i + 1) := by
  induction s generalizing i with
  | nil => simp [lastIdx] at hi
  | cons x xs ih =>
    simp only [lastIdx] at hi
    cases hl : lastIdx c xs with
    | some j =>
      simp only [hl, Option.some.injEq] at hi
      subst hi
      have := ih hl
      simpa using this
    | none =>
      simp only [hl] at hi
      split at hi
      · rename_i hx
        simp only [Option.some.injEq] at hi
        subst hi
        subst hx
        simpa using lastIdx_none.mp hl
      · cases hi

theorem strrchr_withCopy (h : Heap) {s : List Nat} (g : List Bool) (hs : ∀ x ∈ s, x ≠ 0) :
    strrchr (h.withCopy s g) (Ptr.mk h.blocks.length 0) 46 = some (extOf h.blocks.length s) := by
  have hc : cstr (h.withCopy s g) (Ptr.mk h.blocks.length 0) = some s := by
    apply cstr_of_block _ hs
    simp [Heap.withCopy]
  simp only [strrchr, hc, extOf]
  cases lastIdx 46 s <;> simp

theorem lv_img_src_free_zero (h : Heap) :
    lv_img_src_free h lv_img_src_zero = some (h, lv_img_src_zero) := by
  simp [lv_img_src_free, lv_img_src_zero]

/-- On a string `s` and a granted request, `lv_img_src_set_file` on the empty descriptor. -/
theorem set_file_zero_granted {h : Heap} {p : Ptr} {s : List Nat} {g : List Bool}
    (hs : cstr h p = some s) (hg : h.grants = true :: g) :
    lv_img_src_set_file h lv_img_src_zero p
      = some (h.withCopy s g,
          { type := LV_IMG_SRC_FILE, uri_len := s.length, uri := Ptr.mk h.blocks.length 0,
            ext := extOf h.blocks.length s }) := by
  simp only [lv_img_src_set_file, lv_img_src_free_zero, alloc_str_src_ok hs hg]
  simp only [reduceCtorEq, if_false, strrchr_withCopy h g (cstr_ne_zero hs), lv_img_src_zero]

theorem set_file_zero_refused {h : Heap} {p : Ptr} {s : List Nat}
    (hs : cstr h p = some s) (hg : h.refuses) :
    lv_img_src_set_file h lv_img_src_zero p
      = some (h.afterRefusal,
          { type := LV_IMG_SRC_FILE, uri_len := 0, uri := Ptr.null, ext := Ptr.null }) := by
  simp only [lv_img_src_set_file, lv_img_src_free_zero, alloc_str_src_refused hs hg]
  simp [lv_img_src_zero]

theorem set_file_zero_undefined {h : Heap} {p : Ptr} (hs : cstr h p = none) :
    lv_img_src_set_file h lv_img_src_zero p = none := by
  simp only [lv_img_src_set_file, lv_img_src_free_zero, alloc_str_src_undefined hs]

/-- The constructor starts by freeing: on a descriptor that can be freed it continues as on the
empty descriptor in the heap that the release leaves. -/
theorem set_file_after_free {h h1 : Heap} {d z : lv_img_src_t} (p : Ptr)
    (hf : lv_img_src_free h d = some (h1, z)) :
    lv_img_src_set_file h d p = lv_img_src_set_file h1 lv_img_src_zero p := by
  obtain ⟨rfl, _⟩ := lv_img_src_free_frame hf
  simp only [lv_img_src_set_file, hf, lv_img_src_free_zero]

theorem set_symbol_zero_granted {h : Heap} {p : Ptr} {s : List Nat} {g : List Bool}
    (hs : cstr h p = some s) (hg : h.grants = true :: g) :
    lv_img_src_set_symbol h lv_img_src_zero p
      = some (h.withCopy s g,
          { type := LV_IMG_SRC_SYMBOL, uri_len := s.length, uri := Ptr.mk h.blocks.length 0,
            ext := Ptr.null }) := by
  simp only [lv_img_src_set_symbol, lv_img_src_free_zero, alloc_str_src_ok hs hg]
  simp [lv_img_src_zero]

theorem set_symbol_zero_refused {h : Heap} {p : Ptr} {s : List Nat}
    (hs : cstr h p = some s) (hg : h.refuses) :
    lv_img_src_set_symbol h lv_img_src_zero p
      = some (h.afterRefusal,
          { type := LV_IMG_SRC_SYMBOL, uri_len := 0, uri := Ptr.null, ext := Ptr.null }) := by
  simp only [lv_img_src_set_symbol, lv_img_src_free_zero, alloc_str_src_refused hs hg]
  simp [lv_img_src_zero]

theorem set_symbol_zero_undefined {h : Heap} {p : Ptr} (hs : cstr h p = none) :
    lv_img_src_set_symbol h lv_img_src_zero p = none := by
  simp only [lv_img_src_set_symbol, lv_img_src_free_zero, alloc_str_src_undefined hs]

theorem set_symbol_after_free {h h1 : Heap} {d z : lv_img_src_t} (p : Ptr)
    (hf : lv_img_src_free h d = some (h1, z)) :
    lv_img_src_set_symbol h d p = lv_img_src_set_symbol h1 lv_img_src_zero p := by
  obtain ⟨rfl, _⟩ := lv_img_src_free_frame hf
  simp only [lv_img_src_set_symbol, hf, lv_img_src_free_zero]

theorem copy_after_free {h h1 : Heap} {d z : lv_img_src_t} (src : lv_img_src_t)
    (hf : lv_img_src_free h d = some (h1, z)) :
    lv_img_src_copy h d src = lv_img_src_copy h1 lv_img_src_zero src := by
  obtain ⟨rfl, _⟩ := lv_img_src_free_frame hf
  simp only [lv_img_src_copy, hf, lv_img_src_free_zero]

/-- On a source that holds the string `s` and a granted request, `lv_img_src_copy` into the
empty descriptor. -/
theorem copy_zero_granted {h : Heap} {src : lv_img_src_t} {s : List Nat} {g : List Bool}
    (ht : src.type ≠ LV_IMG_SRC_VARIABLE) (hs : cstr h src.uri = some s)
    (hg : h.grants = true :: g) :
    lv_img_src_copy h lv_img_src_zero src
      = some (h.withCopy s g,
          { type := src.type, uri_len := s.length, uri := Ptr.mk h.blocks.length 0,
            ext := if src.type = LV_IMG_SRC_FILE then extOf h.blocks.length s else Ptr.null }) := by
  simp only [lv_img_src_copy, lv_img_src_free_zero, alloc_str_src_ok hs hg, ht, ne_eq,
    not_false_eq_true, if_true, reduceCtorEq, if_false, lv_img_src_copy_tail]
  by_cases hfile : src.type = LV_IMG_SRC_FILE
  · simp only [hfile, if_true, strrchr_withCopy h g (cstr_ne_zero hs), lv_img_src_zero]
  · simp only [hfile, if_false, lv_img_src_zero]

theorem copy_zero_refused {h : Heap} {src : lv_img_src_t} {s : List Nat}
    (ht : src.type ≠ LV_IMG_SRC_VARIABLE) (hs : cstr h src.uri = some s) (hg : h.refuses) :
    lv_img_src_copy h lv_img_src_zero src
      = some (h.afterRefusal,
          { type := LV_IMG_SRC_UNKNOWN, uri_len := 0, uri := Ptr.null, ext := Ptr.null }) := by
  simp only [lv_img_src_copy, lv_img_src_free_zero, alloc_str_src_refused hs hg, ht, ne_eq,
    not_false_eq_true, if_true]

/-- A well-formed descriptor can be freed. -/
theorem free_of_valid {h : Heap} {d : lv_img_src_t} (hv : valid h d) :
    ∃ h1, lv_img_src_free h d = some (h1, lv_img_src_zero) := by
  unfold lv_img_src_free
  by_cases ho : d.type = LV_IMG_SRC_SYMBOL ∨ d.type = LV_IMG_SRC_FILE
  · rw [if_pos ho]
    rcases hv ho with hnull | hlive
    · rw [hnull]
      exact ⟨h, rfl⟩
    · cases hu : d.uri with
      | null => exact ⟨h, rfl⟩
      | mk b o =>
        rw [hu] at hlive
        simp only [Heap.liveStart] at hlive
        cases hb : h.blocks[b]? with
        | none => simp [hb] at hlive
        | some blk =>
          simp only [hb, Bool.and_eq_true, beq_iff_eq] at hlive
          simp only [lv_mem_free, hb, hlive.1, hlive.2, and_self, if_true]
          exact ⟨_, rfl⟩
  · rw [if_neg ho]
    exact ⟨h, rfl⟩

/-- A defined release of a non-null pointer: the block was live, the pointer was its start,
the block is marked as released and its id is logged. -/
theorem lv_mem_free_mk {h h1 : Heap} {b o : Nat} (hf : lv_mem_free h (Ptr.mk b o) = some h1) :
    ∃ blk, h.blocks[b]? = some blk ∧ blk.live = true ∧ o = 0 ∧
      h1 = { h with blocks := h.blocks.set b { blk with live := false },
                    freed := b :: h.freed } := by
  simp only [lv_mem_free] at hf
  cases hb : h.blocks[b]? with
  | none => simp [hb] at hf
  | some blk =>
    simp only [hb] at hf
    split at hf
    · rename_i hc
      simp only [Option.some.injEq] at hf
      exact ⟨blk, rfl, hc.1, hc.2, hf.symm⟩
    · simp at hf

/-- What the release of a descriptor writes in the log of freed blocks. -/
theorem lv_img_src_free_log {h h1 : Heap} {d z : lv_img_src_t}
    (hf : lv_img_src_free h d = some (h1, z)) :
    (∀ b o, owns d → d.uri = Ptr.mk b o →
        h1.freed = b :: h.freed ∧ h1.liveStart (Ptr.mk b 0) = false) ∧
      ((¬ owns d ∨ d.uri = Ptr.null) → h1 = h) := by
  unfold lv_img_src_free at hf
  by_cases ho : d.type = LV_IMG_SRC_SYMBOL ∨ d.type = LV_IMG_SRC_FILE
  · rw [if_pos ho] at hf
    cases hm : lv_mem_free h d.uri with
    | none => simp [hm] at hf
    | some h2 =>
      simp only [hm, Option.some.injEq, Prod.mk.injEq] at hf
      obtain ⟨rfl, _⟩ := hf
      cases hu : d.uri with
      | null =>
        rw [hu] at hm
        simp only [lv_mem_free, Option.some.injEq] at hm
        exact ⟨fun b o _ hb => (by cases hb), fun _ => hm.symm⟩
      | mk b o =>
        rw [hu] at hm
        obtain ⟨blk, hb, _, _, rfl⟩ := lv_mem_free_mk hm
        have hlt : b < h.blocks.length := (List.getElem?_eq_some_iff.mp hb).1
        constructor
        · intro b2 o2 _ he
          cases he
          refine ⟨rfl, ?_⟩
          simp [Heap.liveStart, List.getElem?_set_self hlt]
        · rintro (hn | hn)
          · exact absurd ho hn
          · cases hn
  · rw [if_neg ho] at hf
    simp only [Option.some.injEq, Prod.mk.injEq] at hf
    exact ⟨fun b o hown _ => absurd hown ho, fun _ => hf.1.symm⟩

/-- A store leaves the strings of the other blocks as they were. -/
theorem store_frame {h h2 : Heap} {p : Ptr} {v : Nat} (hst : store h p v = some h2) :
    ∀ q, Ptr.sameBlock p q = false → cstr h2 q = cstr h q := by
  intro q hq
  cases p with
  | null => simp [store] at hst
  | mk b o =>
    simp only [store] at hst
    cases hb : h.blocks[b]? with
    | none => simp [hb] at hst
    | some blk =>
      simp only [hb] at hst
      split at hst
      · simp only [Option.some.injEq] at hst
        subst hst
        cases q with
        | null => rfl
        | mk c oc =>
          have hne : b ≠ c := by
            simpa [Ptr.sameBlock] using hq
          apply cstr_congr
          simp [List.getElem?_set_ne hne]
      · simp at hst

/-- The block added by a granted `alloc_str_src`: it holds the copy, it is the start of a live
block, and the strings of the older blocks are as before. -/
theorem withCopy_facts (h : Heap) {s : List Nat} (g : List Bool) (hs : ∀ x ∈ s, x ≠ 0) :
    cstr (h.withCopy s g) (Ptr.mk h.blocks.length 0) = some s ∧
      (h.withCopy s g).liveStart (Ptr.mk h.blocks.length 0) = true ∧
      ∀ b o, b < h.blocks.length → cstr (h.withCopy s g) (Ptr.mk b o) = cstr h (Ptr.mk b o) := by
  refine ⟨?_, ?_, ?_⟩
  · apply cstr_of_block _ hs
    simp [Heap.withCopy]
  · simp [Heap.liveStart, Heap.withCopy]
  · intro b o hb
    apply cstr_congr
    simp [Heap.withCopy, List.getElem?_append_left hb]

/-- A pointer that a string can be read through points into an existing block. -/
theorem cstr_lt {h : Heap} {b o : Nat} {s : List Nat} (hs : cstr h (Ptr.mk b o) = some s) :
    b < h.blocks.length := by
  obtain ⟨blk, hb, _⟩ := cstr_block hs
  exact (List.getElem?_eq_some_iff.mp hb).1

theorem extOf_spec (b : Nat) (s : List Nat) : extAtLastDot b s (extOf b s) := by
  unfold extAtLastDot extOf
  cases hl : lastIdx 46 s with
  | none =>
    have hn := lastIdx_none.mp hl
    exact ⟨fun _ => rfl, fun hm => absurd hm hn⟩
  | some i =>
    have hi := lastIdx_some hl
    refine ⟨fun hn => ?_, fun _ => ⟨i, by simp, hi.1, hi.2⟩⟩
    rw [lastIdx_none.mpr hn] at hl
    cases hl

theorem grants_cases (h : Heap) : h.refuses ∨ ∃ g, h.grants = true :: g := by
  unfold Heap.refuses
  cases hgr : h.grants with
  | nil => left; simp
  | cons x g =>
    cases x with
    | true => right; exact ⟨g, rfl⟩
    | false => left; simp

theorem refuses_congr {ha hb : Heap} (hg : ha.grants = hb.grants) (hr : hb.refuses) :
    ha.refuses := by
  unfold Heap.refuses at hr ⊢
  rw [hg]
  exact hr

/-- The descriptor that `lv_img_src_set_file` builds depends on the heap only through the
string it reads, the answer of the allocator and the address of the next block. -/
theorem set_file_dsc_congr {ha hb : Heap} {p : Ptr} (hc : cstr ha p = cstr hb p)
    (hg : ha.grants = hb.grants) (hl : ha.blocks.length = hb.blocks.length) :
    dscOf (lv_img_src_set_file ha lv_img_src_zero p)
      = dscOf (lv_img_src_set_file hb lv_img_src_zero p) := by
  cases hs : cstr hb p with
  | none =>
    rw [set_file_zero_undefined hs, set_file_zero_undefined (hc.trans hs)]
  | some s =>
    rcases grants_cases hb with hr | ⟨g, hgr⟩
    · rw [set_file_zero_refused hs hr, set_file_zero_refused (hc.trans hs) (refuses_congr hg hr)]
      rfl
    · rw [set_file_zero_granted hs hgr, set_file_zero_granted (hc.trans hs) (hg.trans hgr), hl]
      rfl

theorem set_symbol_dsc_congr {ha hb : Heap} {p : Ptr} (hc : cstr ha p = cstr hb p)
    (hg : ha.grants = hb.grants) (hl : ha.blocks.length = hb.blocks.length) :
    dscOf (lv_img_src_set_symbol ha lv_img_src_zero p)
      = dscOf (lv_img_src_set_symbol hb lv_img_src_zero p) := by
  cases hs : cstr hb p with
  | none =>
    rw [set_symbol_zero_undefined hs, set_symbol_zero_undefined (hc.trans hs)]
  | some s =>
    rcases grants_cases hb with hr | ⟨g, hgr⟩
    · rw [set_symbol_zero_refused hs hr,
        set_symbol_zero_refused (hc.trans hs) (refuses_congr hg hr)]
      rfl
    · rw [set_symbol_zero_granted hs hgr, set_symbol_zero_granted (hc.trans hs) (hg.trans hgr),
        hl]
      rfl

theorem set_file_defined {h : Heap} {p : Ptr} (hs : (cstr h p).isSome = true) :
    (lv_img_src_set_file h lv_img_src_zero p).isSome = true := by
  cases hc : cstr h p with
  | none => rw [hc] at hs; cases hs
  | some s =>
    rcases grants_cases h with hr | ⟨g, hgr⟩
    · rw [set_file_zero_refused hc hr]; rfl
    · rw [set_file_zero_granted hc hgr]; rfl

theorem set_symbol_defined {h : Heap} {p : Ptr} (hs : (cstr h p).isSome = true) :
    (lv_img_src_set_symbol h lv_img_src_zero p).isSome = true := by
  cases hc : cstr h p with
  | none => rw [hc] at hs; cases hs
  | some s =>
    rcases grants_cases h with hr | ⟨g, hgr⟩
    · rw [set_symbol_zero_refused hc hr]; rfl
    · rw [set_symbol_zero_granted hc hgr]; rfl

theorem withCopy_liveStart (h : Heap) (s : List Nat) (g : List Bool) {b : Nat}
    (hb : b < h.blocks.length) :
    (h.withCopy s g).liveStart (Ptr.mk b 0) = h.liveStart (Ptr.mk b 0) := by
  simp [Heap.liveStart, Heap.withCopy, List.getElem?_append_left hb]

/-- The heap that `lv_img_src_set_file` leaves on the empty descriptor: the log of releases
and the state of the existing blocks are unchanged. -/
theorem set_file_heap {h h1 : Heap} {p : Ptr} {r : lv_img_src_t}
    (hr : lv_img_src_set_file h lv_img_src_zero p = some (h1, r)) :
    h1.freed = h.freed ∧ ∀ b, b < h.blocks.length →
      h1.liveStart (Ptr.mk b 0) = h.liveStart (Ptr.mk b 0) := by
  cases hs : cstr h p with
  | none => rw [set_file_zero_undefined hs] at hr; cases hr
  | some s =>
    rcases grants_cases h with hg | ⟨g, hg⟩
    · rw [set_file_zero_refused hs hg] at hr
      cases hr
      exact ⟨rfl, fun _ _ => rfl⟩
    · rw [set_file_zero_granted hs hg] at hr
      cases hr
      exact ⟨rfl, fun b hb => withCopy_liveStart h s g hb⟩

theorem set_symbol_heap {h h1 : Heap} {p : Ptr} {r : lv_img_src_t}
    (hr : lv_img_src_set_symbol h lv_img_src_zero p = some (h1, r)) :
    h1.freed = h.freed ∧ ∀ b, b < h.blocks.length →
      h1.liveStart (Ptr.mk b 0) = h.liveStart (Ptr.mk b 0) := by
  cases hs : cstr h p with
  | none => rw [set_symbol_zero_undefined hs] at hr; cases hr
  | some s =>
    rcases grants_cases h with hg | ⟨g, hg⟩
    · rw [set_symbol_zero_refused hs hg] at hr
      cases hr
      exact ⟨rfl, fun _ _ => rfl⟩
    · rw [set_symbol_zero_granted hs hg] at hr
      cases hr
      exact ⟨rfl, fun b hb => withCopy_liveStart h s g hb⟩

/-! ## Image source descriptor: the claims -/

/-- C1: for a file or symbol source `src` that holds the string `s`, with a granted allocation,
`lv_img_src_copy(dst, src)` leaves `dst` with the type of `src`, `uri_len` equal to the length
of `s` and an owned string equal to `s` in a block of its own: a store into the string of `src`
or its release afterwards leaves the string of `dst` equal to `s`. -/
theorem lv_img_src_copy_deep (h : Heap) (dst src : lv_img_src_t) (s : List Nat) (g : List Bool)
    (htype : src.type = LV_IMG_SRC_FILE ∨ src.type = LV_IMG_SRC_SYMBOL)
    (hs : cstr h src.uri = some s) (hv : valid h dst) (hsep : separate dst src.uri)
    (hg : h.grants = true :: g) :
    ∃ h1 d, lv_img_src_copy h dst src = some (h1, d) ∧
      d.type = src.type ∧ d.uri_len = s.length ∧ cstr h1 d.uri = some s ∧
      valid h1 d ∧ d.uri ≠ Ptr.null ∧ Ptr.sameBlock src.uri d.uri = false ∧
      (∀ q v h2, Ptr.sameBlock src.uri q = true → store h1 q v = some h2 →
        cstr h2 d.uri = some s) ∧
      (∀ h2, lv_mem_free h1 src.uri = some h2 → cstr h2 d.uri = some s) := by
  obtain ⟨h0, hf⟩ := free_of_valid hv
  obtain ⟨_, hgr, _, hc⟩ := lv_img_src_free_frame hf
  have hs0 : cstr h0 src.uri = some s := by rw [hc _ hsep]; exact hs
  have hg0 : h0.grants = true :: g := by rw [hgr]; exact hg
  have hnv : src.type ≠ LV_IMG_SRC_VARIABLE := by
    rcases htype with ht | ht <;> rw [ht] <;> simp
  have hne := cstr_ne_zero hs
  obtain ⟨hnew, hlive, _⟩ := withCopy_facts h0 g hne
  refine ⟨_, _, (copy_after_free src hf).trans (copy_zero_granted hnv hs0 hg0), rfl, rfl, hnew,
    fun _ => Or.inr hlive, by simp, ?_, ?_, ?_⟩
  · cases hu : src.uri with
    | null => rfl
    | mk b o =>
      rw [hu] at hs0
      have := cstr_lt hs0
      simp only [Ptr.sameBlock, beq_eq_false_iff_ne, ne_eq]
      omega
  · intro q v h2 hq hst
    cases hu : src.uri with
    | null => rw [hu] at hq; simp [Ptr.sameBlock] at hq
    | mk b o =>
      rw [hu] at hs0 hq
      have hlt := cstr_lt hs0
      cases q with
      | null => simp [Ptr.sameBlock] at hq
      | mk c oc =>
        have hbc : b = c := by simpa [Ptr.sameBlock] using hq
        subst hbc
        rw [store_frame hst]
        · exact hnew
        · simp only [Ptr.sameBlock, beq_eq_false_iff_ne, ne_eq]
          omega
  · intro h2 hfr
    cases hu : src.uri with
    | null => rw [hu] at hs0; simp [cstr] at hs0
    | mk b o =>
      rw [hu] at hs0 hfr
      have hlt := cstr_lt hs0
      rw [(lv_mem_free_frame hfr).2.2]
      · exact hnew
      · simp only [Ptr.sameBlock, beq_eq_false_iff_ne, ne_eq]
        omega

/-- Witness of C1: the file source `a.b` copied into an empty descriptor. -/
theorem lv_img_src_copy_deep_witness :
    cstr heapAB fileAB.uri = some [97, 46, 98] ∧ valid heapAB lv_img_src_zero ∧
      ∃ h1 d, lv_img_src_copy heapAB lv_img_src_zero fileAB = some (h1, d) ∧
        d.type = LV_IMG_SRC_FILE ∧ d.uri_len = 3 ∧ cstr h1 d.uri = some [97, 46, 98] ∧
        Ptr.sameBlock fileAB.uri d.uri = false := by
  have hs : cstr heapAB fileAB.uri = some [97, 46, 98] := by decide
  have hv : valid heapAB lv_img_src_zero := by decide
  obtain ⟨h1, d, hc, ht, hl, hstr, _, _, hsb, _⟩ :=
    lv_img_src_copy_deep heapAB lv_img_src_zero fileAB [97, 46, 98] [] (Or.inl rfl) hs hv
      (by decide) rfl
  exact ⟨hs, hv, h1, d, hc, ht, hl, hstr, hsb⟩

/-- C2: for a well-formed descriptor `d` of any type, `lv_img_src_free` is defined and leaves
the empty descriptor, and a second `lv_img_src_free` is defined too and changes neither the
descriptor nor the heap: free(free(d)) = free(d). -/
theorem lv_img_src_free_idempotent (h : Heap) (d : lv_img_src_t) (hv : valid h d) :
    ∃ h1, lv_img_src_free h d = some (h1, lv_img_src_zero) ∧
      lv_img_src_free h1 lv_img_src_zero = some (h1, lv_img_src_zero) ∧
      ((lv_img_src_free h d).bind fun r => lv_img_src_free r.1 r.2) = lv_img_src_free h d := by
  obtain ⟨h1, hf⟩ := free_of_valid hv
  refine ⟨h1, hf, lv_img_src_free_zero h1, ?_⟩
  rw [hf]
  exact lv_img_src_free_zero h1

/-- Witness of C2: the file source `a.b` freed twice. -/
theorem lv_img_src_free_idempotent_witness :
    valid heapAB fileAB ∧
      ∃ h1, lv_img_src_free heapAB fileAB = some (h1, lv_img_src_zero) ∧
        lv_img_src_free h1 lv_img_src_zero = some (h1, lv_img_src_zero) := by
  have hv : valid heapAB fileAB := by decide
  obtain ⟨h1, h2, h3, _⟩ := lv_img_src_free_idempotent heapAB fileAB hv
  exact ⟨hv, h1, h2, h3⟩

/-- C3: for a VARIABLE source, `lv_img_src_copy(dst, src)` allocates nothing (the heap it leaves
is the one that freeing `dst` leaves: no new block, no allocator request) and `dst` gets the
type VARIABLE, the pointer and the length of `src`, and no extension. -/
theorem lv_img_src_copy_variable_aliases (h : Heap) (dst src : lv_img_src_t)
    (ht : src.type = LV_IMG_SRC_VARIABLE) (hv : valid h dst) :
    ∃ h1, lv_img_src_free h dst = some (h1, lv_img_src_zero) ∧
      lv_img_src_copy h dst src
        = some (h1, { type := LV_IMG_SRC_VARIABLE, uri_len := src.uri_len, uri := src.uri,
                      ext := Ptr.null }) ∧
      h1.blocks.length = h.blocks.length ∧ h1.grants = h.grants := by
  obtain ⟨h1, hf⟩ := free_of_valid hv
  obtain ⟨_, hg, hl, _⟩ := lv_img_src_free_frame hf
  refine ⟨h1, hf, ?_, hl, hg⟩
  simp [lv_img_src_copy, hf, ht, lv_img_src_copy_tail, lv_img_src_zero]

/-- Witness of C3: a buffer source copied over the file source `a.b`. -/
theorem lv_img_src_copy_variable_aliases_witness :
    valid heapAB fileAB ∧
      ∃ h1, lv_img_src_copy heapAB fileAB bufAB = some (h1, bufAB) ∧
        h1.blocks.length = heapAB.blocks.length ∧ h1.grants = heapAB.grants := by
  have hv : valid heapAB fileAB := by decide
  obtain ⟨h1, _, h2, h3, h4⟩ := lv_img_src_copy_variable_aliases heapAB fileAB bufAB rfl hv
  exact ⟨hv, h1, h2, h3, h4⟩

/-- C4: for a path `p` that holds the string `s`, with a granted allocation,
`lv_img_src_set_file(obj, p)` leaves `obj` with type FILE, an owned null-terminated copy of
`s` at the start of a block `b` of its own, `uri_len` equal to the length of `s`, and `ext` at
the last `'.'` of that copy (NULL when `s` has none); `lv_img_src_copy` of a file source sets
`ext` of the destination in the same way inside the block of the destination, whatever the
`ext` and the block of the source are. -/
theorem lv_img_src_set_file_ext (h : Heap) (obj : lv_img_src_t) (p : Ptr) (s : List Nat)
    (g : List Bool) (hs : cstr h p = some s) (hv : valid h obj) (hsep : separate obj p)
    (hg : h.grants = true :: g) :
    (∃ h1 d b, lv_img_src_set_file h obj p = some (h1, d) ∧
      d.type = LV_IMG_SRC_FILE ∧ d.uri = Ptr.mk b 0 ∧ Ptr.sameBlock p d.uri = false ∧
      valid h1 d ∧ cstr h1 d.uri = some s ∧ d.uri_len = s.length ∧ extAtLastDot b s d.ext) ∧
    (∀ src : lv_img_src_t, src.type = LV_IMG_SRC_FILE → src.uri = p →
      ∃ h1 d b, lv_img_src_copy h obj src = some (h1, d) ∧
        d.type = LV_IMG_SRC_FILE ∧ d.uri = Ptr.mk b 0 ∧ Ptr.sameBlock src.uri d.uri = false ∧
        cstr h1 d.uri = some s ∧ extAtLastDot b s d.ext) := by
  obtain ⟨h0, hf⟩ := free_of_valid hv
  obtain ⟨_, hgr, _, hc⟩ := lv_img_src_free_frame hf
  have hs0 : cstr h0 p = some s := by rw [hc _ hsep]; exact hs
  have hg0 : h0.grants = true :: g := by rw [hgr]; exact hg
  have hne := cstr_ne_zero hs
  obtain ⟨hnew, hlive, _⟩ := withCopy_facts h0 g hne
  have hsb : Ptr.sameBlock p (Ptr.mk h0.blocks.length 0) = false := by
    cases p with
    | null => rfl
    | mk b o =>
      have := cstr_lt hs0
      simp only [Ptr.sameBlock, beq_eq_false_iff_ne, ne_eq]
      omega
  constructor
  · exact ⟨_, _, h0.blocks.length,
      (set_file_after_free p hf).trans (set_file_zero_granted hs0 hg0), rfl, rfl, hsb,
      fun _ => Or.inr hlive, hnew, rfl, extOf_spec _ _⟩
  · intro src ht hp
    subst hp
    have hnv : src.type ≠ LV_IMG_SRC_VARIABLE := by rw [ht]; simp
    refine ⟨_, _, h0.blocks.length,
      (copy_after_free src hf).trans (copy_zero_granted hnv hs0 hg0), ht, rfl, hsb, hnew, ?_⟩
    simp only [ht, if_true]
    exact extOf_spec _ _

/-- Witness of C4: the path `a.b` set on an empty descriptor; the extension is at offset 1 of
the new block. -/
theorem lv_img_src_set_file_ext_witness :
    cstr heapAB (Ptr.mk 0 0) = some [97, 46, 98] ∧
      ∃ h1 d b, lv_img_src_set_file heapAB lv_img_src_zero (Ptr.mk 0 0) = some (h1, d) ∧
        d.uri = Ptr.mk b 0 ∧ cstr h1 d.uri = some [97, 46, 98] ∧
        extAtLastDot b [97, 46, 98] d.ext := by
  have hs : cstr heapAB (Ptr.mk 0 0) = some [97, 46, 98] := by decide
  obtain ⟨⟨h1, d, b, hc, _, hu, _, _, hstr, _, hext⟩, _⟩ :=
    lv_img_src_set_file_ext heapAB lv_img_src_zero (Ptr.mk 0 0) [97, 46, 98] [] hs
      (by decide) (by decide) rfl
  exact ⟨hs, h1, d, b, hc, hu, hstr, hext⟩

/-- C5: the typed constructors first free what the descriptor held. For a well-formed
descriptor `d` and arguments that do not point into the string `d` owns,
`lv_img_src_set_file`, `lv_img_src_set_symbol` and `lv_img_src_set_data` give the descriptor
that the same call gives on the empty descriptor, they are defined whenever the string argument
can be read, and when `d` owned a block `b` that block is passed to `lv_mem_free` once: it
appears once more in the log of releases and is no longer live. -/
theorem typed_constructors_free_first (h : Heap) (d : lv_img_src_t) (p sym data : Ptr)
    (len : Nat) (hv : valid h d) (hp : separate d p) (hsym : separate d sym) :
    dscOf (lv_img_src_set_file h d p) = dscOf (lv_img_src_set_file h lv_img_src_zero p) ∧
    dscOf (lv_img_src_set_symbol h d sym)
      = dscOf (lv_img_src_set_symbol h lv_img_src_zero sym) ∧
    dscOf (lv_img_src_set_data h d data len)
      = dscOf (lv_img_src_set_data h lv_img_src_zero data len) ∧
    ((cstr h p).isSome = true → (lv_img_src_set_file h d p).isSome = true) ∧
    ((cstr h sym).isSome = true → (lv_img_src_set_symbol h d sym).isSome = true) ∧
    (lv_img_src_set_data h d data len).isSome = true ∧
    (∀ b o h1 r, owns d → d.uri = Ptr.mk b o →
      (lv_img_src_set_file h d p = some (h1, r) ∨ lv_img_src_set_symbol h d sym = some (h1, r) ∨
        lv_img_src_set_data h d data len = some (h1, r)) →
      h1.freed.count b = h.freed.count b + 1 ∧ h1.liveStart (Ptr.mk b 0) = false) ∧
    (∀ h1 r, (¬ owns d ∨ d.uri = Ptr.null) →
      (lv_img_src_set_file h d p = some (h1, r) ∨ lv_img_src_set_symbol h d sym = some (h1, r) ∨
        lv_img_src_set_data h d data len = some (h1, r)) →
      h1.freed = h.freed) := by
  obtain ⟨h0, hf⟩ := free_of_valid hv
  obtain ⟨_, hgr, hlen, hc⟩ := lv_img_src_free_frame hf
  obtain ⟨hlog, hsame⟩ := lv_img_src_free_log hf
  have hfile := set_file_after_free p hf
  have hsymb := set_symbol_after_free sym hf
  have hdata : lv_img_src_set_data h d data len
      = some (h0, { type := LV_IMG_SRC_VARIABLE, uri_len := len, uri := data,
                    ext := Ptr.null }) := by
    simp [lv_img_src_set_data, hf, lv_img_src_zero]
  have hdata0 : lv_img_src_set_data h lv_img_src_zero data len
      = some (h, { type := LV_IMG_SRC_VARIABLE, uri_len := len, uri := data,
                   ext := Ptr.null }) := by
    rw [lv_img_src_set_data, lv_img_src_free_zero]
    rfl
  have hcount : ∀ b, (b :: h.freed).count b = h.freed.count b + 1 := by
    intro b
    simp
  refine ⟨?_, ?_, ?_, ?_, ?_, ?_, ?_, ?_⟩
  · rw [hfile]
    exact set_file_dsc_congr (hc p hp) hgr hlen
  · rw [hsymb]
    exact set_symbol_dsc_congr (hc sym hsym) hgr hlen
  · rw [hdata, hdata0]
    rfl
  · intro hsome
    rw [hfile]
    apply set_file_defined
    rw [hc p hp]
    exact hsome
  · intro hsome
    rw [hsymb]
    apply set_symbol_defined
    rw [hc sym hsym]
    exact hsome
  · rw [hdata]
    rfl
  · intro b o h1 r hown hu hres
    obtain ⟨hfr, hdead⟩ := hlog b o hown hu
    have hb : b < h0.blocks.length := by
      have hown1 : d.type = LV_IMG_SRC_SYMBOL ∨ d.type = LV_IMG_SRC_FILE := hown
      unfold lv_img_src_free at hf
      rw [if_pos hown1, hu] at hf
      cases hm : lv_mem_free h (Ptr.mk b o) with
      | none => simp [hm] at hf
      | some h2 =>
        obtain ⟨blk, hblk, _⟩ := lv_mem_free_mk hm
        rw [hlen]
        exact (List.getElem?_eq_some_iff.mp hblk).1
    rcases hres with hr | hr | hr
    · rw [hfile] at hr
      obtain ⟨h1f, h1l⟩ := set_file_heap hr
      rw [h1f, hfr, h1l b hb]
      exact ⟨hcount b, hdead⟩
    · rw [hsymb] at hr
      obtain ⟨h1f, h1l⟩ := set_symbol_heap hr
      rw [h1f, hfr, h1l b hb]
      exact ⟨hcount b, hdead⟩
    · rw [hdata] at hr
      simp only [Option.some.injEq, Prod.mk.injEq] at hr
      obtain ⟨rfl, _⟩ := hr
      rw [hfr]
      exact ⟨hcount b, hdead⟩
  · intro h1 r hno hres
    have h0h := hsame hno
    rcases hres with hr | hr | hr
    · rw [hfile] at hr
      rw [(set_file_heap hr).1, h0h]
    · rw [hsymb] at hr
      rw [(set_symbol_heap hr).1, h0h]
    · rw [hdata] at hr
      simp only [Option.some.injEq, Prod.mk.injEq] at hr
      obtain ⟨rfl, _⟩ := hr
      rw [h0h]

/-- Witness of C5: the three constructors called with the string `c` on a descriptor that owns
the string `a.b`. -/
theorem typed_constructors_free_first_witness :
    valid heapABC fileAB ∧ separate fileAB (Ptr.mk 1 0) ∧
      dscOf (lv_img_src_set_file heapABC fileAB (Ptr.mk 1 0))
        = dscOf (lv_img_src_set_file heapABC lv_img_src_zero (Ptr.mk 1 0)) ∧
      (lv_img_src_set_file heapABC fileAB (Ptr.mk 1 0)).isSome = true := by
  have hv : valid heapABC fileAB := by decide
  have hp : separate fileAB (Ptr.mk 1 0) := by decide
  obtain ⟨h1, _, _, h4, _⟩ :=
    typed_constructors_free_first heapABC fileAB (Ptr.mk 1 0) (Ptr.mk 1 0) (Ptr.mk 1 0) 2 hv hp hp
  exact ⟨hv, hp, h1, h4 (by decide)⟩

/-- C6: when the allocator refuses the request, `alloc_str_src` reports `LV_RES_INV`, and
`alloc_str_src`, `lv_img_src_set_file`, `lv_img_src_set_symbol` and `lv_img_src_copy` leave the
descriptor with `uri` NULL and `uri_len` 0; the heap has no new block. -/
theorem alloc_refused_leaves_null (h : Heap) (obj : lv_img_src_t) (p : Ptr) (s : List Nat)
    (hs : cstr h p = some s) (hv : valid h obj) (hsep : separate obj p) (hg : h.refuses) :
    (∃ h1 d, alloc_str_src h obj p = some (h1, d, LV_RES_INV) ∧
      d.uri = Ptr.null ∧ d.uri_len = 0 ∧ h1.blocks = h.blocks) ∧
    (∃ h1 d, lv_img_src_set_file h obj p = some (h1, d) ∧
      d.uri = Ptr.null ∧ d.uri_len = 0 ∧ h1.blocks.length = h.blocks.length) ∧
    (∃ h1 d, lv_img_src_set_symbol h obj p = some (h1, d) ∧
      d.uri = Ptr.null ∧ d.uri_len = 0 ∧ h1.blocks.length = h.blocks.length) ∧
    (∀ src : lv_img_src_t, src.type ≠ LV_IMG_SRC_VARIABLE → src.uri = p →
      ∃ h1 d, lv_img_src_copy h obj src = some (h1, d) ∧
        d.uri = Ptr.null ∧ d.uri_len = 0 ∧ h1.blocks.length = h.blocks.length) := by
  obtain ⟨h0, hf⟩ := free_of_valid hv
  obtain ⟨_, hgr, hlen, hc⟩ := lv_img_src_free_frame hf
  have hs0 : cstr h0 p = some s := by rw [hc _ hsep]; exact hs
  have hg0 : h0.refuses := refuses_congr hgr hg
  refine ⟨⟨_, _, alloc_str_src_refused hs hg, rfl, rfl, rfl⟩,
    ⟨_, _, (set_file_after_free p hf).trans (set_file_zero_refused hs0 hg0), rfl, rfl, hlen⟩,
    ⟨_, _, (set_symbol_after_free p hf).trans (set_symbol_zero_refused hs0 hg0), rfl, rfl, hlen⟩,
    ?_⟩
  intro src ht hp
  subst hp
  exact ⟨_, _, (copy_after_free src hf).trans (copy_zero_refused ht hs0 hg0), rfl, rfl, hlen⟩

/-- Witness of C6: the path `a.b` set on an empty descriptor when the allocator refuses. -/
theorem alloc_refused_leaves_null_witness :
    heapABfull.refuses ∧
      ∃ h1 d, lv_img_src_set_file heapABfull lv_img_src_zero (Ptr.mk 0 0) = some (h1, d) ∧
        d.uri = Ptr.null ∧ d.uri_len = 0 := by
  have hg : heapABfull.refuses := by decide
  obtain ⟨_, ⟨h1, d, h2, h3, h4, _⟩, _⟩ :=
    alloc_refused_leaves_null heapABfull lv_img_src_zero (Ptr.mk 0 0) [97, 46, 98]
      (by decide) (by decide) (by decide) hg
  exact ⟨hg, h1, d, h2, h3, h4⟩

/-- C7, as stated, fails: the source `a.b` is classified as a file path, the allocator refuses
the string copy, and `lv_img_src_parse` returns `LV_RES_OK` with a descriptor of type FILE
whose `uri` is NULL. -/
theorem lv_img_src_parse_ok_despite_refusal :
    heapABfull.refuses ∧
      lv_img_src_get_type heapABfull (Ptr.mk 0 0) = some LV_IMG_SRC_FILE ∧
      lv_img_src_parse (fun _ _ => none) heapABfull lv_img_src_zero (Ptr.mk 0 0)
        = some (heapABfull,
            { type := LV_IMG_SRC_FILE, uri_len := 0, uri := Ptr.null, ext := Ptr.null },
            LV_RES_OK) := by
  decide

/-- C7, amended: for a raw source classified as a file path or a symbol, `lv_img_src_parse`
returns `LV_RES_OK` whether or not the string copy is allocated; a refused allocation shows
only in the descriptor, which has the classified type, `uri` NULL and `uri_len` 0, and a
granted one leaves the copy of the string. `LV_RES_INV` is returned only for the null source. -/
theorem lv_img_src_parse_result (data_size : Heap → Ptr → Option Nat) (h : Heap)
    (uri : lv_img_src_t) (src : Ptr) (s : List Nat) (t : lv_img_src_type_t)
    (ht : lv_img_src_get_type h src = some t)
    (hfs : t = LV_IMG_SRC_FILE ∨ t = LV_IMG_SRC_SYMBOL)
    (hs : cstr h src = some s) (hv : valid h uri) (hsep : separate uri src) :
    (∃ h1 d, lv_img_src_parse data_size h uri src = some (h1, d, LV_RES_OK) ∧ d.type = t ∧
      (h.refuses → d.uri = Ptr.null ∧ d.uri_len = 0) ∧
      (¬ h.refuses → cstr h1 d.uri = some s ∧ d.uri_len = s.length)) ∧
    (∀ q h1 d, lv_img_src_parse data_size h uri q = some (h1, d, LV_RES_INV) →
      q = Ptr.null) := by
  obtain ⟨h0, hf⟩ := free_of_valid hv
  obtain ⟨_, hgr, hlen, hc⟩ := lv_img_src_free_frame hf
  have hs0 : cstr h0 src = some s := by rw [hc _ hsep]; exact hs
  have hne := cstr_ne_zero hs
  constructor
  · rcases grants_cases h0 with hg0 | ⟨g, hg0⟩
    · have hg : h.refuses := refuses_congr hgr.symm hg0
      rcases hfs with rfl | rfl
      · refine ⟨h0.afterRefusal,
          { type := LV_IMG_SRC_FILE, uri_len := 0, uri := Ptr.null, ext := Ptr.null },
          ?_, rfl, fun _ => ⟨rfl, rfl⟩, fun hn => absurd hg hn⟩
        simp only [lv_img_src_parse, ht, set_file_after_free src hf,
          set_file_zero_refused hs0 hg0]
      · refine ⟨h0.afterRefusal,
          { type := LV_IMG_SRC_SYMBOL, uri_len := 0, uri := Ptr.null, ext := Ptr.null },
          ?_, rfl, fun _ => ⟨rfl, rfl⟩, fun hn => absurd hg hn⟩
        simp only [lv_img_src_parse, ht, set_symbol_after_free src hf,
          set_symbol_zero_refused hs0 hg0]
    · have hg : ¬ h.refuses := by
        unfold Heap.refuses
        rw [← hgr, hg0]
        simp
      obtain ⟨hnew, _, _⟩ := withCopy_facts h0 g hne
      rcases hfs with rfl | rfl
      · refine ⟨h0.withCopy s g,
          { type := LV_IMG_SRC_FILE, uri_len := s.length, uri := Ptr.mk h0.blocks.length 0,
            ext := extOf h0.blocks.length s },
          ?_, rfl, fun hr => absurd hr hg, fun _ => ⟨hnew, rfl⟩⟩
        simp only [lv_img_src_parse, ht, set_file_after_free src hf,
          set_file_zero_granted hs0 hg0]
      · refine ⟨h0.withCopy s g,
          { type := LV_IMG_SRC_SYMBOL, uri_len := s.length, uri := Ptr.mk h0.blocks.length 0,
            ext := Ptr.null },
          ?_, rfl, fun hr => absurd hr hg, fun _ => ⟨hnew, rfl⟩⟩
        simp only [lv_img_src_parse, ht, set_symbol_after_free src hf,
          set_symbol_zero_granted hs0 hg0]
  · intro q h1 d hq
    unfold lv_img_src_parse at hq
    cases hty : lv_img_src_get_type h q with
    | none => simp [hty] at hq
    | some ty =>
      cases ty with
      | LV_IMG_SRC_UNKNOWN =>
        unfold lv_img_src_get_type at hty
        by_contra hqn
        rw [if_neg hqn] at hty
        cases hl : load h q with
        | none => simp [hl] at hty
        | some u8 =>
          simp only [hl] at hty
          split at hty
          · cases hty
          · split at hty <;> cases hty
      | LV_IMG_SRC_VARIABLE =>
        simp only [hty] at hq
        cases hds : data_size h q with
        | none => simp [hds] at hq
        | some n =>
          simp only [hds] at hq
          cases hsd : lv_img_src_set_data h uri q n with
          | none => simp [hsd] at hq
          | some r => simp [hsd] at hq
      | LV_IMG_SRC_FILE =>
        simp only [hty] at hq
        cases hsd : lv_img_src_set_file h uri q with
        | none => simp [hsd] at hq
        | some r => simp [hsd] at hq
      | LV_IMG_SRC_SYMBOL =>
        simp only [hty] at hq
        cases hsd : lv_img_src_set_symbol h uri q with
        | none => simp [hsd] at hq
        | some r => simp [hsd] at hq

/-- Witness of the amended C7: the source `a.b` parsed with an allocator that grants. -/
theorem lv_img_src_parse_result_witness :
    lv_img_src_get_type heapAB (Ptr.mk 0 0) = some LV_IMG_SRC_FILE ∧
      ∃ h1 d, lv_img_src_parse (fun _ _ => none) heapAB lv_img_src_zero (Ptr.mk 0 0)
          = some (h1, d, LV_RES_OK) ∧ d.type = LV_IMG_SRC_FILE := by
  have ht : lv_img_src_get_type heapAB (Ptr.mk 0 0) = some LV_IMG_SRC_FILE := by decide
  obtain ⟨⟨h1, d, h2, h3, _⟩, _⟩ :=
    lv_img_src_parse_result (fun _ _ => none) heapAB lv_img_src_zero (Ptr.mk 0 0) [97, 46, 98]
      LV_IMG_SRC_FILE ht (Or.inl rfl) (by decide) (by decide) (by decide)
  exact ⟨ht, h1, d, h2, h3⟩

/-! ## Decode session: lemmas -/

theorem Sys.alloc_logs (sys : Sys) :
    sys.alloc.1.closed = sys.closed ∧ sys.alloc.1.freed = sys.freed := by
  unfold Sys.alloc
  cases sys.grants <;> exact ⟨rfl, rfl⟩

/-- A context that is still attached after `decoder_close` is the one that was attached before,
and it is not auto-allocated. -/
theorem decoder_close_kept {sys : Sys} {dsc : lv_img_dec_dsc_t} {c1 : lv_img_dec_ctx_t}
    (h : (decoder_close sys dsc).2.dec_ctx = some c1) :
    dsc.dec_ctx = some c1 ∧ c1.auto_allocated = false := by
  unfold decoder_close at h
  cases hd : dsc.dec_ctx with
  | none => simp [hd] at h
  | some c =>
    simp only [hd] at h
    by_cases ha : c.auto_allocated = true
    · simp [ha] at h
    · simp only [ha] at h
      simp only [Bool.false_eq_true, if_false] at h
      rw [hd] at h
      cases h
      exact ⟨rfl, by simpa using ha⟩

/-- `decoder_close` on a context that is not auto-allocated, or on no context, does nothing. -/
theorem decoder_close_caller {sys : Sys} {dsc : lv_img_dec_dsc_t}
    (h : dsc.dec_ctx = none ∨ ∃ c, dsc.dec_ctx = some c ∧ c.auto_allocated = false) :
    decoder_close sys dsc = (sys, dsc) := by
  unfold decoder_close
  rcases h with h | ⟨c, hc, ha⟩
  · simp [h]
  · simp [hc, ha]

/-- `decoder_close` on an auto-allocated context: the decoder-private context is passed to
`ffmpeg_close`, `user_data` is cleared, the context is freed and the pointer is set to NULL. -/
theorem decoder_close_auto {sys : Sys} {dsc : lv_img_dec_dsc_t} {c : lv_img_dec_ctx_t}
    (hc : dsc.dec_ctx = some c) (ha : c.auto_allocated = true) :
    decoder_close sys dsc
      = ({ sys with closed := (match c.user_data with
                                | some f => f :: sys.closed
                                | none => sys.closed),
                    freed := { c with user_data := none } :: sys.freed },
         { dsc with dec_ctx := none }) := by
  unfold decoder_close
  simp only [hc, ha, if_true]
  cases c.user_data <;> rfl

/-- A file that `ffmpeg_open_file` opens leaves the logs of released resources unchanged. -/
theorem ffmpeg_open_file_some {sys : Sys} {path : Option (List Nat)} {f : ffmpeg_context_s}
    (h : (ffmpeg_open_file sys path).2 = some f) :
    (ffmpeg_open_file sys path).1.closed = sys.closed ∧
      (ffmpeg_open_file sys path).1.freed = sys.freed := by
  have hlogs := sys.alloc_logs
  unfold ffmpeg_open_file at h ⊢
  cases path with
  | none => simp at h
  | some p =>
    by_cases hp : p.length = 0
    · simp [hp] at h
    · by_cases ha : sys.alloc.2 = false
      · simp [hp, ha] at h
      · cases hl : sys.alloc.1.fs.lookup p with
        | none => simp [hp, ha, hl] at h
        | some m =>
          by_cases hi : m.info_ok = false
          · simp [hp, ha, hl, hi] at h
          · by_cases hc : m.codec_ok = true
            · simp [hp, ha, hl, hi, hc, ffmpeg_context_zero, hlogs]
            · simp [hp, ha, hl, hi, hc, ffmpeg_context_zero] at h

/-- A metadata-only open that returns `LV_RES_OK` went through `decoder_close` with the header
filled from the opened file. -/
theorem decoder_open_meta_onlymeta {sys s1 : Sys} {dsc d1 : lv_img_dec_dsc_t}
    {ctx : lv_img_dec_ctx_t} {f : ffmpeg_context_s}
    (h : decoder_open_meta sys dsc ctx f LV_IMG_DEC_ONLYMETA = some (s1, d1, LV_RES_OK)) :
    ∃ m ctx2, f.fmt_ctx = some m ∧ ctx2.auto_allocated = ctx.auto_allocated ∧
      (s1, d1) = decoder_close sys (attach
        { dsc with
          caps := 0x02 ||| 0x08,
          header := { w := m.width, h := m.height, always_zero := 0,
                      cf := if f.has_alpha = true then LV_IMG_CF_TRUE_COLOR_ALPHA
                            else LV_IMG_CF_TRUE_COLOR } } ctx2 (some f)) := by
  unfold decoder_open_meta at h
  cases hm : f.fmt_ctx with
  | none => simp [hm] at h
  | some m =>
    simp only [hm] at h
    by_cases h1 : f.video_stream = false
    · rw [if_pos h1] at h
      cases h
    · rw [if_neg h1] at h
      by_cases h2 : (m.nb_frames % 4294967296).toNat = 0
      · rw [if_pos h2] at h
        simp [error_out] at h
      · rw [if_neg h2] at h
        cases hr : c_int_div m.avg_num m.avg_den with
        | none => simp [hr] at h
        | some rate =>
          cases hd : (c_int_mul 1000 m.avg_den).bind fun x => c_int_div x m.avg_num with
          | none => simp [hr, hd] at h
          | some delay =>
            simp only [hr, hd] at h
            by_cases h3 : f.video_dec_ctx = false
            · rw [if_pos h3] at h
              cases h
            · rw [if_neg h3, if_pos trivial] at h
              simp only [Option.some.injEq, Prod.mk.injEq, and_true] at h
              exact ⟨m, { ctx with total_frames := (m.nb_frames % 4294967296).toNat,
                                   frame_rate := (rate % 32768).toNat,
                                   frame_delay := (delay % 65536).toNat }, rfl, rfl,
                Prod.ext h.1.symm h.2.symm⟩

theorem error_out_auto {sys s1 : Sys} {dsc d1 : lv_img_dec_dsc_t} {c c1 : lv_img_dec_ctx_t}
    {fo : Option ffmpeg_context_s} {r : lv_res_t}
    (h : error_out sys (attach dsc c fo) = (s1, d1, r)) (hc : d1.dec_ctx = some c1) :
    c1.auto_allocated = c.auto_allocated := by
  unfold error_out at h
  simp only [Prod.mk.injEq] at h
  obtain ⟨_, rfl, _⟩ := h
  obtain ⟨h1, _⟩ := decoder_close_kept hc
  simp only [attach, Option.some.injEq] at h1
  rw [← h1]

theorem decoder_open_frame_auto {sys s1 : Sys} {dsc d1 : lv_img_dec_dsc_t}
    {ctx c1 : lv_img_dec_ctx_t} {f : ffmpeg_context_s} {r : lv_res_t}
    (h : decoder_open_frame sys dsc ctx f = some (s1, d1, r)) (hc : d1.dec_ctx = some c1) :
    c1.auto_allocated = ctx.auto_allocated := by
  unfold decoder_open_frame at h
  dsimp only at h
  generalize (if f.video_src_data0 = false then ffmpeg_image_allocate sys f else (sys, f, 0))
    = a at h
  generalize (if ctx.current_frame = 0 then { a.2.1 with pos := 0 } else a.2.1) = f1 at h
  split at h
  · exact error_out_auto (Option.some.inj h) hc
  · split at h
    · split at h
      · cases h
      · split at h
        · exact error_out_auto (Option.some.inj h) hc
        · simp only [Option.some.injEq, Prod.mk.injEq] at h
          obtain ⟨_, rfl, _⟩ := h
          simp only [attach, Option.some.injEq] at hc
          rw [← hc]
    · simp only [Option.some.injEq, Prod.mk.injEq] at h
      obtain ⟨_, rfl, _⟩ := h
      simp only [attach, Option.some.injEq] at hc
      rw [← hc]

theorem decoder_open_meta_auto {sys s1 : Sys} {dsc d1 : lv_img_dec_dsc_t}
    {ctx c1 : lv_img_dec_ctx_t} {f : ffmpeg_context_s} {flags : lv_img_dec_flags_t}
    {r : lv_res_t}
    (h : decoder_open_meta sys dsc ctx f flags = some (s1, d1, r)) (hc : d1.dec_ctx = some c1) :
    c1.auto_allocated = ctx.auto_allocated := by
  unfold decoder_open_meta at h
  cases hm : f.fmt_ctx with
  | none => simp [hm] at h
  | some m =>
    simp only [hm] at h
    by_cases h1 : f.video_stream = false
    · rw [if_pos h1] at h
      cases h
    · rw [if_neg h1] at h
      by_cases h2 : (m.nb_frames % 4294967296).toNat = 0
      · rw [if_pos h2] at h
        have h3 := error_out_auto (Option.some.inj h) hc
        exact h3
      · rw [if_neg h2] at h
        cases hr : c_int_div m.avg_num m.avg_den with
        | none => simp [hr] at h
        | some rate =>
          cases hd : (c_int_mul 1000 m.avg_den).bind fun x => c_int_div x m.avg_num with
          | none => simp [hr, hd] at h
          | some delay =>
            simp only [hr, hd] at h
            by_cases h4 : f.video_dec_ctx = false
            · rw [if_pos h4] at h
              cases h
            · rw [if_neg h4] at h
              by_cases hfl : flags = LV_IMG_DEC_ONLYMETA
              · rw [if_pos hfl] at h
                simp only [Option.some.injEq, Prod.mk.injEq] at h
                obtain ⟨_, rfl, _⟩ := h
                obtain ⟨h3, _⟩ := decoder_close_kept hc
                simp only [attach, Option.some.injEq] at h3
                rw [← h3]
              · rw [if_neg hfl] at h
                have h3 := decoder_open_frame_auto h hc
                exact h3

theorem decoder_open_ctx_auto {sys s1 : Sys} {dsc d1 : lv_img_dec_dsc_t}
    {ctx c1 : lv_img_dec_ctx_t} {flags : lv_img_dec_flags_t} {r : lv_res_t}
    (h : decoder_open_ctx sys dsc ctx flags = some (s1, d1, r)) (hc : d1.dec_ctx = some c1) :
    c1.auto_allocated = ctx.auto_allocated := by
  unfold decoder_open_ctx at h
  dsimp only at h
  cases hu : ctx.user_data with
  | some f =>
    simp only [hu] at h
    exact decoder_open_meta_auto h hc
  | none =>
    simp only [hu] at h
    cases ho : (ffmpeg_open_file sys dsc.input_src_data).2 with
    | none =>
      simp only [ho] at h
      exact error_out_auto (Option.some.inj h) hc
    | some f =>
      simp only [ho] at h
      exact decoder_open_meta_auto h hc

/-- A metadata-only open that returns `LV_RES_OK`, after the decode context `ctx` is there. -/
theorem decoder_open_ctx_onlymeta {sys s1 : Sys} {dsc d1 : lv_img_dec_dsc_t}
    {ctx : lv_img_dec_ctx_t}
    (h : decoder_open_ctx sys dsc ctx LV_IMG_DEC_ONLYMETA = some (s1, d1, LV_RES_OK)) :
    ∃ f m ctx2 s0, f.fmt_ctx = some m ∧ (ctx.user_data = none ∨ ctx.user_data = some f) ∧
      s0.closed = sys.closed ∧ s0.freed = sys.freed ∧
      ctx2.auto_allocated = ctx.auto_allocated ∧
      (s1, d1) = decoder_close s0 (attach
        { dsc with
          caps := 0x02 ||| 0x08,
          header := { w := m.width, h := m.height, always_zero := 0,
                      cf := if f.has_alpha = true then LV_IMG_CF_TRUE_COLOR_ALPHA
                            else LV_IMG_CF_TRUE_COLOR } } ctx2 (some f)) := by
  unfold decoder_open_ctx at h
  dsimp only at h
  cases hu : ctx.user_data with
  | some f =>
    simp only [hu] at h
    obtain ⟨m, ctx2, hm, ha, hr⟩ := decoder_open_meta_onlymeta h
    exact ⟨f, m, ctx2, sys, hm, Or.inr rfl, rfl, rfl, ha, hr⟩
  | none =>
    simp only [hu] at h
    cases ho : (ffmpeg_open_file sys dsc.input_src_data).2 with
    | none =>
      simp only [ho] at h
      simp [error_out] at h
    | some f =>
      simp only [ho] at h
      obtain ⟨m, ctx2, hm, ha, hr⟩ := decoder_open_meta_onlymeta h
      obtain ⟨hc1, hc2⟩ := ffmpeg_open_file_some ho
      exact ⟨f, m, ctx2, _, hm, Or.inl rfl, hc1, hc2, ha, hr⟩

/-! ## Decode session: the claims -/

/-- C8, as stated, fails: with a decode context supplied by the caller, a metadata-only open of
the file `a` returns `LV_RES_OK` and the context stays attached to the descriptor, with the
decoder-private context in its `user_data`; nothing has been released. -/
theorem decoder_open_onlymeta_keeps_caller_context :
    decoder_open sysA dscCaller LV_IMG_DEC_ONLYMETA
      = some ({ sysA with grants := [true, true, true, true, true] },
          { dscCaller with
            header := { w := 4, h := 3, always_zero := 0, cf := LV_IMG_CF_TRUE_COLOR },
            caps := 10,
            dec_ctx := some { lv_img_dec_ctx_zero with
              total_frames := 2, frame_rate := 25, frame_delay := 40, user_data := some ffA } },
          LV_RES_OK) := by
  decide

/-- C8, amended: when `decoder_open(dsc, LV_IMG_DEC_ONLYMETA)` returns `LV_RES_OK`, the header
holds the width, the height and the colour format of the opened file. For a descriptor that
arrived without a decode context, or with one marked auto-allocated, no decode context remains
attached: it has been freed with `user_data` cleared, and the decoder-private context has been
passed to `ffmpeg_close`. A context supplied by the caller (not marked auto-allocated) stays
attached and holds the decoder-private context; nothing is released. -/
theorem decoder_open_onlymeta_result (sys s1 : Sys) (dsc d1 : lv_img_dec_dsc_t)
    (h : decoder_open sys dsc LV_IMG_DEC_ONLYMETA = some (s1, d1, LV_RES_OK)) :
    ∃ f m, f.fmt_ctx = some m ∧
      d1.header = { w := m.width, h := m.height, always_zero := 0,
                    cf := if f.has_alpha = true then LV_IMG_CF_TRUE_COLOR_ALPHA
                          else LV_IMG_CF_TRUE_COLOR } ∧
      (∀ c, dsc.dec_ctx = some c → c.user_data = none ∨ c.user_data = some f) ∧
      ((dsc.dec_ctx = none ∨ ∃ c, dsc.dec_ctx = some c ∧ c.auto_allocated = true) →
        d1.dec_ctx = none ∧ s1.closed = f :: sys.closed ∧
          ∃ c2, s1.freed = c2 :: sys.freed ∧ c2.user_data = none) ∧
      (∀ c, dsc.dec_ctx = some c → c.auto_allocated = false →
        ∃ c2, d1.dec_ctx = some c2 ∧ c2.auto_allocated = false ∧ c2.user_data = some f ∧
          s1.closed = sys.closed ∧ s1.freed = sys.freed) := by
  unfold decoder_open at h
  by_cases ht : dsc.input_src_type ≠ LV_IMG_SRC_FILE
  · rw [if_pos ht] at h
    simp at h
  · rw [if_neg ht] at h
    cases hd : dsc.dec_ctx with
    | some c =>
      simp only [hd] at h
      obtain ⟨f, m, ctx2, s0, hm, hu, hc1, hc2, ha, hr⟩ := decoder_open_ctx_onlymeta h
      refine ⟨f, m, hm, ?_, ?_, ?_, ?_⟩
      · by_cases hauto : ctx2.auto_allocated = true
        · rw [decoder_close_auto (c := { ctx2 with user_data := some f }) rfl hauto] at hr
          simp only [Prod.mk.injEq] at hr
          rw [hr.2]
          rfl
        · rw [decoder_close_caller
            (Or.inr ⟨{ ctx2 with user_data := some f }, rfl, by simpa using hauto⟩)] at hr
          simp only [Prod.mk.injEq] at hr
          rw [hr.2]
          rfl
      · intro c' hc'
        cases hc'
        exact hu
      · rintro (hn | ⟨c', hc', hauto⟩)
        · cases hn
        · cases hc'
          rw [← ha] at hauto
          rw [decoder_close_auto (c := { ctx2 with user_data := some f }) rfl hauto] at hr
          simp only [Prod.mk.injEq] at hr
          rw [hr.1, hr.2]
          refine ⟨rfl, by simp [hc1], ⟨{ ctx2 with user_data := none }, ?_, rfl⟩⟩
          simp [hc2]
      · intro c' hc' hauto
        cases hc'
        rw [← ha] at hauto
        rw [decoder_close_caller (Or.inr ⟨{ ctx2 with user_data := some f }, rfl, hauto⟩)] at hr
        simp only [Prod.mk.injEq] at hr
        rw [hr.1, hr.2]
        exact ⟨{ ctx2 with user_data := some f }, rfl, hauto, rfl, hc1, hc2⟩
    | none =>
      simp only [hd] at h
      by_cases hal : sys.alloc.2 = false
      · rw [if_pos hal] at h
        simp at h
      · rw [if_neg hal] at h
        obtain ⟨f, m, ctx2, s0, hm, hu, hc1, hc2, ha, hr⟩ := decoder_open_ctx_onlymeta h
        have hauto : ctx2.auto_allocated = true := ha
        rw [decoder_close_auto (c := { ctx2 with user_data := some f }) rfl hauto] at hr
        simp only [Prod.mk.injEq] at hr
        obtain ⟨hl1, hl2⟩ := sys.alloc_logs
        refine ⟨f, m, hm, ?_, ?_, ?_, ?_⟩
        · rw [hr.2]
          rfl
        · intro c' hc'
          cases hc'
        · intro _
          rw [hr.1, hr.2]
          refine ⟨rfl, by simp [hc1, hl1], ⟨{ ctx2 with user_data := none }, ?_, rfl⟩⟩
          simp [hc2, hl2]
        · intro c' hc'
          cases hc'

/-- Witness of the amended C8: the file `a` opened for its metadata on a descriptor that
arrives without a decode context. -/
theorem decoder_open_onlymeta_result_witness :
    ∃ s1 d1, decoder_open sysA dscNew LV_IMG_DEC_ONLYMETA = some (s1, d1, LV_RES_OK) ∧
      d1.header = { w := 4, h := 3, always_zero := 0, cf := LV_IMG_CF_TRUE_COLOR } ∧
      d1.dec_ctx = none := by
  have h : decoder_open sysA dscNew LV_IMG_DEC_ONLYMETA
      = some ({ sysA with grants := [true, true, true, true], closed := [ffA],
                          freed := [{ lv_img_dec_ctx_zero with
                            auto_allocated := true, total_frames := 2, frame_rate := 25,
                            frame_delay := 40 }] },
          { dscNew with
            header := { w := 4, h := 3, always_zero := 0, cf := LV_IMG_CF_TRUE_COLOR },
            caps := 10 },
          LV_RES_OK) := by
    decide
  obtain ⟨f, m, _, _, _, hnone, _⟩ := decoder_open_onlymeta_result sysA _ dscNew _ h
  exact ⟨_, _, h, rfl, (hnone (Or.inl rfl)).1⟩

/-- C9: `decoder_close` frees the decode context and sets `dsc->dec_ctx` to NULL exactly when
the context is there and marked auto-allocated: in that case the context is passed to
`lv_free` and the pointer is cleared, and in every other case (no context, or a context
supplied by the caller) `decoder_close` changes nothing, neither the pointer nor a field of the
context nor the log of freed contexts. A context that is attached after `decoder_open` is
marked auto-allocated when the descriptor arrived without one, and has the mark the caller
gave it otherwise. -/
theorem decoder_close_frees_iff_auto_allocated (sys : Sys) (dsc : lv_img_dec_dsc_t) :
    (∀ c, dsc.dec_ctx = some c → c.auto_allocated = true →
      (decoder_close sys dsc).2.dec_ctx = none ∧
      (decoder_close sys dsc).1.freed = { c with user_data := none } :: sys.freed) ∧
    ((dsc.dec_ctx = none ∨ ∃ c, dsc.dec_ctx = some c ∧ c.auto_allocated = false) →
      decoder_close sys dsc = (sys, dsc)) ∧
    (∀ flags s1 d1 r c1, decoder_open sys dsc flags = some (s1, d1, r) →
      d1.dec_ctx = some c1 →
      c1.auto_allocated = (match dsc.dec_ctx with
                           | none => true
                           | some c => c.auto_allocated)) := by
  refine ⟨?_, decoder_close_caller, ?_⟩
  · intro c hc ha
    rw [decoder_close_auto hc ha]
    exact ⟨rfl, rfl⟩
  · intro flags s1 d1 r c1 h hc1
    unfold decoder_open at h
    by_cases ht : dsc.input_src_type ≠ LV_IMG_SRC_FILE
    · rw [if_pos ht] at h
      simp only [Option.some.injEq, Prod.mk.injEq] at h
      obtain ⟨_, rfl, _⟩ := h
      rw [hc1]
    · rw [if_neg ht] at h
      cases hd : dsc.dec_ctx with
      | some c =>
        simp only [hd] at h
        exact decoder_open_ctx_auto h hc1
      | none =>
        simp only [hd] at h
        by_cases hal : sys.alloc.2 = false
        · rw [if_pos hal] at h
          simp only [Option.some.injEq, Prod.mk.injEq] at h
          obtain ⟨_, rfl, _⟩ := h
          rw [hd] at hc1
          cases hc1
        · rw [if_neg hal] at h
          have h3 := decoder_open_ctx_auto h hc1
          exact h3

/-- Witness of C9: after a full open of the file `a` on a descriptor that arrives without a
decode context, the attached context is marked auto-allocated, and closing frees it. -/
theorem decoder_close_frees_iff_auto_allocated_witness :
    ∃ s1 d1 c1, decoder_open sysA dscNew LV_IMG_DEC_ALL = some (s1, d1, LV_RES_OK) ∧
      d1.dec_ctx = some c1 ∧ c1.auto_allocated = true ∧
      (decoder_close sysA dscAuto).2.dec_ctx = none := by
  cases h : decoder_open sysA dscNew LV_IMG_DEC_ALL with
  | none => exact absurd h (by decide)
  | some x =>
    obtain ⟨s1, d1, r⟩ := x
    have hr : r = LV_RES_OK := by
      have : (decoder_open sysA dscNew LV_IMG_DEC_ALL).map (fun y => y.2.2) = some LV_RES_OK := by
        decide
      rw [h] at this
      simpa using this
    subst hr
    have hsome : (d1.dec_ctx).isSome = true := by
      have : ((decoder_open sysA dscNew LV_IMG_DEC_ALL).map
          (fun y => y.2.1.dec_ctx.isSome)) = some true := by
        decide
      rw [h] at this
      simpa using this
    cases hc : d1.dec_ctx with
    | none => rw [hc] at hsome; cases hsome
    | some c1 =>
      obtain ⟨hclose, _, hopen⟩ := decoder_close_frees_iff_auto_allocated sysA dscNew
      obtain ⟨hclose2, _, _⟩ := decoder_close_frees_iff_auto_allocated sysA dscAuto
      exact ⟨s1, d1, c1, rfl, hc, hopen _ _ _ _ _ h hc, (hclose2 _ rfl rfl).1⟩

/-- C10, as stated, fails: for a caller-supplied decode context that holds the decoder-private
context in `user_data`, `decoder_close` releases nothing and `user_data` still refers to it. -/
theorem decoder_close_keeps_caller_private_state :
    decoder_close sysA dscHeld = (sysA, dscHeld) ∧
      (dscHeld.dec_ctx.bind fun c => c.user_data) = some ffA ∧
      (decoder_close sysA dscHeld).1.closed = [] := by
  decide

/-- C10, amended: for a descriptor whose auto-allocated decode context holds decoder-private
state in `user_data`, `decoder_close` passes that state to `ffmpeg_close`, clears `user_data`,
frees the context and sets `dsc->dec_ctx` to NULL; for a context supplied by the caller
`decoder_close` releases nothing and leaves `user_data` as it is. -/
theorem decoder_close_private_state (sys : Sys) (dsc : lv_img_dec_dsc_t) (c : lv_img_dec_ctx_t)
    (f : ffmpeg_context_s) (hc : dsc.dec_ctx = some c) (hu : c.user_data = some f) :
    (c.auto_allocated = true →
      decoder_close sys dsc
        = ({ sys with closed := f :: sys.closed,
                      freed := { c with user_data := none } :: sys.freed },
           { dsc with dec_ctx := none })) ∧
    (c.auto_allocated = false → decoder_close sys dsc = (sys, dsc)) := by
  constructor
  · intro ha
    rw [decoder_close_auto hc ha, hu]
  · intro ha
    exact decoder_close_caller (Or.inr ⟨c, hc, ha⟩)

/-- Witness of the amended C10: closing a descriptor with an auto-allocated context that
holds the decoder-private context of the file `a`. -/
theorem decoder_close_private_state_witness :
    (decoder_close sysA dscAuto).1.closed = [ffA] ∧
      (decoder_close sysA dscAuto).2.dec_ctx = none := by
  have h := (decoder_close_private_state sysA dscAuto
    { lv_img_dec_ctx_zero with auto_allocated := true, user_data := some ffA } ffA rfl rfl).1 rfl
  rw [h]
  exact ⟨rfl, rfl⟩

/-! ## Compositor: the claims -/

/-- C15: `lv_gpu_nxp_pxp_blit_transform` runs exactly one of three paths. It runs the single
job of `lv_pxp_blit_cover` iff recolor or rotation is asked for and the opacity is at least
`LV_OPA_MAX` and the format has no alpha channel and is not chroma-keyed; the two jobs of
`lv_pxp_blit_opa` iff recolor or rotation is asked for and that condition fails; and the single
job of `lv_pxp_blit_cf` iff there is neither recolor nor rotation. -/
theorem blit_transform_paths (conf : PxpConf) (dest_buf : PxpBuf) (dest_area : lv_area_t)
    (dest_stride : Int) (src_buf : PxpBuf) (src_area : lv_area_t) (src_stride : Int)
    (dsc : lv_draw_img_dsc_t) (cf : lv_color_format_t) :
    ((lv_gpu_nxp_pxp_blit_transform conf dest_buf dest_area dest_stride src_buf src_area
        src_stride dsc cf).2
      = [PxpJob.cover (lv_pxp_blit_cover conf dest_buf dest_area dest_stride src_buf src_area
          src_stride dsc cf).2]
      ↔ (dsc.recolor_opa ≠ conf.LV_OPA_TRANSP ∨ dsc.angle ≠ 0) ∧
        (dsc.opa ≥ conf.LV_OPA_MAX ∧ conf.lv_color_format_has_alpha cf = false ∧
          cf ≠ conf.LV_COLOR_FORMAT_NATIVE_CHROMA_KEYED)) ∧
    ((lv_gpu_nxp_pxp_blit_transform conf dest_buf dest_area dest_stride src_buf src_area
        src_stride dsc cf).2
      = lv_pxp_blit_opa conf dest_buf dest_area dest_stride src_buf src_area src_stride dsc cf
      ↔ (dsc.recolor_opa ≠ conf.LV_OPA_TRANSP ∨ dsc.angle ≠ 0) ∧
        ¬ (dsc.opa ≥ conf.LV_OPA_MAX ∧ conf.lv_color_format_has_alpha cf = false ∧
          cf ≠ conf.LV_COLOR_FORMAT_NATIVE_CHROMA_KEYED)) ∧
    ((lv_gpu_nxp_pxp_blit_transform conf dest_buf dest_area dest_stride src_buf src_area
        src_stride dsc cf).2
      = [PxpJob.cf (lv_pxp_blit_cf conf dest_buf dest_area dest_stride src_buf src_area
          src_stride dsc cf)]
      ↔ dsc.recolor_opa = conf.LV_OPA_TRANSP ∧ dsc.angle = 0) := by
  by_cases ht : dsc.recolor_opa ≠ conf.LV_OPA_TRANSP ∨ dsc.angle ≠ 0
  · by_cases ho : dsc.opa ≥ conf.LV_OPA_MAX ∧ conf.lv_color_format_has_alpha cf = false ∧
        cf ≠ conf.LV_COLOR_FORMAT_NATIVE_CHROMA_KEYED
    · have h : (lv_gpu_nxp_pxp_blit_transform conf dest_buf dest_area dest_stride src_buf
          src_area src_stride dsc cf).2
          = [PxpJob.cover (lv_pxp_blit_cover conf dest_buf dest_area dest_stride src_buf
              src_area src_stride dsc cf).2] := by
        unfold lv_gpu_nxp_pxp_blit_transform
        simp [ht, ho]
      have hnt : ¬ (dsc.recolor_opa = conf.LV_OPA_TRANSP ∧ dsc.angle = 0) := by
        intro hc
        rcases ht with h1 | h1
        · exact h1 hc.1
        · exact h1 hc.2
      rw [h]
      simp [ht, ho, hnt, lv_pxp_blit_opa]
    · have h : (lv_gpu_nxp_pxp_blit_transform conf dest_buf dest_area dest_stride src_buf
          src_area src_stride dsc cf).2
          = lv_pxp_blit_opa conf dest_buf dest_area dest_stride src_buf src_area src_stride
              dsc cf := by
        unfold lv_gpu_nxp_pxp_blit_transform
        simp only [decide_eq_true_eq]
        rw [if_pos ht]
        have ho2 : ¬ (dsc.opa ≥ conf.LV_OPA_MAX ∧ ¬ (conf.lv_color_format_has_alpha cf = true) ∧
            cf ≠ conf.LV_COLOR_FORMAT_NATIVE_CHROMA_KEYED) := by
          simpa using ho
        rw [if_neg ho2]
      have hnt : ¬ (dsc.recolor_opa = conf.LV_OPA_TRANSP ∧ dsc.angle = 0) := by
        intro hc
        rcases ht with h1 | h1
        · exact h1 hc.1
        · exact h1 hc.2
      rw [h]
      simp [ht, ho, hnt, lv_pxp_blit_opa]
  · have h : (lv_gpu_nxp_pxp_blit_transform conf dest_buf dest_area dest_stride src_buf
        src_area src_stride dsc cf).2
        = [PxpJob.cf (lv_pxp_blit_cf conf dest_buf dest_area dest_stride src_buf src_area
            src_stride dsc cf)] := by
      unfold lv_gpu_nxp_pxp_blit_transform
      simp only [decide_eq_true_eq]
      rw [if_neg ht]
    have hnt : dsc.recolor_opa = conf.LV_OPA_TRANSP ∧ dsc.angle = 0 := by
      constructor
      · by_contra hc; exact ht (Or.inl hc)
      · by_contra hc; exact ht (Or.inr hc)
    rw [h]
    simp [ht, hnt, lv_pxp_blit_opa]

/-- C17, as stated, fails: for a format without alpha channel that is not chroma-keyed, drawn
with full opacity, `lv_pxp_blit_cf` leaves the alpha mode at `kPXP_AlphaRop`, not override. -/
theorem blit_cf_opaque_is_rop :
    confA.lv_color_format_has_alpha 0 = false ∧
      (lv_pxp_blit_cf confA PxpBuf.destination area10 10 PxpBuf.source area10 10 dscPlain
        0).alphaMode = kPXP_AlphaRop := by
  decide

/-- C17, amended: in `lv_pxp_blit_cf` the alpha mode depends on the format and the opacity
only. For a format with an alpha channel it is multiply when `opa < LV_OPA_MAX` and embedded
when `opa >= LV_OPA_MAX`. For a format without alpha channel it is override when
`opa < LV_OPA_MAX` or the format is chroma-keyed, and in the simple blit that remains
(`opa >= LV_OPA_MAX`, not chroma-keyed) the mode is left at `kPXP_AlphaRop` and the process
surface is disabled. -/
theorem blit_cf_alpha_mode_cases (conf : PxpConf) (dest_buf : PxpBuf) (dest_area : lv_area_t)
    (dest_stride : Int) (src_buf : PxpBuf) (src_area : lv_area_t) (src_stride : Int)
    (dsc : lv_draw_img_dsc_t) (cf : lv_color_format_t) :
    (conf.lv_color_format_has_alpha cf = true → dsc.opa < conf.LV_OPA_MAX →
      (lv_pxp_blit_cf conf dest_buf dest_area dest_stride src_buf src_area src_stride dsc
        cf).alphaMode = kPXP_AlphaMultiply) ∧
    (conf.lv_color_format_has_alpha cf = true → dsc.opa ≥ conf.LV_OPA_MAX →
      (lv_pxp_blit_cf conf dest_buf dest_area dest_stride src_buf src_area src_stride dsc
        cf).alphaMode = kPXP_AlphaEmbedded) ∧
    (conf.lv_color_format_has_alpha cf = false →
      (dsc.opa < conf.LV_OPA_MAX ∨ cf = conf.LV_COLOR_FORMAT_NATIVE_CHROMA_KEYED) →
      (lv_pxp_blit_cf conf dest_buf dest_area dest_stride src_buf src_area src_stride dsc
        cf).alphaMode = kPXP_AlphaOverride) ∧
    (conf.lv_color_format_has_alpha cf = false → dsc.opa ≥ conf.LV_OPA_MAX →
      cf ≠ conf.LV_COLOR_FORMAT_NATIVE_CHROMA_KEYED →
      (lv_pxp_blit_cf conf dest_buf dest_area dest_stride src_buf src_area src_stride dsc
        cf).alphaMode = kPXP_AlphaRop ∧
      (lv_pxp_blit_cf conf dest_buf dest_area dest_stride src_buf src_area src_stride dsc
        cf).ps = none) := by
  refine ⟨?_, ?_, ?_, ?_⟩
  · intro ha ho
    have : ¬ dsc.opa ≥ conf.LV_OPA_MAX := by omega
    simp [lv_pxp_blit_cf, blit_cf_alpha_mode, ha, this]
  · intro ha ho
    simp [lv_pxp_blit_cf, blit_cf_alpha_mode, ha, ho]
  · intro ha ho
    rcases ho with ho | ho
    · have : ¬ dsc.opa ≥ conf.LV_OPA_MAX := by omega
      simp [lv_pxp_blit_cf, blit_cf_alpha_mode, ha, this]
    · subst ho
      by_cases hm : dsc.opa ≥ conf.LV_OPA_MAX
      · simp [lv_pxp_blit_cf, blit_cf_alpha_mode, ha, hm]
      · simp [lv_pxp_blit_cf, blit_cf_alpha_mode, ha, hm]
  · intro ha ho hc
    simp [lv_pxp_blit_cf, blit_cf_alpha_mode, ha, ho, hc]

/-- Witness of the amended C17: a format with alpha channel drawn with opacity 100. -/
theorem blit_cf_alpha_mode_cases_witness :
    confA.lv_color_format_has_alpha 3 = true ∧
      (lv_pxp_blit_cf confA PxpBuf.destination area10 10 PxpBuf.source area10 10
        { dscPlain with opa := 100 } 3).alphaMode = kPXP_AlphaMultiply := by
  have h := (blit_cf_alpha_mode_cases confA PxpBuf.destination area10 10 PxpBuf.source area10
    10 { dscPlain with opa := 100 } 3).1 (by decide) (by decide)
  exact ⟨by decide, h⟩

/-- The two colours of the colour key range with recolor, for an effective key whose channels
fit their bit fields. -/
theorem color_key_range_values (conf : PxpConf) (dsc : lv_draw_img_dsc_t)
    (hrec : dsc.recolor_opa ≠ conf.LV_OPA_TRANSP)
    (hfit : fits conf (conf.lv_color_mix dsc.recolor conf.LV_COLOR_CHROMA_KEY dsc.recolor_opa)) :
    (color_key_range conf dsc).1
      = { red := (conf.lv_color_mix dsc.recolor conf.LV_COLOR_CHROMA_KEY dsc.recolor_opa).red - 1,
          green :=
            (conf.lv_color_mix dsc.recolor conf.LV_COLOR_CHROMA_KEY dsc.recolor_opa).green - 1,
          blue :=
            (conf.lv_color_mix dsc.recolor conf.LV_COLOR_CHROMA_KEY dsc.recolor_opa).blue - 1 } ∧
    (color_key_range conf dsc).2
      = { red := min
            ((conf.lv_color_mix dsc.recolor conf.LV_COLOR_CHROMA_KEY dsc.recolor_opa).red + 1)
            (channelMax conf).red,
          green := min
            ((conf.lv_color_mix dsc.recolor conf.LV_COLOR_CHROMA_KEY dsc.recolor_opa).green + 1)
            (channelMax conf).green,
          blue := min
            ((conf.lv_color_mix dsc.recolor conf.LV_COLOR_CHROMA_KEY dsc.recolor_opa).blue + 1)
            (channelMax conf).blue } := by
  generalize hK : conf.lv_color_mix dsc.recolor conf.LV_COLOR_CHROMA_KEY dsc.recolor_opa = K
    at hfit ⊢
  obtain ⟨hr, hg, hb⟩ := hfit
  constructor
  · unfold color_key_range
    simp only [decide_eq_true_eq, hrec, ne_eq, not_false_eq_true, if_true, hK]
    unfold channelMax at hr hg hb
    by_cases hd : conf.LV_COLOR_DEPTH = 16
    · simp only [hd, if_true] at hr hg hb ⊢
      simp only [LV_COLOR_SET_R, LV_COLOR_SET_G, LV_COLOR_SET_B, hd, if_true]
      congr 1 <;> split_ifs <;> omega
    · simp only [hd, if_false] at hr hg hb ⊢
      simp only [LV_COLOR_SET_R, LV_COLOR_SET_G, LV_COLOR_SET_B, hd, if_false]
      congr 1 <;> split_ifs <;> omega
  · unfold color_key_range
    simp only [decide_eq_true_eq, hrec, ne_eq, not_false_eq_true, if_true, hK]
    unfold channelMax at hr hg hb ⊢
    by_cases hd : conf.LV_COLOR_DEPTH = 16
    · simp only [hd, if_true] at hr hg hb ⊢
      simp only [LV_COLOR_SET_R, LV_COLOR_SET_G, LV_COLOR_SET_B, hd, if_true]
      congr 1 <;> split_ifs <;> omega
    · simp only [hd, if_false] at hr hg hb ⊢
      simp only [LV_COLOR_SET_R, LV_COLOR_SET_G, LV_COLOR_SET_B, hd, if_false]
      congr 1 <;> split_ifs <;> omega

/-- C18: for a chroma-keyed source with recolor, the colour key range that `lv_pxp_blit_cf`
programs is built from `K = lv_color_mix(recolor, LV_COLOR_CHROMA_KEY, recolor_opa)`: in each
channel the low value is `K - 1` stopped at 0 and the high value is `K + 1` stopped at the
largest value of the channel (0x1f, 0x3f, 0x1f at depth 16, 0xff otherwise), so `K` lies in the
range; the two colours pass through `lv_color_to32`. -/
theorem color_key_range_recolor (conf : PxpConf) (dest_buf : PxpBuf) (dest_area : lv_area_t)
    (dest_stride : Int) (src_buf : PxpBuf) (src_area : lv_area_t) (src_stride : Int)
    (dsc : lv_draw_img_dsc_t)
    (hrec : dsc.recolor_opa ≠ conf.LV_OPA_TRANSP)
    (hfit : fits conf (conf.lv_color_mix dsc.recolor conf.LV_COLOR_CHROMA_KEY dsc.recolor_opa)) :
    (color_key_range conf dsc).1
      = { red := (conf.lv_color_mix dsc.recolor conf.LV_COLOR_CHROMA_KEY dsc.recolor_opa).red - 1,
          green :=
            (conf.lv_color_mix dsc.recolor conf.LV_COLOR_CHROMA_KEY dsc.recolor_opa).green - 1,
          blue :=
            (conf.lv_color_mix dsc.recolor conf.LV_COLOR_CHROMA_KEY dsc.recolor_opa).blue - 1 } ∧
    (color_key_range conf dsc).2
      = { red := min
            ((conf.lv_color_mix dsc.recolor conf.LV_COLOR_CHROMA_KEY dsc.recolor_opa).red + 1)
            (channelMax conf).red,
          green := min
            ((conf.lv_color_mix dsc.recolor conf.LV_COLOR_CHROMA_KEY dsc.recolor_opa).green + 1)
            (channelMax conf).green,
          blue := min
            ((conf.lv_color_mix dsc.recolor conf.LV_COLOR_CHROMA_KEY dsc.recolor_opa).blue + 1)
            (channelMax conf).blue } ∧
    inKeyRange (color_key_range conf dsc).1 (color_key_range conf dsc).2
      (conf.lv_color_mix dsc.recolor conf.LV_COLOR_CHROMA_KEY dsc.recolor_opa) ∧
    (lv_pxp_blit_cf conf dest_buf dest_area dest_stride src_buf src_area src_stride dsc
        conf.LV_COLOR_FORMAT_NATIVE_CHROMA_KEYED).colorKey
      = some (conf.lv_color_to32 (color_key_range conf dsc).1,
              conf.lv_color_to32 (color_key_range conf dsc).2) := by
  obtain ⟨hlow, hhigh⟩ := color_key_range_values conf dsc hrec hfit
  refine ⟨hlow, hhigh, ?_, ?_⟩
  · rw [hlow, hhigh]
    unfold fits at hfit
    unfold inKeyRange
    simp only
    omega
  · simp [lv_pxp_blit_cf]

/-- Witness of C18: a recolor to (10, 20, 30) gives the range from (9, 19, 29) to
(11, 21, 31). -/
theorem color_key_range_recolor_witness :
    dscRecolor.recolor_opa ≠ confA.LV_OPA_TRANSP ∧
      color_key_range confA dscRecolor
        = ({ red := 9, green := 19, blue := 29 }, { red := 11, green := 21, blue := 31 }) := by
  have h := color_key_range_recolor confA PxpBuf.destination area10 10 PxpBuf.source area10 10
    dscRecolor (by decide) (by decide)
  exact ⟨by decide, Prod.ext h.1 h.2.1⟩

/-- C19, as stated, fails: without recolor the colour key range of a chroma-keyed blit is the
key colour alone, and a pixel that is one unit away from the key in every channel lies
outside. -/
theorem color_key_range_plain_has_no_band :
    dscPlain.recolor_opa = confA.LV_OPA_TRANSP ∧
      color_key_range confA dscPlain = (confA.LV_COLOR_CHROMA_KEY, confA.LV_COLOR_CHROMA_KEY) ∧
      apart 1 confA.LV_COLOR_CHROMA_KEY.red 1 ∧ apart 254 confA.LV_COLOR_CHROMA_KEY.green 1 ∧
      apart 1 confA.LV_COLOR_CHROMA_KEY.blue 1 ∧
      ¬ inKeyRange (color_key_range confA dscPlain).1 (color_key_range confA dscPlain).2
          { red := 1, green := 254, blue := 1 } := by
  decide

/-- C19, amended: for a chroma-keyed blit with recolor, with the effective key
`K = lv_color_mix(recolor, LV_COLOR_CHROMA_KEY, recolor_opa)`, a pixel whose channels fit their
bit fields and are each one unit away from `K` lies in the programmed colour key range, and a
pixel with a channel two units away from `K` lies outside; without recolor the range holds the
key colour `LV_COLOR_CHROMA_KEY` and nothing else. -/
theorem color_key_band (conf : PxpConf) (dsc : lv_draw_img_dsc_t) (p : lv_color_t) :
    (dsc.recolor_opa ≠ conf.LV_OPA_TRANSP →
      fits conf (conf.lv_color_mix dsc.recolor conf.LV_COLOR_CHROMA_KEY dsc.recolor_opa) →
      (fits conf p →
        apart p.red (conf.lv_color_mix dsc.recolor conf.LV_COLOR_CHROMA_KEY
          dsc.recolor_opa).red 1 →
        apart p.green (conf.lv_color_mix dsc.recolor conf.LV_COLOR_CHROMA_KEY
          dsc.recolor_opa).green 1 →
        apart p.blue (conf.lv_color_mix dsc.recolor conf.LV_COLOR_CHROMA_KEY
          dsc.recolor_opa).blue 1 →
        inKeyRange (color_key_range conf dsc).1 (color_key_range conf dsc).2 p) ∧
      ((apart p.red (conf.lv_color_mix dsc.recolor conf.LV_COLOR_CHROMA_KEY
            dsc.recolor_opa).red 2 ∨
          apart p.green (conf.lv_color_mix dsc.recolor conf.LV_COLOR_CHROMA_KEY
            dsc.recolor_opa).green 2 ∨
          apart p.blue (conf.lv_color_mix dsc.recolor conf.LV_COLOR_CHROMA_KEY
            dsc.recolor_opa).blue 2) →
        ¬ inKeyRange (color_key_range conf dsc).1 (color_key_range conf dsc).2 p)) ∧
    (dsc.recolor_opa = conf.LV_OPA_TRANSP →
      (inKeyRange (color_key_range conf dsc).1 (color_key_range conf dsc).2 p
        ↔ p = conf.LV_COLOR_CHROMA_KEY)) := by
  constructor
  · intro hrec hfit
    obtain ⟨hlow, hhigh⟩ := color_key_range_values conf dsc hrec hfit
    rw [hlow, hhigh]
    generalize conf.lv_color_mix dsc.recolor conf.LV_COLOR_CHROMA_KEY dsc.recolor_opa = K
      at hfit ⊢
    unfold fits at hfit
    unfold inKeyRange apart
    simp only
    constructor
    · intro hp h1 h2 h3
      unfold fits at hp
      omega
    · intro h
      omega
  · intro hrec
    unfold color_key_range inKeyRange
    simp only [decide_eq_true_eq, hrec, ne_eq, not_true_eq_false, if_false]
    constructor
    · intro h
      cases p
      cases hk : conf.LV_COLOR_CHROMA_KEY
      rw [hk] at h
      simp only at h
      simp only [lv_color_t.mk.injEq]
      omega
    · intro h
      subst h
      omega

/-- Witness of the amended C19: with a recolor to (10, 20, 30) the pixel (11, 19, 31) lies in
the range. -/
theorem color_key_band_witness :
    dscRecolor.recolor_opa ≠ confA.LV_OPA_TRANSP ∧
      inKeyRange (color_key_range confA dscRecolor).1 (color_key_range confA dscRecolor).2
        { red := 11, green := 19, blue := 31 } := by
  have h := ((color_key_band confA dscRecolor { red := 11, green := 19, blue := 31 }).1
    (by decide) (by decide)).1 (by decide) (by decide) (by decide) (by decide)
  exact ⟨by decide, h⟩

/-! ## Legacy classifier: the claim -/

/-- C20: `lv_img_src_get_type` depends only on the first byte `b` of a non-null source: FILE
for `b` from 0x20 to 0x7F, SYMBOL for `b >= 0x80` and VARIABLE for `b < 0x20`; the result is
UNKNOWN exactly for the NULL pointer. -/
theorem lv_img_src_get_type_first_byte (h : Heap) (src : Ptr) :
    (∀ b, src ≠ Ptr.null → load h src = some b →
      (0x20 ≤ b ∧ b ≤ 0x7F → lv_img_src_get_type h src = some LV_IMG_SRC_FILE) ∧
      (0x80 ≤ b → lv_img_src_get_type h src = some LV_IMG_SRC_SYMBOL) ∧
      (b < 0x20 → lv_img_src_get_type h src = some LV_IMG_SRC_VARIABLE)) ∧
    (lv_img_src_get_type h src = some LV_IMG_SRC_UNKNOWN ↔ src = Ptr.null) := by
  constructor
  · intro b hn hl
    unfold lv_img_src_get_type
    rw [if_neg hn, hl]
    refine ⟨?_, ?_, ?_⟩
    · intro hb
      simp [hb]
    · intro hb
      have h1 : ¬ (b ≥ 0x20 ∧ b ≤ 0x7F) := by omega
      simp only [h1, if_false]
      rw [if_pos hb]
    · intro hb
      have h1 : ¬ (b ≥ 0x20 ∧ b ≤ 0x7F) := by omega
      have h2 : ¬ (b ≥ 0x80) := by omega
      simp only [h1, h2, if_false]
  · constructor
    · intro hu
      by_contra hn
      unfold lv_img_src_get_type at hu
      rw [if_neg hn] at hu
      cases hl : load h src with
      | none => simp [hl] at hu
      | some u8 =>
        simp only [hl] at hu
        split at hu
        · cases hu
        · split at hu <;> cases hu
    · intro hn
      subst hn
      rfl

/-- Witness of C20: the first byte `a` (0x61) of the path `a.b` classifies it as a file. -/
theorem lv_img_src_get_type_first_byte_witness :
    load heapAB (Ptr.mk 0 0) = some 0x61 ∧
      lv_img_src_get_type heapAB (Ptr.mk 0 0) = some LV_IMG_SRC_FILE := by
  have hl : load heapAB (Ptr.mk 0 0) = some 0x61 := by decide
  have h := ((lv_img_src_get_type_first_byte heapAB (Ptr.mk 0 0)).1 0x61 (by decide) hl).1
    (by decide)
  exact ⟨hl, h⟩

/-! ## Decode session: more lemmas -/

theorem Sys.alloc_fs (sys : Sys) : sys.alloc.1.fs = sys.fs ∧ sys.alloc.1.tick = sys.tick := by
  unfold Sys.alloc
  cases sys.grants <;> exact ⟨rfl, rfl⟩

/-- The four allocations of `ffmpeg_image_allocate` touch neither the logs nor the files, and
in the context only the buffers, the frame and the packet. -/
theorem ffmpeg_image_allocate_frame (sys : Sys) (f : ffmpeg_context_s) :
    (ffmpeg_image_allocate sys f).1.freed = sys.freed ∧
      (ffmpeg_image_allocate sys f).1.closed = sys.closed ∧
      (ffmpeg_image_allocate sys f).1.tick = sys.tick ∧
      (ffmpeg_image_allocate sys f).2.1.pos = f.pos ∧
      (ffmpeg_image_allocate sys f).2.1.last_rendered_frame = f.last_rendered_frame ∧
      (ffmpeg_image_allocate sys f).2.1.fmt_ctx = f.fmt_ctx := by
  have h1 := sys.alloc_logs
  have h2 := sys.alloc.1.alloc_logs
  have h3 := sys.alloc.1.alloc.1.alloc_logs
  have h4 := sys.alloc.1.alloc.1.alloc.1.alloc_logs
  have t1 := sys.alloc_fs
  have t2 := sys.alloc.1.alloc_fs
  have t3 := sys.alloc.1.alloc.1.alloc_fs
  have t4 := sys.alloc.1.alloc.1.alloc.1.alloc_fs
  unfold ffmpeg_image_allocate
  dsimp only
  split_ifs <;> simp_all

/-- A packet loop that does not fail has read at least one packet and has written a picture
to the destination buffer. -/
theorem ffmpeg_update_next_frame_loop_ok (pk : List Packet) (f : ffmpeg_context_s)
    (h : ¬ (ffmpeg_update_next_frame_loop f pk).2 < 0) :
    f.pos < (ffmpeg_update_next_frame_loop f pk).1.pos ∧
      ∃ n, (ffmpeg_update_next_frame_loop f pk).1.video_dst_data0 = some (some n) := by
  induction pk generalizing f with
  | nil => simp [ffmpeg_update_next_frame_loop] at h
  | cons p rest ih =>
    cases p with
    | other =>
      simp only [ffmpeg_update_next_frame_loop] at h ⊢
      have := ih _ h
      simp only at this
      exact ⟨by omega, this.2⟩
    | video ret picture =>
      simp only [ffmpeg_update_next_frame_loop] at h ⊢
      by_cases h1 : ret < 0
      · simp only [h1, if_true] at h
        exact absurd trivial h
      · by_cases h2 : ret > 0
        · simp only [h1, h2, if_true, if_false]
          exact ⟨by omega, picture, rfl⟩
        · simp only [h1, h2, if_false] at h ⊢
          have := ih _ h
          simp only at this
          exact ⟨by omega, this.2⟩

theorem ffmpeg_update_next_frame_ok {f : ffmpeg_context_s} {u : ffmpeg_context_s × Int}
    (hu : ffmpeg_update_next_frame f = some u) (h : ¬ u.2 < 0) :
    f.pos < u.1.pos ∧ ∃ n, u.1.video_dst_data0 = some (some n) := by
  unfold ffmpeg_update_next_frame at hu
  cases hm : f.fmt_ctx with
  | none => simp [hm] at hu
  | some m =>
    simp only [hm] at hu
    split at hu
    · simp only [Option.some.injEq] at hu
      subst hu
      exact ffmpeg_update_next_frame_loop_ok _ f h
    · cases hu

/-- A frame step of `decoder_open` that returns `LV_RES_OK`: the header is untouched, the
context stays attached with the same frame numbers, and below the number of frames the
marker of the last rendered frame is the current frame and the read position has moved past
its start exactly when the marker differed from the current frame. -/
theorem decoder_open_frame_ok {sys s1 : Sys} {dsc d1 : lv_img_dec_dsc_t}
    {ctx : lv_img_dec_ctx_t} {f : ffmpeg_context_s}
    (h : decoder_open_frame sys dsc ctx f = some (s1, d1, LV_RES_OK)) :
    d1.header = dsc.header ∧
    ∃ c1 f1, d1.dec_ctx = some c1 ∧ c1.user_data = some f1 ∧
      c1.current_frame = ctx.current_frame ∧ c1.total_frames = ctx.total_frames ∧
      d1.img_data = f1.video_dst_data0 ∧
      (ctx.current_frame < ctx.total_frames →
        f1.last_rendered_frame = ctx.current_frame ∧
        (ctx.current_frame ≠ f.last_rendered_frame ↔
          (if ctx.current_frame = 0 then 0 else f.pos) < f1.pos) ∧
        (ctx.current_frame ≠ f.last_rendered_frame →
          ∃ n, f1.video_dst_data0 = some (some n))) := by
  have hal := ffmpeg_image_allocate_frame sys f
  unfold decoder_open_frame at h
  dsimp only at h
  have ha : (if f.video_src_data0 = false then ffmpeg_image_allocate sys f
      else (sys, f, 0)).2.1.pos = f.pos ∧
      (if f.video_src_data0 = false then ffmpeg_image_allocate sys f
      else (sys, f, 0)).2.1.last_rendered_frame = f.last_rendered_frame := by
    split_ifs
    · exact ⟨hal.2.2.2.1, hal.2.2.2.2.1⟩
    · exact ⟨rfl, rfl⟩
  generalize (if f.video_src_data0 = false then ffmpeg_image_allocate sys f else (sys, f, 0))
    = a at h ha
  have hf1 : (if ctx.current_frame = 0 then { a.2.1 with pos := 0 } else a.2.1).pos
        = (if ctx.current_frame = 0 then 0 else f.pos) ∧
      (if ctx.current_frame = 0 then { a.2.1 with pos := 0 } else a.2.1).last_rendered_frame
        = f.last_rendered_frame := by
    split_ifs
    · exact ⟨rfl, ha.2⟩
    · exact ⟨ha.1, ha.2⟩
  generalize (if ctx.current_frame = 0 then { a.2.1 with pos := 0 } else a.2.1) = f1 at h hf1
  split at h
  · simp [error_out] at h
  · split at h
    · rename_i hcond
      split at h
      · cases h
      · rename_i u hu
        split at h
        · simp [error_out] at h
        · rename_i hneg
          simp only [Option.some.injEq, Prod.mk.injEq, and_true] at h
          obtain ⟨_, rfl⟩ := h
          obtain ⟨hpos, hpic⟩ := ffmpeg_update_next_frame_ok hu hneg
          refine ⟨rfl, _, _, rfl, rfl, rfl, rfl, rfl, fun _ => ⟨rfl, ?_, fun _ => hpic⟩⟩
          rw [← hf1.1, ← hf1.2]
          exact ⟨fun _ => hpos, fun _ => hcond.1⟩
    · rename_i hcond
      simp only [Option.some.injEq, Prod.mk.injEq, and_true] at h
      obtain ⟨_, rfl⟩ := h
      refine ⟨rfl, _, _, rfl, rfl, rfl, rfl, rfl, fun hlt => ?_⟩
      have heq : ctx.current_frame = f1.last_rendered_frame := by
        by_contra hne
        exact hcond ⟨hne, hlt⟩
      have heq2 : ctx.current_frame = f.last_rendered_frame := heq.trans hf1.2
      refine ⟨heq.symm, ?_, fun hne => absurd heq2 hne⟩
      constructor
      · intro hne
        exact absurd heq2 hne
      · intro hlt2
        simp only [attach] at hlt2
        rw [hf1.1] at hlt2
        exact absurd hlt2 (lt_irrefl _)

/-- What `ffmpeg_open_file` returns when it succeeds: the context of a file that is found at
the path, with stream information and a codec, read position 0 and no frame rendered yet. -/
theorem ffmpeg_open_file_spec {sys : Sys} {path : Option (List Nat)} {f : ffmpeg_context_s}
    (h : (ffmpeg_open_file sys path).2 = some f) :
    f.last_rendered_frame = 4294967295 ∧ f.pos = 0 ∧
      ∃ p m, path = some p ∧ sys.fs.lookup p = some m ∧ m.info_ok = true ∧
        m.codec_ok = true ∧ f.fmt_ctx = some m ∧ f.has_alpha = m.pix_alpha := by
  have hfs := sys.alloc_fs.1
  unfold ffmpeg_open_file at h
  cases path with
  | none => simp at h
  | some p =>
    by_cases hp : p.length = 0
    · simp [hp] at h
    · by_cases ha : sys.alloc.2 = false
      · simp [hp, ha] at h
      · cases hl : sys.alloc.1.fs.lookup p with
        | none => simp [hp, ha, hl] at h
        | some m =>
          by_cases hi : m.info_ok = false
          · simp [hp, ha, hl, hi] at h
          · by_cases hc : m.codec_ok = true
            · simp [hp, ha, hl, hi, hc, ffmpeg_context_zero] at h
              subst h
              rw [hfs] at hl
              exact ⟨rfl, rfl, p, m, rfl, hl, by simpa using hi, hc, rfl, rfl⟩
            · simp [hp, ha, hl, hi, hc, ffmpeg_context_zero] at h

theorem decoder_close_header (sys : Sys) (d : lv_img_dec_dsc_t) :
    (decoder_close sys d).2.header = d.header := by
  unfold decoder_close
  cases d.dec_ctx with
  | none => rfl
  | some c =>
    dsimp only
    split_ifs <;> rfl

/-- A metadata step of `decoder_open` that returns `LV_RES_OK` has filled the header from the
file of the decoder-private context; in a full open the frame step follows on a context with
the same current frame and the number of frames of the file. -/
theorem decoder_open_meta_ok {sys s1 : Sys} {dsc d1 : lv_img_dec_dsc_t}
    {ctx : lv_img_dec_ctx_t} {f : ffmpeg_context_s} {flags : lv_img_dec_flags_t}
    (h : decoder_open_meta sys dsc ctx f flags = some (s1, d1, LV_RES_OK)) :
    ∃ m, f.fmt_ctx = some m ∧ d1.header = header_of m f.has_alpha ∧
      (flags = LV_IMG_DEC_ALL →
        ∃ dsc1 ctx2, ctx2.current_frame = ctx.current_frame ∧
          ctx2.total_frames = (m.nb_frames % 4294967296).toNat ∧
          decoder_open_frame sys dsc1 ctx2 f = some (s1, d1, LV_RES_OK)) := by
  unfold decoder_open_meta at h
  cases hm : f.fmt_ctx with
  | none => simp [hm] at h
  | some m =>
    simp only [hm] at h
    by_cases h1 : f.video_stream = false
    · rw [if_pos h1] at h
      cases h
    · rw [if_neg h1] at h
      by_cases h2 : (m.nb_frames % 4294967296).toNat = 0
      · rw [if_pos h2] at h
        simp [error_out] at h
      · rw [if_neg h2] at h
        cases hr : c_int_div m.avg_num m.avg_den with
        | none => simp [hr] at h
        | some rate =>
          cases hd : (c_int_mul 1000 m.avg_den).bind fun x => c_int_div x m.avg_num with
          | none => simp [hr, hd] at h
          | some delay =>
            simp only [hr, hd] at h
            by_cases h4 : f.video_dec_ctx = false
            · rw [if_pos h4] at h
              cases h
            · rw [if_neg h4] at h
              by_cases hfl : flags = LV_IMG_DEC_ONLYMETA
              · rw [if_pos hfl] at h
                simp only [Option.some.injEq, Prod.mk.injEq, and_true] at h
                refine ⟨m, rfl, ?_, fun hall => ?_⟩
                · rw [← h.2, decoder_close_header]
                  rfl
                · rw [hfl] at hall
                  cases hall
              · rw [if_neg hfl] at h
                refine ⟨m, rfl, ?_, fun _ => ⟨_, { ctx with
                    total_frames := (m.nb_frames % 4294967296).toNat,
                    frame_rate := (rate % 32768).toNat,
                    frame_delay := (delay % 65536).toNat }, rfl, rfl, h⟩⟩
                rw [(decoder_open_frame_ok h).1]
                rfl

/-- The same after the decode context is there: the decoder-private context is the one the
context held, or the one `ffmpeg_open_file` returns for the path of the source. -/
theorem decoder_open_ctx_ok {sys s1 : Sys} {dsc d1 : lv_img_dec_dsc_t}
    {ctx : lv_img_dec_ctx_t} {flags : lv_img_dec_flags_t}
    (h : decoder_open_ctx sys dsc ctx flags = some (s1, d1, LV_RES_OK)) :
    ∃ f m, (ctx.user_data = some f ∨
        (ctx.user_data = none ∧ (ffmpeg_open_file sys dsc.input_src_data).2 = some f)) ∧
      f.fmt_ctx = some m ∧ d1.header = header_of m f.has_alpha ∧
      (flags = LV_IMG_DEC_ALL →
        ∃ s0 dsc1 ctx2, ctx2.current_frame = ctx.current_frame ∧
          ctx2.total_frames = (m.nb_frames % 4294967296).toNat ∧
          decoder_open_frame s0 dsc1 ctx2 f = some (s1, d1, LV_RES_OK)) := by
  unfold decoder_open_ctx at h
  dsimp only at h
  cases hu : ctx.user_data with
  | some f =>
    simp only [hu] at h
    obtain ⟨m, hm, hh, hall⟩ := decoder_open_meta_ok h
    refine ⟨f, m, Or.inl rfl, hm, hh, fun hf => ?_⟩
    obtain ⟨dsc1, ctx2, h1, h2, h3⟩ := hall hf
    exact ⟨_, dsc1, ctx2, h1, h2, h3⟩
  | none =>
    simp only [hu] at h
    cases ho : (ffmpeg_open_file sys dsc.input_src_data).2 with
    | none =>
      simp only [ho] at h
      simp [error_out] at h
    | some f =>
      simp only [ho] at h
      obtain ⟨m, hm, hh, hall⟩ := decoder_open_meta_ok h
      refine ⟨f, m, Or.inr ⟨rfl, rfl⟩, hm, hh, fun hf => ?_⟩
      obtain ⟨dsc1, ctx2, h1, h2, h3⟩ := hall hf
      exact ⟨_, dsc1, ctx2, h1, h2, h3⟩

/-- An open that returns `LV_RES_OK`, from `decoder_open` on: the header comes from the file of
the decoder-private context, which the descriptor held or which `ffmpeg_open_file` returns, and
a full open ends with the frame step on a context with the current frame of the incoming
context (0 for a context that the open allocates). -/
theorem decoder_open_ok {sys s1 : Sys} {dsc d1 : lv_img_dec_dsc_t}
    {flags : lv_img_dec_flags_t}
    (h : decoder_open sys dsc flags = some (s1, d1, LV_RES_OK)) :
    ∃ sx f m, sx.fs = sys.fs ∧
      ((∃ c, dsc.dec_ctx = some c ∧ c.user_data = some f) ∨
        (dsc.dec_ctx.bind (fun c => c.user_data) = none ∧
          (ffmpeg_open_file sx dsc.input_src_data).2 = some f)) ∧
      f.fmt_ctx = some m ∧ d1.header = header_of m f.has_alpha ∧
      (flags = LV_IMG_DEC_ALL →
        ∃ s0 dsc1 ctx2,
          ctx2.current_frame = (match dsc.dec_ctx with
                                | some c => c.current_frame
                                | none => 0) ∧
          ctx2.total_frames = (m.nb_frames % 4294967296).toNat ∧
          decoder_open_frame s0 dsc1 ctx2 f = some (s1, d1, LV_RES_OK)) := by
  unfold decoder_open at h
  by_cases ht : dsc.input_src_type ≠ LV_IMG_SRC_FILE
  · rw [if_pos ht] at h
    simp at h
  · rw [if_neg ht] at h
    cases hd : dsc.dec_ctx with
    | some c =>
      simp only [hd] at h
      obtain ⟨f, m, hf, hm, hh, hall⟩ := decoder_open_ctx_ok h
      refine ⟨sys, f, m, rfl, ?_, hm, hh, hall⟩
      rcases hf with hf | ⟨hf1, hf2⟩
      · exact Or.inl ⟨c, rfl, hf⟩
      · exact Or.inr ⟨by simp [hf1], hf2⟩
    | none =>
      simp only [hd] at h
      by_cases hal : sys.alloc.2 = false
      · rw [if_pos hal] at h
        simp at h
      · rw [if_neg hal] at h
        obtain ⟨f, m, hf, hm, hh, hall⟩ := decoder_open_ctx_ok h
        refine ⟨sys.alloc.1, f, m, sys.alloc_fs.1, ?_, hm, hh, hall⟩
        rcases hf with hf | ⟨hf1, hf2⟩
        · cases hf
        · exact Or.inr ⟨rfl, hf2⟩

/-! ## Decode session: the claims, continued -/

/-- C12: a full re-open of a session whose context holds the opened decoder state with
allocated image buffers, with `current_frame >= total_frames`, decodes no frame: it returns
`LV_RES_OK`, the decoder state (read position, destination buffer, `last_rendered_frame`) and
`last_rendering` are unchanged, and nothing is allocated or released. -/
theorem decoder_open_holds_last_frame (sys : Sys) (dsc : lv_img_dec_dsc_t)
    (ctx : lv_img_dec_ctx_t) (f : ffmpeg_context_s) (m : Media) (rate delay : Int)
    (ht : dsc.input_src_type = LV_IMG_SRC_FILE) (hc : dsc.dec_ctx = some ctx)
    (hu : ctx.user_data = some f) (hm : f.fmt_ctx = some m)
    (hvs : f.video_stream = true) (hvd : f.video_dec_ctx = true)
    (hbuf : f.video_src_data0 = true)
    (htf : ctx.total_frames = (m.nb_frames % 4294967296).toNat) (htot : ctx.total_frames ≠ 0)
    (hrate : c_int_div m.avg_num m.avg_den = some rate)
    (hdelay : ((c_int_mul 1000 m.avg_den).bind fun x => c_int_div x m.avg_num) = some delay)
    (hcur : ctx.current_frame ≥ ctx.total_frames) :
    ∃ d1 c1, decoder_open sys dsc LV_IMG_DEC_ALL = some (sys, d1, LV_RES_OK) ∧
      d1.dec_ctx = some c1 ∧ c1.user_data = some f ∧
      c1.last_rendering = ctx.last_rendering ∧ c1.current_frame = ctx.current_frame ∧
      c1.total_frames = ctx.total_frames ∧ d1.img_data = f.video_dst_data0 := by
  have hne : ¬ (m.nb_frames % 4294967296).toNat = 0 := by rw [← htf]; exact htot
  have hcur0 : ctx.current_frame ≠ 0 := by omega
  have hnlt : ¬ ctx.current_frame < (m.nb_frames % 4294967296).toNat := by rw [← htf]; omega
  refine ⟨{ dsc with
      caps := 0x02 ||| 0x08,
      header := { w := m.width, h := m.height, always_zero := 0,
                  cf := if f.has_alpha = true then LV_IMG_CF_TRUE_COLOR_ALPHA
                        else LV_IMG_CF_TRUE_COLOR },
      img_data := f.video_dst_data0,
      dec_ctx := some { ctx with total_frames := (m.nb_frames % 4294967296).toNat,
                                 frame_rate := (rate % 32768).toNat,
                                 frame_delay := (delay % 65536).toNat,
                                 user_data := some f } },
    { ctx with total_frames := (m.nb_frames % 4294967296).toNat,
               frame_rate := (rate % 32768).toNat,
               frame_delay := (delay % 65536).toNat,
               user_data := some f }, ?_, rfl, rfl, rfl, rfl, htf.symm, rfl⟩
  simp [decoder_open, ht, hc, decoder_open_ctx, hu, decoder_open_meta, hm, hvs, hvd, hne, hrate,
    hdelay, decoder_open_frame, hbuf, hcur0, hnlt, attach]

/-- Witness of C12: the session on the two frames of `mediaA`, re-opened at frame 2. -/
theorem decoder_open_holds_last_frame_witness :
    ∃ d1 c1, decoder_open sysA dscOpened LV_IMG_DEC_ALL = some (sysA, d1, LV_RES_OK) ∧
      d1.dec_ctx = some c1 ∧ c1.user_data = some ffOpened ∧ c1.last_rendering = 7 := by
  obtain ⟨d1, c1, h1, h2, h3, h4, _⟩ := decoder_open_holds_last_frame sysA dscOpened
    { auto_allocated := true, frame_rate := 25, current_frame := 2, total_frames := 2,
      dest_frame := 0, last_rendering := 7, frame_delay := 40, user_data := some ffOpened }
    ffOpened mediaA 25 40 rfl rfl rfl rfl rfl rfl rfl (by decide) (by decide) (by decide)
    (by decide) (by decide)
  exact ⟨d1, c1, h1, h2, h3, h4⟩

/-- C13: a file that `ffmpeg_open_file` opens has `last_rendered_frame = 0xFFFFFFFF` and read
position 0. After a full open that returns `LV_RES_OK` with `current_frame < total_frames` the
marker `last_rendered_frame` equals `current_frame`; a frame has been decoded (the read
position has moved past the place where the call started reading) if and only if
`current_frame` differed from the marker before the call; and a first open, which opens the
file itself, always decodes a frame and returns its picture. -/
theorem full_open_decodes_iff (sys s1 : Sys) (dsc d1 : lv_img_dec_dsc_t)
    (h : decoder_open sys dsc LV_IMG_DEC_ALL = some (s1, d1, LV_RES_OK)) :
    (∀ (sys0 : Sys) (path : Option (List Nat)) (f : ffmpeg_context_s),
      (ffmpeg_open_file sys0 path).2 = some f →
        f.last_rendered_frame = 4294967295 ∧ f.pos = 0) ∧
    ∃ c1 f1, d1.dec_ctx = some c1 ∧ c1.user_data = some f1 ∧
      (∀ c, dsc.dec_ctx = some c → c1.current_frame = c.current_frame) ∧
      (c1.current_frame < c1.total_frames → f1.last_rendered_frame = c1.current_frame) ∧
      (∀ c f0, dsc.dec_ctx = some c → c.user_data = some f0 →
        c1.current_frame < c1.total_frames →
        (c1.current_frame ≠ f0.last_rendered_frame ↔
          (if c1.current_frame = 0 then 0 else f0.pos) < f1.pos)) ∧
      (dsc.dec_ctx.bind (fun c => c.user_data) = none →
        c1.current_frame < c1.total_frames →
        0 < f1.pos ∧ ∃ n, d1.img_data = some (some n)) := by
  refine ⟨fun sys0 path f hf => ⟨(ffmpeg_open_file_spec hf).1, (ffmpeg_open_file_spec hf).2.1⟩,
    ?_⟩
  obtain ⟨sx, f, m, _, hsrc, hm, _, hall⟩ := decoder_open_ok h
  obtain ⟨s0, dsc1, ctx2, hcur, htot, hfr⟩ := hall rfl
  obtain ⟨_, c1, f1, hd1, hu1, hc1, ht1, himg, hmain⟩ := decoder_open_frame_ok hfr
  refine ⟨c1, f1, hd1, hu1, ?_, ?_, ?_, ?_⟩
  · intro c hc
    rw [hc1, hcur, hc]
  · intro hlt
    rw [hc1, ht1] at hlt
    rw [hc1]
    exact (hmain hlt).1
  · intro c f0 hc hu0 hlt
    rw [hc1, ht1] at hlt
    have hf : f = f0 := by
      rcases hsrc with ⟨c', hc', hu'⟩ | ⟨hnone, _⟩
      · rw [hc] at hc'
        cases hc'
        rw [hu0] at hu'
        cases hu'
        rfl
      · rw [hc] at hnone
        simp [hu0] at hnone
    subst hf
    rw [hc1]
    exact (hmain hlt).2.1
  · intro hnone hlt
    rw [hc1, ht1] at hlt
    have hopen : (ffmpeg_open_file sx dsc.input_src_data).2 = some f := by
      rcases hsrc with ⟨c', hc', hu'⟩ | ⟨_, ho⟩
      · rw [hc'] at hnone
        simp [hu'] at hnone
      · exact ho
    obtain ⟨hlast, hpos, _⟩ := ffmpeg_open_file_spec hopen
    have hne : ctx2.current_frame ≠ f.last_rendered_frame := by
      rw [hlast]
      rw [htot] at hlt
      omega
    obtain ⟨_, hiff, hpic⟩ := hmain hlt
    have hp := hiff.mp hne
    rw [hpos] at hp
    obtain ⟨n, hn⟩ := hpic hne
    refine ⟨?_, n, by rw [himg, hn]⟩
    split_ifs at hp <;> exact hp

/-- Witness of C13: the first full open of the file `a` decodes frame 0. -/
theorem full_open_decodes_iff_witness :
    ∃ s1 d1 c1 f1, decoder_open sysA dscNew LV_IMG_DEC_ALL = some (s1, d1, LV_RES_OK) ∧
      d1.dec_ctx = some c1 ∧ c1.user_data = some f1 ∧ f1.last_rendered_frame = 0 ∧
      0 < f1.pos := by
  have h : decoder_open sysA dscNew LV_IMG_DEC_ALL
      = some ({ sysA with grants := [] },
          { dscNew with
            header := { w := 4, h := 3, always_zero := 0, cf := LV_IMG_CF_TRUE_COLOR },
            img_data := some (some 0),
            caps := 10,
            dec_ctx := some { auto_allocated := true, frame_rate := 25, current_frame := 0,
                              total_frames := 2, dest_frame := 0, last_rendering := 7,
                              frame_delay := 40, user_data := some ffOpened } },
          LV_RES_OK) := by
    decide
  obtain ⟨_, c1, f1, hd, hu, _, hlast, _, hfresh⟩ := full_open_decodes_iff _ _ dscNew _ h
  simp only [Option.some.injEq] at hd
  subst hd
  simp only [Option.some.injEq] at hu
  subst hu
  exact ⟨_, _, _, _, h, rfl, rfl, hlast (by decide), (hfresh rfl (by decide)).1⟩

/-- C14: for a file source, on descriptors that hold no decoder state of an earlier open, the
header that a metadata-only open fills equals the header that a separate full open fills, and
both equal the header that `ffmpeg_get_img_header` computes for the same path, which succeeds
(returns 0). -/
theorem header_round_trip (sysM sysF sysH sM sF : Sys) (dscM dscF dM dF : lv_img_dec_dsc_t)
    (header : lv_img_header_t)
    (hfsM : sysM.fs = sysH.fs) (hfsF : sysF.fs = sysH.fs)
    (hsrc : dscF.input_src_data = dscM.input_src_data)
    (hfreshM : dscM.dec_ctx.bind (fun c => c.user_data) = none)
    (hfreshF : dscF.dec_ctx.bind (fun c => c.user_data) = none)
    (hM : decoder_open sysM dscM LV_IMG_DEC_ONLYMETA = some (sM, dM, LV_RES_OK))
    (hF : decoder_open sysF dscF LV_IMG_DEC_ALL = some (sF, dF, LV_RES_OK)) :
    dM.header = dF.header ∧
      ffmpeg_get_img_header sysH dscM.input_src_data header = (dM.header, 0) := by
  have fresh : ∀ {sys s1 : Sys} {dsc d1 : lv_img_dec_dsc_t} {flags : lv_img_dec_flags_t},
      sys.fs = sysH.fs → dsc.dec_ctx.bind (fun c => c.user_data) = none →
      decoder_open sys dsc flags = some (s1, d1, LV_RES_OK) →
      ∃ p m, dsc.input_src_data = some p ∧ sysH.fs.lookup p = some m ∧ m.info_ok = true ∧
        m.codec_ok = true ∧ d1.header = header_of m m.pix_alpha := by
    intro sys s1 dsc d1 flags hfs hfresh hopen
    obtain ⟨sx, f, m, hsx, hsrc, hm, hh, _⟩ := decoder_open_ok hopen
    have ho : (ffmpeg_open_file sx dsc.input_src_data).2 = some f := by
      rcases hsrc with ⟨c, hc, hu⟩ | ⟨_, ho⟩
      · rw [hc] at hfresh
        simp [hu] at hfresh
      · exact ho
    obtain ⟨_, _, p, m2, hp, hl, hi, hcd, hm2, hal⟩ := ffmpeg_open_file_spec ho
    rw [hm] at hm2
    cases hm2
    rw [hsx, hfs] at hl
    exact ⟨p, m, hp, hl, hi, hcd, by rw [hh, hal]⟩
  obtain ⟨p, m, hp, hl, hi, hcd, hhM⟩ := fresh hfsM hfreshM hM
  obtain ⟨p2, m2, hp2, hl2, _, _, hhF⟩ := fresh hfsF hfreshF hF
  rw [hsrc, hp] at hp2
  cases hp2
  rw [hl] at hl2
  cases hl2
  refine ⟨by rw [hhM, hhF], ?_⟩
  rw [hhM, hp]
  simp [ffmpeg_get_img_header, hl, hi, hcd, header_of]

/-- Witness of C14: the file `a` opened for its metadata and opened in full. -/
theorem header_round_trip_witness :
    ∃ sM dM sF dF, decoder_open sysA dscNew LV_IMG_DEC_ONLYMETA = some (sM, dM, LV_RES_OK) ∧
      decoder_open sysA dscNew LV_IMG_DEC_ALL = some (sF, dF, LV_RES_OK) ∧
      dM.header = dF.header ∧
      ffmpeg_get_img_header sysA (some [97]) dscNew.header = (dM.header, 0) := by
  have hM : decoder_open sysA dscNew LV_IMG_DEC_ONLYMETA
      = some ({ sysA with grants := [true, true, true, true], closed := [ffA],
                          freed := [{ lv_img_dec_ctx_zero with
                            auto_allocated := true, total_frames := 2, frame_rate := 25,
                            frame_delay := 40 }] },
          { dscNew with
            header := { w := 4, h := 3, always_zero := 0, cf := LV_IMG_CF_TRUE_COLOR },
            caps := 10 },
          LV_RES_OK) := by
    decide
  have hF : decoder_open sysA dscNew LV_IMG_DEC_ALL
      = some ({ sysA with grants := [] },
          { dscNew with
            header := { w := 4, h := 3, always_zero := 0, cf := LV_IMG_CF_TRUE_COLOR },
            img_data := some (some 0),
            caps := 10,
            dec_ctx := some { auto_allocated := true, frame_rate := 25, current_frame := 0,
                              total_frames := 2, dest_frame := 0, last_rendering := 7,
                              frame_delay := 40, user_data := some ffOpened } },
          LV_RES_OK) := by
    decide
  obtain ⟨h1, h2⟩ := header_round_trip sysA sysA sysA _ _ dscNew dscNew _ _ dscNew.header
    rfl rfl rfl rfl rfl hM hF
  exact ⟨_, _, _, _, hM, hF, h1, h2⟩

/-! ## Decode session and image source: the claims on undefined results -/

/-- C27: a copy from the empty source descriptor (type unknown, `uri` NULL, `uri_len` 0, the
state that `lv_img_src_free` leaves) has no defined result, whatever the heap and the
destination are: the source is not a VARIABLE, so `alloc_str_src` is called with the NULL `uri`
and `strlen` reads through it. -/
theorem lv_img_src_copy_empty_source_undefined (h : Heap) (dest : lv_img_src_t) :
    lv_img_src_copy h dest lv_img_src_zero = none := by
  unfold lv_img_src_copy
  cases hf : lv_img_src_free h dest with
  | none => rfl
  | some r =>
    obtain ⟨h1, d1⟩ := r
    have hs : ∀ s : lv_img_src_t, alloc_str_src h1 s Ptr.null = none := fun s =>
      alloc_str_src_undefined (by simp [cstr])
    simp [lv_img_src_zero, hs]

/-- C25: the first open of a two-frame video file whose average frame rate is reported as
0/1, as 0/0 or as 25/0 has no defined result, for the full open and for the metadata-only
open: `decoder_open` divides by the denominator and then by the numerator of the rate. -/
theorem decoder_open_zero_rate_undefined :
    decoder_open (sysVfr 0 1) dscNew LV_IMG_DEC_ALL = none ∧
    decoder_open (sysVfr 0 0) dscNew LV_IMG_DEC_ALL = none ∧
    decoder_open (sysVfr 25 0) dscNew LV_IMG_DEC_ALL = none ∧
    decoder_open (sysVfr 0 1) dscNew LV_IMG_DEC_ONLYMETA = none ∧
    (mediaVfr 0 1).nb_frames = 2 := by
  decide

/-- C26: on the two-frame file `mediaA`, three full opens with `current_frame` 0, 0 and 1 all
succeed and leave picture 0 in the output buffer: the second open seeks to the start without
decoding, so the third open, at frame 1, decodes picture 0 again. With `current_frame` 0 and
then 1 the buffer holds picture 0 and then picture 1. -/
theorem session_repeat_of_frame_zero :
    session sysA dscNew [0, 0, 1]
      = some [(LV_RES_OK, some (some 0)), (LV_RES_OK, some (some 0)),
              (LV_RES_OK, some (some 0))] ∧
    session sysA dscNew [0, 1]
      = some [(LV_RES_OK, some (some 0)), (LV_RES_OK, some (some 1))] := by
  decide

/-! ## Widgets: lemmas -/

theorem setup_anim_state (k : AnimbtnConf) (obj : lv_animbtn_t) (d : lv_animbtn_state_desc_t) :
    (setup_anim k obj d).state = obj.state := by
  unfold setup_anim
  dsimp only
  split <;> rfl

/-- `apply_state` leaves the state flags of the object alone. -/
theorem apply_state_state (k : AnimbtnConf) (obj : lv_animbtn_t) (skip : Bool) :
    (apply_state k obj skip).state = obj.state := by
  unfold apply_state
  dsimp only
  split_ifs
  · cases obj.trans_desc[find_trans obj.trans_desc obj.prev_state (some (get_state obj))]? with
    | none => rfl
    | some t => exact setup_anim_state k obj t.desc
  · rfl
  · exact setup_anim_state k obj _

/-- After the three flags have been cleared and `os` has been added, a flag `f` among the
three is set exactly when `os` has it. -/
theorem flag_after_set (st os f : Nat)
    (hf : (0xFFFF ^^^ (LV_STATE_CHECKED ||| LV_STATE_PRESSED ||| LV_STATE_DISABLED)) &&& f = 0) :
    ((st &&& (0xFFFF ^^^ (LV_STATE_CHECKED ||| LV_STATE_PRESSED ||| LV_STATE_DISABLED))) ||| os)
        &&& f = os &&& f := by
  rw [Nat.and_distrib_right, Nat.and_assoc, hf, Nat.and_zero, Nat.zero_or]

/-- For an angle from 0 to 32767 the stored angle is below 360 and congruent to the angle
modulo 360, provided the angle stored before was in the 16-bit range. -/
theorem lv_img_set_angle_nonneg (ext : lv_img_ext_t) (a : Int) (h0 : 0 ≤ a) (h1 : a ≤ 32767) :
    lv_img_get_angle (lv_img_set_angle ext a) < 360 ∧
      ((lv_img_get_angle (lv_img_set_angle ext a) : Int) - a) % 360 = 0 := by
  unfold lv_img_set_angle lv_img_get_angle
  dsimp only
  have hm := Int.tmod_eq_emod (a := a) (b := 360) h0 (by omega)
  by_cases hb : a < 0 ∨ a ≥ 360
  · rw [if_pos hb, hm]
    split_ifs with hq
    · omega
    · simp only []
      omega
  · rw [if_neg hb]
    split_ifs with hq
    · omega
    · simp only []
      omega

/-! ## Widgets: the claims -/

/-- C23: after `lv_img_set_angle(img, -90)` the getter `lv_img_get_angle` returns 65446, and
after `lv_img_set_angle(img, -1)` it returns 65535, whatever angle was stored before: the C
remainder of a negative angle is negative and is stored in the unsigned member. Neither value
lies in 0..359, and 65446 is congruent to 286, not to -90, modulo 360. -/
theorem lv_img_set_angle_negative (ext : lv_img_ext_t) :
    lv_img_get_angle (lv_img_set_angle ext (-90)) = 65446 ∧
      lv_img_get_angle (lv_img_set_angle ext (-1)) = 65535 ∧
      (65446 - (-90 : Int)) % 360 ≠ 0 := by
  have h1 : ¬ ((-90 : Int) = (ext.angle : Int)) := by omega
  have h2 : ¬ ((-1 : Int) = (ext.angle : Int)) := by omega
  have t1 : Int.tmod (-90) 360 = -90 := by decide
  have t2 : Int.tmod (-1) 360 = -1 := by decide
  refine ⟨?_, ?_, by decide⟩
  · simp [lv_img_set_angle, lv_img_get_angle, t1, h1]
  · simp [lv_img_set_angle, lv_img_get_angle, t2, h2]

/-- C28: on an object that stores direction 1 with `wrap = 1` and `rev = 0`,
`lv_obj_set_flex_dir(obj, 1)` changes nothing, whatever the values of the flags
`_LV_FLEX_WRAP` and `_LV_FLEX_REVERSE` are: the stored two-bit direction equals the argument
and the function returns before it writes `wrap`. The stored `wrap` stays 1 although the
argument 1 carries no flag above the low two bits. Such an object arises from a new object by
`lv_obj_set_flex_dir(obj, 1 | 8)` when `_LV_FLEX_WRAP` is 8. -/
theorem lv_obj_set_flex_dir_keeps_flags (k : FlexFlags) (g : Bool) (n : Nat) :
    lv_obj_set_flex_dir k
        { spec_attr := some { dir := 1, wrap := 1, rev := 0 }, grant := g, refreshed := n } 1
      = some { spec_attr := some { dir := 1, wrap := 1, rev := 0 }, grant := g,
               refreshed := n } ∧
    lv_obj_set_flex_dir ⟨8, 4⟩ { spec_attr := none, grant := true, refreshed := 0 } (1 ||| 8)
      = some { spec_attr := some { dir := 1, wrap := 1, rev := 0 }, grant := true,
               refreshed := 1 } := by
  constructor
  · simp [lv_obj_set_flex_dir, lv_obj_allocate_spec_attr]
  · decide

/-- C30: for each of the six states `s`, every prior object and either value of
`skip_transition`, the state that `get_state` derives from the flags of the object after
`lv_animbtn_set_state(obj, s, skip_transition)` is `s`. -/
theorem lv_animbtn_set_state_round_trip (k : AnimbtnConf) (obj : lv_animbtn_t)
    (s : lv_animbtn_state_t) (skip : Bool) :
    get_state (lv_animbtn_set_state k obj s skip) = s := by
  have hD := fun os => flag_after_set obj.state os LV_STATE_DISABLED (by decide)
  have hC := fun os => flag_after_set obj.state os LV_STATE_CHECKED (by decide)
  have hP := fun os => flag_after_set obj.state os LV_STATE_PRESSED (by decide)
  unfold get_state lv_animbtn_set_state
  simp only [apply_state_state, lv_obj_add_state, lv_obj_clear_state, hD, hC, hP]
  cases s <;> decide

/-- C21: after `lv_btnmatrix_set_map` with the map `{"\n", "A", ""}` the matrix has one
button and `lv_btnmatrix_get_btn_text(btnm, 0)` returns the line break `"\n"`, not `"A"`;
with the map `{"A", "\n", "\n", "B", ""}` it has two buttons and
`lv_btnmatrix_get_btn_text(btnm, 1)` returns `"\n"`, not `"B"`. -/
theorem lv_btnmatrix_get_btn_text_returns_line_break :
    ((lv_btnmatrix_set_map btnmNew mapNlA).map fun b => b.btn_cnt) = some 1 ∧
    ((lv_btnmatrix_set_map btnmNew mapNlA).bind fun b => lv_btnmatrix_get_btn_text b 0)
      = some (some LINE_BREAK) ∧
    ((lv_btnmatrix_set_map btnmNew mapANlNlB).map fun b => b.btn_cnt) = some 2 ∧
    ((lv_btnmatrix_set_map btnmNew mapANlNlB).bind fun b => lv_btnmatrix_get_btn_text b 1)
      = some (some LINE_BREAK) := by
  decide

/-- C22: on the matrix with the map `{"A", "B", ""}`, after
`lv_btnmatrix_set_one_checked(btnm, true)` the call of `lv_btnmatrix_set_ctrl_map` with a
control map that marks both buttons as checkable and checked leaves "one check" mode on and
two buttons with `LV_BTNMATRIX_CTRL_CHECKED`. -/
theorem lv_btnmatrix_set_ctrl_map_breaks_one_check :
    (((lv_btnmatrix_set_map btnmNew mapAB).bind fun b =>
        lv_btnmatrix_set_one_checked b true).bind fun b =>
          lv_btnmatrix_set_ctrl_map b [0xC0, 0xC0]).map (fun b => (b.one_check, checked_count b))
      = some (true, 2) := by
  decide

/-! ## Button matrix layout: lemmas and the claim -/

theorem get_button_width_pos (c : Nat) : 1 ≤ get_button_width c := by
  unfold get_button_width
  dsimp only
  split <;> omega

theorem get_button_width_le (c : Nat) : get_button_width c ≤ 7 := by
  unfold get_button_width
  dsimp only
  have h : c &&& LV_BTNMATRIX_WIDTH_MASK ≤ 7 := Nat.and_le_right
  split <;> omega

theorem units_nil : units [] = 0 := rfl

theorem units_cons (c : Nat) (cs : List Nat) : units (c :: cs) = get_button_width c + units cs := by
  simp [units]

theorem length_le_units (cs : List Nat) : cs.length ≤ units cs := by
  induction cs with
  | nil => simp [units]
  | cons c cs ih =>
    have := get_button_width_pos c
    rw [units_cons, List.length_cons]
    omega

theorem units_le (cs : List Nat) : units cs ≤ 7 * cs.length := by
  induction cs with
  | nil => simp [units]
  | cons c cs ih =>
    have := get_button_width_le c
    rw [units_cons, List.length_cons]
    omega

theorem getElem?_append_mid {α : Type} (p q : List α) (x : α) :
    (p ++ x :: q)[p.length]? = some x := by
  induction p with
  | nil => simp
  | cons a p ih => simpa using ih

theorem set_append_mid {α : Type} (p q : List α) (x v : α) :
    (p ++ x :: q).set p.length v = p ++ v :: q := by
  induction p with
  | nil => rfl
  | cons a p ih => simp [ih]

/-- The counting loop on a row: the units and the number of its buttons. -/
theorem count_row_spec (row : List (List Nat × Nat)) :
    ∀ (cpre cdone cpost : List Nat) (sep : List Nat) (rest : List (List Nat)) (u : Nat),
      (∀ p ∈ row, p.1 ≠ LINE_BREAK ∧ p.1.length ≠ 0) →
      (sep = LINE_BREAK ∨ sep.length = 0) →
      u + units (row.map Prod.snd) < 65536 →
      cdone.length + row.length < 65536 →
      count_row (cpre ++ cdone ++ row.map Prod.snd ++ cpost) cpre.length
          (row.map Prod.fst ++ sep :: rest) u cdone.length
        = some (u + units (row.map Prod.snd), cdone.length + row.length) := by
  induction row with
  | nil =>
    intro cpre cdone cpost sep rest u _ hsep _ _
    have hc : ¬ (sep ≠ LINE_BREAK ∧ sep.length ≠ 0) := by
      rcases hsep with h | h
      · simp [h]
      · simp [h]
    simp only [List.map_nil, List.nil_append, List.length_nil, Nat.add_zero, units_nil]
    rw [count_row, if_neg hc]
  | cons p row ih =>
    intro cpre cdone cpost sep rest u hv hsep hu hn
    have hp := hv p (List.mem_cons_self _ _)
    have hctrl : cpre ++ cdone ++ (p :: row).map Prod.snd ++ cpost
        = (cpre ++ cdone) ++ p.2 :: (row.map Prod.snd ++ cpost) := by simp
    have hctrl2 : (cpre ++ cdone) ++ p.2 :: (row.map Prod.snd ++ cpost)
        = cpre ++ (cdone ++ [p.2]) ++ row.map Prod.snd ++ cpost := by simp
    have hidx : ((cpre ++ cdone) ++ p.2 :: (row.map Prod.snd ++ cpost))[cpre.length + cdone.length]?
        = some p.2 := by
      have := getElem?_append_mid (cpre ++ cdone) (row.map Prod.snd ++ cpost) p.2
      rwa [List.length_append] at this
    rw [List.map_cons, units_cons] at hu
    rw [List.length_cons] at hn
    have hw := get_button_width_pos p.2
    have h1 : (u + get_button_width p.2) % 65536 = u + get_button_width p.2 :=
      Nat.mod_eq_of_lt (by omega)
    have h2 : ¬ (cdone.length + 1 = 65536) := by omega
    have ih' := ih cpre (cdone ++ [p.2]) cpost sep rest (u + get_button_width p.2)
      (fun q hq => hv q (List.mem_cons_of_mem _ hq)) hsep (by omega)
      (by simp only [List.length_append, List.length_singleton]; omega)
    have e1 : (p :: row).map Prod.fst ++ sep :: rest
        = p.1 :: (row.map Prod.fst ++ sep :: rest) := rfl
    rw [hctrl, e1, count_row, if_pos hp, hidx]
    dsimp only
    rw [if_neg h2, h1, hctrl2]
    simp only [List.length_append, List.length_singleton] at ih'
    rw [ih', List.map_cons, units_cons, List.length_cons]
    congr 2 <;> omega

/-- The loop over the buttons of a row writes the areas `row_areas` over the entries of the
array that belong to the row and leaves the other entries alone. -/
theorem set_map_btns_spec (btnm : lv_btnmatrix_t) (U : Nat) (y1 y2 W : Int) (hU : U ≠ 0)
    (cs : List Nat) :
    ∀ (cpre cpost : List Nat) (pre mid post : List lv_area_t) (btn ruc : Nat),
      mid.length = cs.length → pre.length = cpre.length →
      set_map_btns btnm (cpre ++ cs ++ cpost) U y1 y2 W cs.length btn cpre.length ruc
          (pre ++ mid ++ post)
        = some (pre ++ row_areas btnm U y1 y2 W btn ruc cs ++ post,
                cpre.length + cs.length) := by
  induction cs with
  | nil =>
    intro cpre cpost pre mid post btn ruc hmid _
    have : mid = [] := List.length_eq_zero.mp hmid
    subst this
    simp [set_map_btns, row_areas]
  | cons x xs ih =>
    intro cpre cpost pre mid post btn ruc hmid hpre
    cases mid with
    | nil => simp at hmid
    | cons m mid =>
      have hmid' : mid.length = xs.length := by simpa using hmid
      have hctrl : cpre ++ (x :: xs) ++ cpost = cpre ++ x :: (xs ++ cpost) := by simp
      have hctrl2 : cpre ++ x :: (xs ++ cpost) = (cpre ++ [x]) ++ xs ++ cpost := by simp
      have hareas : pre ++ (m :: mid) ++ post = pre ++ m :: (mid ++ post) := by simp
      have hidx : (cpre ++ x :: (xs ++ cpost))[cpre.length]? = some x :=
        getElem?_append_mid cpre (xs ++ cpost) x
      have hlen : ¬ (U = 0 ∨ (pre ++ m :: (mid ++ post)).length ≤ cpre.length) := by
        simp only [List.length_append, List.length_cons]
        omega
      have hset : ∀ v, (pre ++ m :: (mid ++ post)).set cpre.length v
          = (pre ++ [v]) ++ mid ++ post := by
        intro v
        rw [← hpre, set_append_mid]
        simp
      have ih' := ih (cpre ++ [x]) cpost
        (pre ++ [btn_area btnm U y1 y2 W btn ruc (get_button_width x)]) mid post (btn + 1)
        (ruc + get_button_width x) hmid' (by simp [hpre])
      rw [hctrl, hareas, List.length_cons, set_map_btns, hidx]
      dsimp only
      rw [if_neg hlen, hset, hctrl2, show cpre.length + 1 = (cpre ++ [x]).length by simp, ih']
      simp [row_areas]
      omega

theorem row_areas_length (btnm : lv_btnmatrix_t) (U : Nat) (y1 y2 W : Int) (cs : List Nat) :
    ∀ btn ruc, (row_areas btnm U y1 y2 W btn ruc cs).length = cs.length := by
  induction cs with
  | nil => intro _ _; rfl
  | cons c cs ih => intro btn ruc; simp [row_areas, ih]

/-- The map of a list of rows starts with the texts of the first row, followed by a line
break and the map of the other rows, or by the closing `""`. -/
theorem map_of_rows_cons (r : List (List Nat)) (rs : List (List (List Nat))) :
    ∃ sep rest, map_of_rows (r :: rs) = r ++ sep :: rest ∧
      (sep = LINE_BREAK ∨ sep.length = 0) ∧ (rs ≠ [] → rest = map_of_rows rs) ∧
      (rs ≠ [] → sep = LINE_BREAK) ∧ (rs = [] → sep = []) := by
  cases rs with
  | nil => exact ⟨[], [], rfl, Or.inr rfl, fun h => absurd rfl h, fun h => absurd rfl h,
      fun _ => rfl⟩
  | cons r2 rs =>
    exact ⟨LINE_BREAK, map_of_rows (r2 :: rs), rfl, Or.inl rfl, fun _ => rfl, fun _ => rfl,
      fun h => by simp at h⟩

/-- The loop over the rows writes, row after row, the areas `rows_areas`. -/
theorem set_map_rows_spec (btnm : lv_btnmatrix_t) (R : Nat) (H : Int)
    (rows : List (List (List Nat × Nat))) :
    ∀ (row_idx : Nat) (map_row : List (List Nat)) (cpre cpost : List Nat)
      (pre mid post : List lv_area_t),
      (rows ≠ [] → map_row = map_of_rows (rows.map fun r => r.map Prod.fst)) →
      (∀ row ∈ rows, ∀ p ∈ row, p.1 ≠ LINE_BREAK ∧ p.1.length ≠ 0) →
      (∀ row ∈ rows, units (row.map Prod.snd) < 65536) →
      mid.length = (rows.map List.length).sum → pre.length = cpre.length →
      set_map_rows btnm (cpre ++ (rows.map fun r => r.map Prod.snd).flatten ++ cpost) R H
          rows.length row_idx map_row cpre.length (pre ++ mid ++ post)
        = some (pre ++ (rows_areas btnm R H row_idx
            (rows.map fun r => r.map Prod.snd)).flatten ++ post) := by
  induction rows with
  | nil =>
    intro row_idx map_row cpre cpost pre mid post _ _ _ hmid _
    have : mid = [] := List.length_eq_zero.mp (by simpa using hmid)
    subst this
    simp [set_map_rows, rows_areas]
  | cons row rows ih =>
    intro row_idx map_row cpre cpost pre mid post hmap hv hu hmid hpre
    obtain ⟨sep, rest, hm, hsep, hrest, -, -⟩ :=
      map_of_rows_cons (row.map Prod.fst) (rows.map fun r => r.map Prod.fst)
    have hmap' : map_row = row.map Prod.fst ++ sep :: rest := by
      rw [hmap (by simp)]
      exact hm
    have hrest' : rows ≠ [] → rest = map_of_rows (rows.map fun r => r.map Prod.fst) := by
      intro h
      exact hrest (by simpa using h)
    have hvr := hv row (List.mem_cons_self _ _)
    have hur := hu row (List.mem_cons_self _ _)
    have hlu := length_le_units (row.map Prod.snd)
    rw [List.length_map] at hlu
    have hctrl : cpre ++ ((row :: rows).map fun r => r.map Prod.snd).flatten ++ cpost
        = cpre ++ [] ++ row.map Prod.snd ++
            ((rows.map fun r => r.map Prod.snd).flatten ++ cpost) := by simp
    have hcount := count_row_spec row cpre [] ((rows.map fun r => r.map Prod.snd).flatten ++ cpost)
      sep rest 0 hvr hsep (by omega) (by simp only [List.length_nil]; omega)
    simp only [List.length_nil, Nat.zero_add] at hcount
    have hdrop : (row.map Prod.fst ++ sep :: rest).drop (row.length + 1) = rest := by
      have : row.length + 1 = (row.map Prod.fst ++ [sep]).length := by simp
      rw [this, show row.map Prod.fst ++ sep :: rest = (row.map Prod.fst ++ [sep]) ++ rest by simp,
        List.drop_left]
    rw [List.length_cons, set_map_rows, hctrl, hmap', hcount]
    dsimp only
    rw [hdrop]
    simp only [List.map_cons, List.sum_cons] at hmid
    by_cases hrow : row.length = 0
    · rw [if_pos hrow]
      have hnil : row = [] := List.length_eq_zero.mp hrow
      subst hnil
      have ih' := ih (row_idx + 1) rest cpre cpost pre mid post hrest'
        (fun r hr => hv r (List.mem_cons_of_mem _ hr))
        (fun r hr => hu r (List.mem_cons_of_mem _ hr)) (by simpa using hmid) hpre
      simp only [List.map_nil, List.append_nil, List.nil_append]
      simp only [List.map_cons, List.map_nil, rows_areas, row_areas, List.flatten_cons,
        List.nil_append]
      rw [← ih']
      simp
    · rw [if_neg hrow]
      have hsplit : pre ++ mid ++ post
          = pre ++ mid.take row.length ++ (mid.drop row.length ++ post) := by
        conv_lhs => rw [← List.take_append_drop row.length mid]
        simp only [List.append_assoc]
      have hU : units (row.map Prod.snd) ≠ 0 := by omega
      have hbt := set_map_btns_spec btnm (units (row.map Prod.snd))
        (row_y1 btnm R H row_idx) (row_y2 btnm R H row_idx) (max_w_no_gap btnm row.length) hU
        (row.map Prod.snd) cpre ((rows.map fun r => r.map Prod.snd).flatten ++ cpost) pre
        (mid.take row.length) (mid.drop row.length ++ post) 0 0
        (by simp only [List.length_take, List.length_map]; omega) hpre
      rw [List.length_map] at hbt
      have hctrl3 : cpre ++ [] ++ row.map Prod.snd ++
            ((rows.map fun r => r.map Prod.snd).flatten ++ cpost)
          = cpre ++ row.map Prod.snd ++ ((rows.map fun r => r.map Prod.snd).flatten ++ cpost) := by
        simp
      rw [hctrl3, hsplit, hbt]
      dsimp only
      have ih' := ih (row_idx + 1) rest (cpre ++ row.map Prod.snd) cpost
        (pre ++ row_areas btnm (units (row.map Prod.snd)) (row_y1 btnm R H row_idx)
          (row_y2 btnm R H row_idx) (max_w_no_gap btnm row.length) 0 0 (row.map Prod.snd))
        (mid.drop row.length) post hrest'
        (fun r hr => hv r (List.mem_cons_of_mem _ hr))
        (fun r hr => hu r (List.mem_cons_of_mem _ hr))
        (by simp only [List.length_drop]; omega)
        (by simp only [List.length_append, row_areas_length, List.length_map]; omega)
      simp only [List.length_append, List.length_map, List.append_assoc] at ih'
      simp only [List.append_assoc]
      rw [ih']
      simp [rows_areas]

theorem count_rows_texts (r tail : List (List Nat)) (k : Nat)
    (hv : ∀ s ∈ r, s ≠ LINE_BREAK ∧ s.length ≠ 0) :
    count_rows (r ++ tail) k = count_rows tail k := by
  induction r with
  | nil => rfl
  | cons s r ih =>
    have hs := hv s (List.mem_cons_self _ _)
    rw [List.cons_append, count_rows, if_pos hs.2, if_neg hs.1]
    exact ih fun t ht => hv t (List.mem_cons_of_mem _ ht)

/-- The line count of the map of `1 + rs.length` rows. -/
theorem count_rows_spec (rs : List (List (List Nat))) :
    ∀ (r : List (List Nat)) (k : Nat),
      (∀ row ∈ r :: rs, ∀ s ∈ row, s ≠ LINE_BREAK ∧ s.length ≠ 0) →
      k + rs.length < 256 →
      count_rows (map_of_rows (r :: rs)) k = some (k + rs.length) := by
  induction rs with
  | nil =>
    intro r k hv _
    rw [map_of_rows, count_rows_texts r _ k (hv r (List.mem_cons_self _ _))]
    simp [count_rows]
  | cons r2 rs ih =>
    intro r k hv hk
    rw [List.length_cons] at hk
    rw [map_of_rows, count_rows_texts r _ k (hv r (List.mem_cons_self _ _)), count_rows,
      if_pos (by decide), if_pos rfl, Nat.mod_eq_of_lt (by omega),
      ih r2 (k + 1) (fun row hr => hv row (List.mem_cons_of_mem _ hr)) (by omega),
      List.length_cons]
    congr 1
    omega

/-- A value of `lv_coord_t` is not changed by the conversion to `lv_coord_t`. -/
theorem lv_coord_t_of_eq (x : Int) (h : is_coord x) : lv_coord_t_of x = x := by
  obtain ⟨h1, h2⟩ := h
  unfold lv_coord_t_of
  omega

theorem add32_eq (a b : Int) : add32 a b = (a + b) % 4294967296 := by
  unfold add32 uint32_t_of
  omega

theorem sub32_eq (a b : Int) : sub32 a b = (a - b) % 4294967296 := by
  unfold sub32 uint32_t_of
  omega

theorem mul32_eq (a b : Int) : mul32 a b = (a * b) % 4294967296 := by
  unfold mul32 uint32_t_of
  exact (Int.mul_emod a b _).symm

theorem mul32_add32 (a b c : Int) : mul32 a (add32 b c) = mul32 a (b + c) := by
  rw [mul32_eq, mul32_eq, add32_eq, Int.mul_emod, Int.emod_emod_of_dvd _ (dvd_refl _),
    ← Int.mul_emod]

/-- The start of the next tile is the end of this one, plus 1 and the gap, as an
`lv_coord_t`: the two share the quotient. -/
theorem tile_next (a m g k j i d : Int) :
    lv_coord_t_of (add32 (add32 a (div32 (mul32 m (k + j)) d)) (mul32 (i + 1) g))
      = lv_coord_t_of
          (lv_coord_t_of
            (sub32 (add32 (add32 a (div32 (mul32 m (add32 k j)) d)) (mul32 i g)) 1) + 1 + g) := by
  rw [mul32_add32]
  generalize div32 (mul32 m (k + j)) d = q
  rw [mul32_eq, mul32_eq, add_mul, one_mul]
  generalize i * g = t
  simp only [add32_eq, sub32_eq]
  unfold lv_coord_t_of
  omega

/-- The end of the last tile: the quotient of the whole width by the whole unit count is the
width itself. -/
theorem tile_last (a W g i : Int) (U : Nat) (hW0 : 0 ≤ W) (hW : W ≤ 32767) (hU0 : U ≠ 0)
    (hU : U < 65536) :
    lv_coord_t_of (sub32 (add32 (add32 a (div32 (mul32 W U) U)) (mul32 i g)) 1)
      = lv_coord_t_of (a + W + i * g - 1) := by
  have hU1 : (0 : Int) < U := by omega
  have hU2 : (U : Int) ≤ 65535 := by omega
  have hprod : W * U ≤ 32767 * 65535 := Int.mul_le_mul hW hU2 (by omega) (by omega)
  have hprod0 : 0 ≤ W * U := Int.mul_nonneg hW0 (by omega)
  have hq : div32 (mul32 W U) U = W := by
    rw [mul32_eq]
    unfold div32 uint32_t_of
    rw [Int.emod_emod_of_dvd _ (dvd_refl _), Int.emod_eq_of_lt hprod0 (by omega),
      Int.emod_eq_of_lt (by omega) (by omega), Int.mul_ediv_cancel _ (by omega)]
  rw [hq, mul32_eq]
  generalize i * g = t
  simp only [add32_eq, sub32_eq]
  unfold lv_coord_t_of
  omega

theorem max_w_no_gap_eq (btnm : lv_btnmatrix_t) (n : Nat) :
    max_w_no_gap btnm n
      = max 0 (lv_coord_t_of (btnm.width_fit - ((n : Int) - 1) * col_gap btnm)) := by
  unfold max_w_no_gap
  dsimp only
  rw [mul_comm (col_gap btnm)]
  split <;> omega

theorem max_w_no_gap_range (btnm : lv_btnmatrix_t) (n : Nat) :
    0 ≤ max_w_no_gap btnm n ∧ max_w_no_gap btnm n ≤ 32767 := by
  unfold max_w_no_gap lv_coord_t_of
  dsimp only
  split <;> omega

theorem row_areas_head (btnm : lv_btnmatrix_t) (U : Nat) (y1 y2 W : Int)
    (hltr : btnm.base_dir_rtl = false) (hleft : is_coord btnm.pad_left) (cs : List Nat)
    (a : lv_area_t) (h : (row_areas btnm U y1 y2 W 0 0 cs).head? = some a) :
    a.x1 = btnm.pad_left := by
  cases cs with
  | nil => simp [row_areas] at h
  | cons c cs =>
    simp only [row_areas, List.head?_cons, Option.some.injEq] at h
    subst h
    obtain ⟨h1, h2⟩ := hleft
    simp only [btn_area, hltr, Bool.false_eq_true, if_false, mul32_eq, add32_eq, div32,
      uint32_t_of, Nat.cast_zero, mul_zero, zero_mul, Int.zero_emod, Int.zero_ediv, add_zero]
    unfold lv_coord_t_of
    omega

theorem row_areas_chain (btnm : lv_btnmatrix_t) (U : Nat) (y1 y2 W : Int)
    (hltr : btnm.base_dir_rtl = false) (cs : List Nat) :
    ∀ btn ruc,
      List.Chain' (fun a c : lv_area_t => c.x1 = lv_coord_t_of (a.x2 + 1 + col_gap btnm))
        (row_areas btnm U y1 y2 W btn ruc cs) := by
  induction cs with
  | nil => intro _ _; exact List.chain'_nil
  | cons c cs ih =>
    intro btn ruc
    cases cs with
    | nil => exact List.chain'_singleton _
    | cons c2 cs =>
      have ih' := ih (btn + 1) (ruc + get_button_width c)
      simp only [row_areas] at ih' ⊢
      refine List.chain'_cons.mpr ⟨?_, ih'⟩
      simp only [btn_area, hltr, Bool.false_eq_true, if_false]
      push_cast
      exact tile_next _ _ _ _ _ _ _

theorem row_areas_last (btnm : lv_btnmatrix_t) (U : Nat) (y1 y2 W : Int)
    (hltr : btnm.base_dir_rtl = false) (cs : List Nat) :
    ∀ btn ruc a, (row_areas btnm U y1 y2 W btn ruc cs).getLast? = some a →
      a.x2 = lv_coord_t_of
        (sub32
          (add32 (add32 btnm.pad_left (div32 (mul32 W ((ruc + units cs : Nat) : Int)) U))
            (mul32 (((btn + cs.length : Nat) : Int) - 1) (col_gap btnm)))
          1) := by
  induction cs with
  | nil => intro _ _ a h; simp [row_areas] at h
  | cons c cs ih =>
    intro btn ruc a h
    cases cs with
    | nil =>
      simp only [row_areas, List.getLast?_singleton, Option.some.injEq] at h
      subst h
      simp only [btn_area, hltr, Bool.false_eq_true, if_false, units_cons, units_nil,
        List.length_cons, List.length_nil, mul32_add32]
      push_cast
      simp only [add_zero, zero_add, add_sub_cancel_right]
    | cons c2 cs =>
      simp only [row_areas, List.getLast?_cons_cons] at h
      have ih' := ih (btn + 1) (ruc + get_button_width c) a (by simpa only [row_areas] using h)
      rw [ih', units_cons c, List.length_cons (a := c)]
      have e1 : ruc + get_button_width c + units (c2 :: cs)
          = ruc + (get_button_width c + units (c2 :: cs)) := by omega
      have e2 : btn + 1 + (c2 :: cs).length = btn + ((c2 :: cs).length + 1) := by omega
      rw [e1, e2]

theorem row_areas_y (btnm : lv_btnmatrix_t) (U : Nat) (y1 y2 W : Int) (cs : List Nat) :
    ∀ btn ruc, ∀ a ∈ row_areas btnm U y1 y2 W btn ruc cs, a.y1 = y1 ∧ a.y2 = y2 := by
  induction cs with
  | nil => intro _ _ a h; simp [row_areas] at h
  | cons c cs ih =>
    intro btn ruc a h
    simp only [row_areas, List.mem_cons] at h
    rcases h with h | h
    · subst h
      unfold btn_area
      dsimp only
      split <;> exact ⟨rfl, rfl⟩
    · exact ih _ _ a h

theorem row_y1_succ (btnm : lv_btnmatrix_t) (R : Nat) (H : Int) (r : Nat) :
    row_y1 btnm R H (r + 1) = lv_coord_t_of (row_y2 btnm R H r + 1 + row_gap btnm) := by
  unfold row_y1 row_y2
  push_cast
  exact tile_next _ _ _ _ _ _ _

theorem rows_areas_length (btnm : lv_btnmatrix_t) (R : Nat) (H : Int) (crows : List (List Nat)) :
    ∀ row, (rows_areas btnm R H row crows).length = crows.length := by
  induction crows with
  | nil => intro _; rfl
  | cons cs crows ih => intro row; simp [rows_areas, ih]

theorem rows_areas_getElem? (btnm : lv_btnmatrix_t) (R : Nat) (H : Int)
    (crows : List (List Nat)) :
    ∀ row r A, (rows_areas btnm R H row crows)[r]? = some A →
      ∃ cs, crows[r]? = some cs ∧
        A = row_areas btnm (units cs) (row_y1 btnm R H (row + r)) (row_y2 btnm R H (row + r))
          (max_w_no_gap btnm cs.length) 0 0 cs := by
  induction crows with
  | nil => intro _ r A h; simp [rows_areas] at h
  | cons cs crows ih =>
    intro row r A h
    cases r with
    | zero =>
      simp only [rows_areas, List.getElem?_cons_zero, Option.some.injEq] at h
      exact ⟨cs, by simp, by simpa using h.symm⟩
    | succ r =>
      simp only [rows_areas, List.getElem?_cons_succ] at h
      obtain ⟨cs', h1, h2⟩ := ih (row + 1) r A h
      refine ⟨cs', by simpa using h1, ?_⟩
      rw [h2, show row + 1 + r = row + (r + 1) by omega]

/-- `allocate_btn_areas_and_controls` leaves the base direction, the style values and the
fitted size of the object alone. -/
theorem allocate_style {btnm b1 : lv_btnmatrix_t} {map : List (List Nat)}
    (h : allocate_btn_areas_and_controls btnm map = some b1) :
    b1.base_dir_rtl = btnm.base_dir_rtl ∧ b1.pad_left = btnm.pad_left ∧
      b1.pad_top = btnm.pad_top ∧ col_gap b1 = col_gap btnm ∧ row_gap b1 = row_gap btnm ∧
      b1.width_fit = btnm.width_fit ∧ b1.height_fit = btnm.height_fit := by
  unfold allocate_btn_areas_and_controls at h
  cases hc : count_btns map 0 0 with
  | none => simp [hc] at h
  | some n =>
    rw [hc] at h
    dsimp only at h
    split_ifs at h with h1
    · simp only [Option.some.injEq] at h
      subst h
      exact ⟨rfl, rfl, rfl, rfl, rfl, rfl, rfl⟩
    all_goals
      simp only [Option.some.injEq] at h
      subst h
      exact ⟨rfl, rfl, rfl, rfl, rfl, rfl, rfl⟩


/-- The counting loop of `allocate_btn_areas_and_controls` ends on a map that holds its
closing `""` among its first 65536 strings. -/
theorem count_btns_defined (m : List (List Nat)) :
    (∃ s ∈ m, s.length = 0) → ∀ i n, i + m.length ≤ 65536 →
      ∃ k, count_btns m i n = some k := by
  induction m with
  | nil => intro h; simp at h
  | cons s rest ih =>
    intro h i n hi
    rw [List.length_cons] at hi
    by_cases hs : s.length = 0
    · exact ⟨n, by rw [count_btns, if_neg (by simpa using hs)]⟩
    · have hrest : ∃ t ∈ rest, t.length = 0 := by
        obtain ⟨t, ht, ht0⟩ := h
        rcases List.mem_cons.mp ht with h1 | h1
        · subst h1
          exact absurd ht0 hs
        · exact ⟨t, h1, ht0⟩
      have hpos : 0 < rest.length := by
        obtain ⟨t, ht, -⟩ := hrest
        exact List.length_pos_of_mem ht
      rw [count_btns, if_pos hs, if_neg (by omega)]
      exact ih hrest _ _ (by omega)

/-- The map of a list of rows holds its closing `""`. -/
theorem map_of_rows_closed : ∀ rs : List (List (List Nat)), ∃ s ∈ map_of_rows rs, s.length = 0
  | [] => ⟨[], by simp [map_of_rows], rfl⟩
  | [r] => ⟨[], by simp [map_of_rows], rfl⟩
  | r :: r2 :: rs => by
    obtain ⟨s, hs, hs0⟩ := map_of_rows_closed (r2 :: rs)
    refine ⟨s, ?_, hs0⟩
    rw [map_of_rows]
    exact List.mem_append_right _ (List.mem_cons_of_mem _ hs)

/-- `allocate_btn_areas_and_controls` returns on a map that holds its closing `""` among its
first 65536 strings. -/
theorem allocate_defined (btnm : lv_btnmatrix_t) (m : List (List Nat))
    (hterm : ∃ s ∈ m, s.length = 0) (hlen : m.length ≤ 65536) :
    ∃ b1, allocate_btn_areas_and_controls btnm m = some b1 := by
  obtain ⟨k, hk⟩ := count_btns_defined m hterm 0 0 (by omega)
  unfold allocate_btn_areas_and_controls
  rw [hk]
  dsimp only
  split
  · exact ⟨_, rfl⟩
  · exact ⟨_, rfl⟩

/-- The layout of the rows `A B`, `C`, an empty row, and `D` on `btnmW`: the row `C` starts
at `y1 = 14`, which is `11 + 1 + 2`, and the row `D` after the empty row at 35. -/
theorem lv_btnmatrix_set_map_rowsW :
    ((lv_btnmatrix_set_map btnmW (map_of_rows (rowsW.map fun r => r.map Prod.fst))).bind
        fun b => b.button_areas)
      = some [⟨5, 4, 68, 11⟩, ⟨72, 4, 104, 11⟩, ⟨5, 14, 104, 22⟩, ⟨5, 35, 104, 43⟩] := by
  decide

/-- Three rows on a matrix whose gaps exceed its height: `max_h_no_gap` is `10 - 2 * 20 = -30`,
the products with the `uint32_t` row number are taken modulo `2 ^ 32` before the division
by 3, and the rows end at `y2 = 21834`, 21844 and 21854. -/
theorem lv_btnmatrix_set_map_negative_height :
    ((lv_btnmatrix_set_map btnmShort mapThreeRows).bind fun b => b.button_areas)
      = some [⟨0, 0, 99, 21834⟩, ⟨0, 21855, 99, 21844⟩, ⟨0, 21865, 99, 21854⟩] := by
  decide

set_option maxRecDepth 100000 in
/-- The `uint8_t` row counter wraps: on a map of 257 rows of one button each the loop that
counts the lines ends with `row_cnt = 1`, and only the first row is laid out. -/
theorem count_rows_wraps :
    count_rows (map_of_rows (List.replicate 257 [[65]])) 1 = some 1 := by
  decide

/-- C29, the claim as stated fails: on a new button matrix with left padding 5, fitted width
100 and left and right margins of -3000 on the buttons, the map of one row of twelve buttons
is laid out with the last `x2` at 32540. The difference `max_w - (n - 1) * col_gap = 33100`
does not fit an `lv_coord_t`, is stored as a negative value and replaced by 0, while
`left + max(0, max_w - (n - 1) * col_gap) + (n - 1) * col_gap - 1` is 104. -/
theorem lv_btnmatrix_set_map_last_x2_wraps :
    coords_fit btnmWide ∧ btnmWide.base_dir_rtl = false ∧
    ((lv_btnmatrix_set_map btnmWide mapWide).bind fun b =>
        b.button_areas.bind fun l => l.getLast?.map fun a => a.x2) = some 32540 ∧
    btnmWide.pad_left + max 0 (btnmWide.width_fit - (12 - 1) * col_gap btnmWide)
      + (12 - 1) * col_gap btnmWide - 1 = 104 := by
  decide

/-- C29, amended: let the map consist of the rows `rows` of buttons (texts that are neither
`""` nor `"\n"`, each with its control word, so with any unit width from 1 to 7), at most 255
rows with fewer than 65536 units in each and at most 65536 strings in all, let the style
values and the fitted size be values of `lv_coord_t`, and let the arrays that
`allocate_btn_areas_and_controls` leaves hold the control words of the rows and one area for
each button. With left-to-right base direction
`lv_btnmatrix_set_map` returns, and `button_areas` is the concatenation of one list of areas
`A` for each row, with as many areas as the row has buttons. In each such list the first `x1`
is the left padding, each next `x1` is the previous `x2 + 1 + col_gap` as an `lv_coord_t`,
and the last `x2` is `left + max_w_no_gap + (n - 1) * col_gap - 1` as an `lv_coord_t`, with
`max_w_no_gap` the larger of 0 and `max_w - (n - 1) * col_gap` as an `lv_coord_t`. For two
rows that follow each other directly, every `y1` of the second is `y2 + 1 + row_gap` as an
`lv_coord_t` for every `y2` of the first. A value from -32768 to 32767 is itself as an
`lv_coord_t`, so each equality is exact when its right-hand side lies in that range. -/
theorem lv_btnmatrix_set_map_tiles (btnm : lv_btnmatrix_t)
    (rows : List (List (List Nat × Nat))) (areas : List lv_area_t)
    (hne : rows ≠ [])
    (hnames : ∀ row ∈ rows, ∀ p ∈ row, p.1 ≠ LINE_BREAK ∧ p.1.length ≠ 0)
    (hrows : rows.length ≤ 255)
    (hunits : ∀ row ∈ rows, units (row.map Prod.snd) < 65536)
    (hmap : (map_of_rows (rows.map fun r => r.map Prod.fst)).length ≤ 65536)
    (hltr : btnm.base_dir_rtl = false)
    (hfit : coords_fit btnm)
    (hstate : ∀ b1, allocate_btn_areas_and_controls btnm
        (map_of_rows (rows.map fun r => r.map Prod.fst)) = some b1 →
      b1.ctrl_bits = some (rows.map fun r => r.map Prod.snd).flatten ∧
      b1.button_areas = some areas)
    (hlen : areas.length = (rows.map List.length).sum) :
    ∃ (b2 : lv_btnmatrix_t) (L : List (List lv_area_t)),
      lv_btnmatrix_set_map btnm (map_of_rows (rows.map fun r => r.map Prod.fst)) = some b2 ∧
      b2.button_areas = some L.flatten ∧ L.length = rows.length ∧
      (∀ (r : Nat) (row : List (List Nat × Nat)) (A : List lv_area_t),
        rows[r]? = some row → L[r]? = some A →
        A.length = row.length ∧
        (∀ a, A.head? = some a → a.x1 = btnm.pad_left) ∧
        List.Chain' (fun a c : lv_area_t => c.x1 = lv_coord_t_of (a.x2 + 1 + col_gap btnm)) A ∧
        (∀ a, A.getLast? = some a →
          a.x2 = lv_coord_t_of (btnm.pad_left
            + max 0 (lv_coord_t_of (btnm.width_fit - ((row.length : Int) - 1) * col_gap btnm))
            + ((row.length : Int) - 1) * col_gap btnm - 1))) ∧
      (∀ (r : Nat) (A C : List lv_area_t), L[r]? = some A → L[r + 1]? = some C →
        ∀ a ∈ A, ∀ c ∈ C, c.y1 = lv_coord_t_of (a.y2 + 1 + row_gap btnm)) ∧
      (∀ x : Int, -32768 ≤ x → x ≤ 32767 → lv_coord_t_of x = x) := by
  obtain ⟨b1, hA⟩ := allocate_defined btnm _ (map_of_rows_closed _) hmap
  obtain ⟨hctrl, hareas⟩ := hstate b1 hA
  obtain ⟨sdir, sleft, -, scol, srow, sw, -⟩ := allocate_style hA
  obtain ⟨m0, ba, cb, bc, bp, oc, rtl, pl, pt, mt, mb, ml, mr, wf, hf, gr⟩ := b1
  dsimp only at hctrl hareas sdir sleft sw
  subst hctrl
  subst hareas
  cases rows with
  | nil => exact absurd rfl hne
  | cons row0 rs =>
    have hcnt : count_rows (map_of_rows ((row0 :: rs).map fun r => r.map Prod.fst)) 1
        = some ((row0 :: rs).length) := by
      have hv : ∀ row ∈ row0.map Prod.fst :: rs.map (fun r => r.map Prod.fst),
          ∀ s ∈ row, s ≠ LINE_BREAK ∧ s.length ≠ 0 := by
        intro row hr s hs
        have hr' : row ∈ (row0 :: rs).map fun r => r.map Prod.fst := by simpa using hr
        obtain ⟨r, hr1, hr2⟩ := List.mem_map.mp hr'
        subst hr2
        obtain ⟨p, hp1, hp2⟩ := List.mem_map.mp hs
        subst hp2
        exact hnames r hr1 p hp1
      have := count_rows_spec (rs.map fun r => r.map Prod.fst) (row0.map Prod.fst) 1 hv
        (by simp only [List.length_map]; simp only [List.length_cons] at hrows; omega)
      rw [List.map_cons, this, List.length_map, List.length_cons]
      congr 1
      omega
    obtain ⟨M, hM⟩ : ∃ M, M = map_of_rows ((row0 :: rs).map fun r => r.map Prod.fst) :=
      ⟨_, rfl⟩
    rw [← hM] at hA hcnt
    obtain ⟨bq, hbq⟩ : ∃ bq : lv_btnmatrix_t, bq = lv_btnmatrix_t.mk M (some areas)
        (some ((row0 :: rs).map fun r => r.map Prod.snd).flatten) bc bp oc rtl pl pt mt mb ml mr
        wf hf gr := ⟨_, rfl⟩
    have q1 : bq.base_dir_rtl = false := by rw [hbq]; exact sdir.trans hltr
    have q2 : bq.pad_left = btnm.pad_left := by rw [hbq]; exact sleft
    have q3 : col_gap bq = col_gap btnm := by rw [hbq]; exact scol
    have q4 : row_gap bq = row_gap btnm := by rw [hbq]; exact srow
    have q5 : bq.width_fit = btnm.width_fit := by rw [hbq]; exact sw
    have q6 : is_coord bq.pad_left := by rw [q2]; exact hfit.1
    have hspec := set_map_rows_spec bq (row0 :: rs).length
      (max_h_no_gap bq (row0 :: rs).length)
      (row0 :: rs) 0 M [] [] [] areas [] (fun _ => hM) hnames hunits hlen rfl
    simp only [List.nil_append, List.append_nil, List.length_nil] at hspec
    rw [← hM]
    refine ⟨{ bq with button_areas := some (rows_areas bq (row0 :: rs).length
        (max_h_no_gap bq (row0 :: rs).length) 0
        ((row0 :: rs).map fun r => r.map Prod.snd)).flatten },
      rows_areas bq (row0 :: rs).length
        (max_h_no_gap bq (row0 :: rs).length) 0
        ((row0 :: rs).map fun r => r.map Prod.snd), ?_, rfl, ?_, ?_, ?_,
      fun x h1 h2 => lv_coord_t_of_eq x ⟨h1, h2⟩⟩
    · subst hbq
      unfold lv_btnmatrix_set_map
      rw [hA]
      dsimp only at hspec ⊢
      rw [hcnt]
      dsimp only [Option.getD_some]
      rw [hspec]
      rfl
    · rw [rows_areas_length, List.length_map]
    · intro r row A hrow hA'
      obtain ⟨cs, hcs, hAeq⟩ := rows_areas_getElem? _ _ _ _ _ _ _ hA'
      rw [List.getElem?_map, hrow] at hcs
      simp only [Option.map_some', Option.some.injEq] at hcs
      subst hcs
      subst hAeq
      refine ⟨by rw [row_areas_length, List.length_map], ?_, ?_, ?_⟩
      · intro a ha
        rw [row_areas_head _ _ _ _ _ q1 q6 _ a ha, q2]
      · rw [← q3]
        exact row_areas_chain _ _ _ _ _ q1 _ _ _
      · intro a ha
        have hlast := row_areas_last _ _ _ _ _ q1 _ 0 0 a ha
        have hne' : row.map Prod.snd ≠ [] := by
          intro h0
          rw [h0] at ha
          simp [row_areas] at ha
        have hU0 : units (row.map Prod.snd) ≠ 0 := by
          have h1 := length_le_units (row.map Prod.snd)
          have h2 : 0 < (row.map Prod.snd).length := List.length_pos.mpr hne'
          omega
        have hU : units (row.map Prod.snd) < 65536 :=
          hunits row (List.getElem?_mem hrow)
        obtain ⟨w0, w1⟩ := max_w_no_gap_range bq (row.map Prod.snd).length
        rw [hlast, Nat.zero_add, Nat.zero_add, tile_last _ _ _ _ _ w0 w1 hU0 hU,
          max_w_no_gap_eq, List.length_map, q2, q3, q5]
    · intro r A C hA' hC a ha c hc
      obtain ⟨cs, -, hAeq⟩ := rows_areas_getElem? _ _ _ _ _ _ _ hA'
      obtain ⟨cs2, -, hCeq⟩ := rows_areas_getElem? _ _ _ _ _ _ _ hC
      subst hAeq
      subst hCeq
      have h1 := (row_areas_y _ _ _ _ _ _ _ _ a ha).2
      have h2 := (row_areas_y _ _ _ _ _ _ _ _ c hc).1
      rw [h1, h2, show 0 + (r + 1) = (0 + r) + 1 by omega, row_y1_succ, q4]

/-- Witness of C29: the rows `A B`, `C`, an empty row, and `D`, with the unit widths 2, 1, 3
and 1, laid out again over the arrays of `btnmW`; the rows `A B` and `C` follow each other
directly. -/
theorem lv_btnmatrix_set_map_tiles_witness :
    ∃ (b2 : lv_btnmatrix_t) (L : List (List lv_area_t)),
      lv_btnmatrix_set_map btnmW (map_of_rows (rowsW.map fun r => r.map Prod.fst)) = some b2 ∧
      b2.button_areas = some L.flatten ∧ L.length = rowsW.length ∧
      (∀ (r : Nat) (row : List (List Nat × Nat)) (A : List lv_area_t),
        rowsW[r]? = some row → L[r]? = some A →
        A.length = row.length ∧
        (∀ a, A.head? = some a → a.x1 = btnmW.pad_left) ∧
        List.Chain' (fun a c : lv_area_t => c.x1 = lv_coord_t_of (a.x2 + 1 + col_gap btnmW)) A ∧
        (∀ a, A.getLast? = some a →
          a.x2 = lv_coord_t_of (btnmW.pad_left
            + max 0 (lv_coord_t_of (btnmW.width_fit - ((row.length : Int) - 1) * col_gap btnmW))
            + ((row.length : Int) - 1) * col_gap btnmW - 1))) ∧
      (∀ (r : Nat) (A C : List lv_area_t), L[r]? = some A → L[r + 1]? = some C →
        ∀ a ∈ A, ∀ c ∈ C, c.y1 = lv_coord_t_of (a.y2 + 1 + row_gap btnmW)) ∧
      (∀ x : Int, -32768 ≤ x → x ≤ 32767 → lv_coord_t_of x = x) :=
  lv_btnmatrix_set_map_tiles btnmW rowsW
    [⟨0, 0, 0, 0⟩, ⟨0, 0, 0, 0⟩, ⟨0, 0, 0, 0⟩, ⟨0, 0, 0, 0⟩]
    (by decide) (by decide) (by decide) (by decide) (by decide) rfl (by decide)
    (fun b1 h => by
      have e : allocate_btn_areas_and_controls btnmW
          (map_of_rows (rowsW.map fun r => r.map Prod.fst)) = some btnmW := by decide
      rw [e] at h
      cases h
      exact ⟨rfl, rfl⟩)
    rfl

/-! ## Button matrix: the "one check" invariant -/

theorem checked_count_eq (b : lv_btnmatrix_t) :
    checked_count b = cc (b.ctrl_bits.getD []) b.btn_cnt := by
  unfold checked_count cc
  rw [List.countP_eq_length_filter]

theorem cc_set_le (l : List Nat) : ∀ (i n v : Nat), cc (l.set i v) n ≤ cc l n + 1 := by
  induction l with
  | nil => intro i n v; simp [cc]
  | cons x l ih =>
    intro i n v
    cases n with
    | zero => simp [cc]
    | succ n =>
      cases i with
      | zero =>
        simp only [cc, List.set_cons_zero, List.take_succ_cons, List.countP_cons]
        split_ifs <;> omega
      | succ i =>
        have := ih i n v
        simp only [cc, List.set_cons_succ, List.take_succ_cons, List.countP_cons] at this ⊢
        omega

theorem cc_set_eq (l : List Nat) :
    ∀ (i n v : Nat), (∀ x, l[i]? = some x → button_get_checked v = button_get_checked x) →
      cc (l.set i v) n = cc l n := by
  induction l with
  | nil => intro i n v _; simp [cc]
  | cons x l ih =>
    intro i n v h
    cases n with
    | zero => simp [cc]
    | succ n =>
      cases i with
      | zero =>
        have := h x (by simp)
        simp only [cc, List.set_cons_zero, List.take_succ_cons, List.countP_cons, this]
      | succ i =>
        have := ih i n v (fun y hy => h y (by simpa using hy))
        simp only [cc, List.set_cons_succ, List.take_succ_cons, List.countP_cons] at this ⊢
        omega

theorem cc_set_false (l : List Nat) :
    ∀ (i n v : Nat), button_get_checked v = false → cc (l.set i v) n ≤ cc l n := by
  induction l with
  | nil => intro i n v _; simp [cc]
  | cons x l ih =>
    intro i n v h
    cases n with
    | zero => simp [cc]
    | succ n =>
      cases i with
      | zero =>
        simp only [cc, List.set_cons_zero, List.take_succ_cons, List.countP_cons, h,
          Bool.false_eq_true, if_false]
        split_ifs <;> omega
      | succ i =>
        have := ih i n v h
        simp only [cc, List.set_cons_succ, List.take_succ_cons, List.countP_cons] at this ⊢
        omega

theorem cc_zero_of_forall (l : List Nat) :
    ∀ n, (∀ j v, j < n → l[j]? = some v → button_get_checked v = false) → cc l n = 0 := by
  induction l with
  | nil => intro n _; simp [cc]
  | cons x l ih =>
    intro n h
    cases n with
    | zero => simp [cc]
    | succ n =>
      have hx := h 0 x (by omega) (by simp)
      have := ih n (fun j v hj hv => h (j + 1) v (by omega) (by simpa using hv))
      simp only [cc, List.take_succ_cons, List.countP_cons, hx] at this ⊢
      simpa using this

theorem button_get_checked_mod (x : Nat) :
    button_get_checked (x % 65536) = button_get_checked x := by
  unfold button_get_checked
  have h := Nat.and_pow_two_sub_one_eq_mod x 16
  have e : x % 65536 &&& LV_BTNMATRIX_CTRL_CHECKED = x &&& LV_BTNMATRIX_CTRL_CHECKED := by
    rw [show (65536 : Nat) = 2 ^ 16 by norm_num, ← h, Nat.and_assoc]
    rfl
  rw [e]

theorem button_get_checked_and (v m : Nat) (hm : m &&& LV_BTNMATRIX_CTRL_CHECKED = LV_BTNMATRIX_CTRL_CHECKED) :
    button_get_checked (v &&& m) = button_get_checked v := by
  unfold button_get_checked
  rw [Nat.and_assoc, hm]

theorem button_get_checked_and_clear (v m : Nat) (hm : m &&& LV_BTNMATRIX_CTRL_CHECKED = 0) :
    button_get_checked (v &&& m) = false := by
  unfold button_get_checked
  rw [Nat.and_assoc, hm]
  simp

theorem button_get_checked_or (v m : Nat) (hm : m &&& LV_BTNMATRIX_CTRL_CHECKED = 0) :
    button_get_checked (v ||| m) = button_get_checked v := by
  unfold button_get_checked
  rw [Nat.and_distrib_right, hm, Nat.or_zero]

theorem button_get_checked_and_mono (v m : Nat)
    (h : button_get_checked (v &&& m) = true) : button_get_checked v = true := by
  unfold button_get_checked at h ⊢
  by_contra hv
  have hv0 : v &&& LV_BTNMATRIX_CTRL_CHECKED = 0 := by simpa using hv
  have : v &&& m &&& LV_BTNMATRIX_CTRL_CHECKED = 0 := by
    rw [Nat.and_assoc, Nat.and_comm m, ← Nat.and_assoc, hv0, Nat.zero_and]
  rw [this] at h
  simp at h

theorem cc_set_mono (l : List Nat) (i n v : Nat)
    (h : ∀ x, l[i]? = some x → button_get_checked v = true → button_get_checked x = true) :
    cc (l.set i v) n ≤ cc l n := by
  cases hv : button_get_checked v with
  | false => exact cc_set_false l i n v hv
  | true =>
    refine le_of_eq (cc_set_eq l i n v ?_)
    intro x hx
    rw [hv, h x hx hv]

/-- What `ctrl_update` returns when it is defined. -/
theorem ctrl_update_some {b b2 : lv_btnmatrix_t} {i : Nat} {f : Nat → Nat}
    (h : ctrl_update b i f = some b2) :
    ∃ l v, b.ctrl_bits = some l ∧ l[i]? = some v ∧
      b2 = { b with ctrl_bits := some (l.set i (f v % 65536)) } := by
  unfold ctrl_update at h
  cases hl : b.ctrl_bits with
  | none => simp [hl] at h
  | some l =>
    cases hv : l[i]? with
    | none => simp [hl, hv] at h
    | some v =>
      simp only [hl, hv, Option.some.injEq] at h
      exact ⟨l, v, rfl, hv, h.symm⟩

theorem ctrl_update_frame {b b2 : lv_btnmatrix_t} {i : Nat} {f : Nat → Nat}
    (h : ctrl_update b i f = some b2) :
    b2.one_check = b.one_check ∧ b2.btn_cnt = b.btn_cnt ∧ b2.btn_id_pr = b.btn_id_pr := by
  obtain ⟨l, v, -, -, rfl⟩ := ctrl_update_some h
  exact ⟨rfl, rfl, rfl⟩

theorem ctrl_update_le_succ {b b2 : lv_btnmatrix_t} {i : Nat} {f : Nat → Nat}
    (h : ctrl_update b i f = some b2) : checked_count b2 ≤ checked_count b + 1 := by
  obtain ⟨l, v, hl, -, rfl⟩ := ctrl_update_some h
  rw [checked_count_eq, checked_count_eq, hl]
  exact cc_set_le l i _ _

theorem ctrl_update_eq {b b2 : lv_btnmatrix_t} {i : Nat} {f : Nat → Nat}
    (hf : ∀ v, button_get_checked (f v) = button_get_checked v)
    (h : ctrl_update b i f = some b2) : checked_count b2 = checked_count b := by
  obtain ⟨l, v, hl, hv, rfl⟩ := ctrl_update_some h
  rw [checked_count_eq, checked_count_eq, hl]
  refine cc_set_eq l i _ _ ?_
  intro x hx
  rw [hv] at hx
  simp only [Option.some.injEq] at hx
  rw [button_get_checked_mod, hf, hx]

theorem ctrl_update_mono {b b2 : lv_btnmatrix_t} {i : Nat} {f : Nat → Nat}
    (hf : ∀ v, button_get_checked (f v) = true → button_get_checked v = true)
    (h : ctrl_update b i f = some b2) : checked_count b2 ≤ checked_count b := by
  obtain ⟨l, v, hl, hv, rfl⟩ := ctrl_update_some h
  rw [checked_count_eq, checked_count_eq, hl]
  refine cc_set_mono l i _ _ ?_
  intro x hx hc
  rw [hv] at hx
  simp only [Option.some.injEq] at hx
  rw [button_get_checked_mod] at hc
  rw [← hx]
  exact hf v hc

/-- `lv_btnmatrix_clear_btn_ctrl` checks no button. -/
theorem clear_btn_ctrl_le {b b2 : lv_btnmatrix_t} {i ctrl : Nat}
    (h : lv_btnmatrix_clear_btn_ctrl b i ctrl = some b2) :
    b2.one_check = b.one_check ∧ b2.btn_cnt = b.btn_cnt ∧ b2.btn_id_pr = b.btn_id_pr ∧
      checked_count b2 ≤ checked_count b := by
  unfold lv_btnmatrix_clear_btn_ctrl at h
  split_ifs at h with hi
  · simp only [Option.some.injEq] at h
    subst h
    exact ⟨rfl, rfl, rfl, le_refl _⟩
  · obtain ⟨h1, h2, h3⟩ := ctrl_update_frame h
    exact ⟨h1, h2, h3, ctrl_update_mono (fun v hv => button_get_checked_and_mono v _ hv) h⟩

/-- A loop over the buttons keeps what each of its steps keeps. -/
theorem for_btns_ind (f : lv_btnmatrix_t → Nat → Option lv_btnmatrix_t)
    (Q : Nat → lv_btnmatrix_t → Prop) (m : Nat)
    (hstep : ∀ b i b2, i < m → Q i b → f b i = some b2 → Q (i + 1) b2) :
    ∀ n i b b2, i + n ≤ m → Q i b → for_btns f n i b = some b2 → Q (i + n) b2 := by
  intro n
  induction n with
  | zero =>
    intro i b b2 _ hq h
    simp only [for_btns, Option.some.injEq] at h
    subst h
    exact hq
  | succ n ih =>
    intro i b b2 hm hq h
    rw [for_btns] at h
    cases hf : f b i with
    | none => simp [hf] at h
    | some b1 =>
      rw [hf] at h
      have := ih (i + 1) b1 b2 (by omega) (hstep b i b1 (by omega) hq hf) h
      rwa [show i + (n + 1) = i + 1 + n by omega]

/-- After `lv_btnmatrix_clear_btn_ctrl_all(btnm, LV_BTNMATRIX_CTRL_CHECKED)` no button is
checked. -/
theorem clear_btn_ctrl_all_checked {b b2 : lv_btnmatrix_t}
    (h : lv_btnmatrix_clear_btn_ctrl_all b LV_BTNMATRIX_CTRL_CHECKED = some b2) :
    b2.one_check = b.one_check ∧ b2.btn_cnt = b.btn_cnt ∧ b2.btn_id_pr = b.btn_id_pr ∧
      checked_count b2 = 0 := by
  unfold lv_btnmatrix_clear_btn_ctrl_all at h
  have key := for_btns_ind
    (fun b i => lv_btnmatrix_clear_btn_ctrl b i LV_BTNMATRIX_CTRL_CHECKED)
    (fun i x => x.one_check = b.one_check ∧ x.btn_cnt = b.btn_cnt ∧
      x.btn_id_pr = b.btn_id_pr ∧
      ∀ j v, j < i → (x.ctrl_bits.getD [])[j]? = some v → button_get_checked v = false)
    b.btn_cnt ?_ b.btn_cnt 0 b b2 (by omega) ⟨rfl, rfl, rfl, fun j v hj => by omega⟩ h
  · obtain ⟨h1, h2, h3, h4⟩ := key
    refine ⟨h1, h2, h3, ?_⟩
    rw [checked_count_eq, h2]
    exact cc_zero_of_forall _ _ (fun j v hj hv => h4 j v (by omega) hv)
  · intro x i x2 hi ⟨q1, q2, q3, q4⟩ hx0
    have hx : lv_btnmatrix_clear_btn_ctrl x i LV_BTNMATRIX_CTRL_CHECKED = some x2 := hx0
    unfold lv_btnmatrix_clear_btn_ctrl at hx
    have hni : ¬ (i ≥ x.btn_cnt) := by omega
    rw [if_neg hni] at hx
    obtain ⟨l, v, hl, hv, rfl⟩ := ctrl_update_some hx
    refine ⟨q1, q2, q3, ?_⟩
    intro j w hj hw
    simp only [Option.getD_some] at hw
    rw [hl] at q4
    simp only [Option.getD_some] at q4
    by_cases hji : j = i
    · subst hji
      rw [List.getElem?_set_self'] at hw
      rw [hv] at hw
      have hw' : (v &&& (0xFFFF ^^^ LV_BTNMATRIX_CTRL_CHECKED)) % 65536 = w := by
        simpa using hw
      rw [← hw', button_get_checked_mod]
      exact button_get_checked_and_clear v _ (by decide)
    · rw [List.getElem?_set_ne (fun e => hji e.symm)] at hw
      exact q4 j w (by omega) hw

/-- In "one check" mode `lv_btnmatrix_set_btn_ctrl` leaves at most one button checked. -/
theorem set_btn_ctrl_one_checked {b b2 : lv_btnmatrix_t} {i ctrl : Nat}
    (hb : one_checked b) (h : lv_btnmatrix_set_btn_ctrl b i ctrl = some b2) :
    one_checked b2 ∧ b2.btn_cnt = b.btn_cnt ∧ b2.btn_id_pr = b.btn_id_pr := by
  unfold lv_btnmatrix_set_btn_ctrl at h
  by_cases hi : i ≥ b.btn_cnt
  · rw [if_pos hi] at h
    simp only [Option.some.injEq] at h
    subst h
    exact ⟨hb, rfl, rfl⟩
  · rw [if_neg hi] at h
    dsimp only at h
    by_cases hc : b.one_check = true ∧ ctrl &&& LV_BTNMATRIX_CTRL_CHECKED ≠ 0
    · rw [if_pos hc] at h
      cases hcl : lv_btnmatrix_clear_btn_ctrl_all b LV_BTNMATRIX_CTRL_CHECKED with
      | none => simp [hcl] at h
      | some b1 =>
        rw [hcl] at h
        dsimp only at h
        obtain ⟨c1, c2, c3, c4⟩ := clear_btn_ctrl_all_checked hcl
        obtain ⟨f1, f2, f3⟩ := ctrl_update_frame h
        have := ctrl_update_le_succ h
        exact ⟨⟨by rw [f1, c1]; exact hb.1, by omega⟩, by rw [f2, c2], by rw [f3, c3]⟩
    · rw [if_neg hc] at h
      dsimp only at h
      obtain ⟨f1, f2, f3⟩ := ctrl_update_frame h
      have hc0 : ctrl &&& LV_BTNMATRIX_CTRL_CHECKED = 0 := by
        by_contra hne
        exact hc ⟨hb.1, hne⟩
      have := ctrl_update_eq (fun v => button_get_checked_or v ctrl hc0) h
      exact ⟨⟨by rw [f1]; exact hb.1, by rw [this]; exact hb.2⟩, f2, f3⟩

/-- In "one check" mode `lv_btnmatrix_set_btn_ctrl_all` leaves at most one button checked. -/
theorem set_btn_ctrl_all_one_checked {b b2 : lv_btnmatrix_t} {ctrl : Nat}
    (hb : one_checked b) (h : lv_btnmatrix_set_btn_ctrl_all b ctrl = some b2) :
    one_checked b2 := by
  unfold lv_btnmatrix_set_btn_ctrl_all at h
  exact for_btns_ind (fun x i => lv_btnmatrix_set_btn_ctrl x i ctrl) (fun _ x => one_checked x)
    b.btn_cnt (fun x i x2 _ hq hx => (set_btn_ctrl_one_checked hq hx).1) b.btn_cnt 0 b b2
    (by omega) hb h

/-- In "one check" mode `make_one_button_checked` leaves at most one button checked. -/
theorem make_one_button_checked_spec {b b2 : lv_btnmatrix_t} {i : Nat}
    (hb : b.one_check = true) (h : make_one_button_checked b i = some b2) :
    one_checked b2 ∧ b2.btn_cnt = b.btn_cnt ∧ b2.btn_id_pr = b.btn_id_pr := by
  unfold make_one_button_checked at h
  cases hg : lv_btnmatrix_get_btn_ctrl b i LV_BTNMATRIX_CTRL_CHECKED with
  | none => simp [hg] at h
  | some t =>
    rw [hg] at h
    dsimp only at h
    cases hcl : lv_btnmatrix_clear_btn_ctrl_all b LV_BTNMATRIX_CTRL_CHECKED with
    | none => simp [hcl] at h
    | some b1 =>
      rw [hcl] at h
      dsimp only at h
      obtain ⟨c1, c2, c3, c4⟩ := clear_btn_ctrl_all_checked hcl
      have hb1 : one_checked b1 := ⟨by rw [c1]; exact hb, by omega⟩
      split_ifs at h with ht
      · obtain ⟨s1, s2, s3⟩ := set_btn_ctrl_one_checked hb1 h
        exact ⟨s1, by rw [s2, c2], by rw [s3, c3]⟩
      · simp only [Option.some.injEq] at h
        subst h
        exact ⟨hb1, c2, c3⟩

/-- Right after `lv_btnmatrix_set_one_checked(btnm, true)` at most one button is checked. -/
theorem set_one_checked_spec {b b2 : lv_btnmatrix_t}
    (h : lv_btnmatrix_set_one_checked b true = some b2) : one_checked b2 := by
  unfold lv_btnmatrix_set_one_checked at h
  exact (make_one_button_checked_spec rfl h).1

/-- `lv_btnmatrix_clear_btn_ctrl` keeps the "one check" invariant. -/
theorem clear_btn_ctrl_one_checked {b b2 : lv_btnmatrix_t} {i ctrl : Nat}
    (hb : one_checked b) (h : lv_btnmatrix_clear_btn_ctrl b i ctrl = some b2) :
    one_checked b2 := by
  obtain ⟨h1, _, _, h4⟩ := clear_btn_ctrl_le h
  exact ⟨by rw [h1]; exact hb.1, le_trans h4 hb.2⟩

theorem cc_replicate_zero (n m : Nat) : cc (List.replicate n 0) m = 0 := by
  refine cc_zero_of_forall _ _ ?_
  intro j v _ hv
  rw [List.getElem?_replicate] at hv
  split_ifs at hv
  simp only [Option.some.injEq] at hv
  subst hv
  rfl

/-- `allocate_btn_areas_and_controls` keeps the control words, or leaves no button checked. -/
theorem allocate_ctrl {b b1 : lv_btnmatrix_t} {map : List (List Nat)}
    (h : allocate_btn_areas_and_controls b map = some b1) :
    b1.one_check = b.one_check ∧
      ((b1.ctrl_bits = b.ctrl_bits ∧ b1.btn_cnt = b.btn_cnt) ∨ checked_count b1 = 0) := by
  unfold allocate_btn_areas_and_controls at h
  cases hc : count_btns map 0 0 with
  | none => simp [hc] at h
  | some n =>
    rw [hc] at h
    dsimp only at h
    by_cases h1 : n = b.btn_cnt
    · rw [if_pos h1] at h
      simp only [Option.some.injEq] at h
      subst h
      exact ⟨rfl, Or.inl ⟨rfl, rfl⟩⟩
    · rw [if_neg h1] at h
      simp only [Option.some.injEq] at h
      subst h
      refine ⟨rfl, Or.inr ?_⟩
      rw [checked_count_eq]
      dsimp only
      by_cases g2 : (b.grants.tail.head?.getD false) = true
      · rw [if_pos g2]
        exact cc_replicate_zero _ _
      · rw [if_neg g2]
        simp [cc]

/-- `lv_btnmatrix_set_map` keeps the control words, or leaves no button checked. -/
theorem set_map_ctrl {b b2 : lv_btnmatrix_t} {map : List (List Nat)}
    (h : lv_btnmatrix_set_map b map = some b2) :
    b2.one_check = b.one_check ∧
      ((b2.ctrl_bits = b.ctrl_bits ∧ b2.btn_cnt = b.btn_cnt) ∨ checked_count b2 = 0) := by
  unfold lv_btnmatrix_set_map at h
  cases ha : allocate_btn_areas_and_controls b map with
  | none => simp [ha] at h
  | some b1 =>
    rw [ha] at h
    dsimp only at h
    obtain ⟨a1, a2⟩ := allocate_ctrl ha
    cases hr : count_rows map 1 with
    | none => simp [hr] at h
    | some rc =>
      rw [hr] at h
      dsimp only at h
      split at h
      · simp at h
      · simp only [Option.some.injEq] at h
        subst h
        exact ⟨a1, a2⟩

theorem checked_count_congr {b b2 : lv_btnmatrix_t} (h1 : b2.ctrl_bits = b.ctrl_bits)
    (h2 : b2.btn_cnt = b.btn_cnt) : checked_count b2 = checked_count b := by
  rw [checked_count_eq, checked_count_eq, h1, h2]

/-- `lv_btnmatrix_set_btn_width` keeps the "one check" invariant. -/
theorem set_btn_width_one_checked {b b2 : lv_btnmatrix_t} {i width : Nat}
    (hb : one_checked b) (h : lv_btnmatrix_set_btn_width b i width = some b2) :
    one_checked b2 := by
  unfold lv_btnmatrix_set_btn_width at h
  split_ifs at h with hi
  · simp only [Option.some.injEq] at h
    subst h
    exact hb
  · cases h1 : ctrl_update b i fun v => v &&& (0xFFFF ^^^ LV_BTNMATRIX_WIDTH_MASK) with
    | none => simp [h1] at h
    | some b1 =>
      rw [h1] at h
      dsimp only at h
      cases h2 : ctrl_update b1 i fun v => v ||| (LV_BTNMATRIX_WIDTH_MASK &&& width) with
      | none => simp [h2] at h
      | some b3 =>
        rw [h2] at h
        dsimp only at h
        have e1 := ctrl_update_eq (fun v => button_get_checked_and v _ (by decide)) h1
        have hw : (LV_BTNMATRIX_WIDTH_MASK &&& width) &&& LV_BTNMATRIX_CTRL_CHECKED = 0 := by
          rw [Nat.and_assoc, Nat.and_comm width, ← Nat.and_assoc]
          have : LV_BTNMATRIX_WIDTH_MASK &&& LV_BTNMATRIX_CTRL_CHECKED = 0 := by decide
          rw [this, Nat.zero_and]
        have e2 := ctrl_update_eq (fun v => button_get_checked_or v _ hw) h2
        obtain ⟨f1, -, -⟩ := ctrl_update_frame h1
        obtain ⟨g1, -, -⟩ := ctrl_update_frame h2
        obtain ⟨m1, m2⟩ := set_map_ctrl h
        refine ⟨by rw [m1, g1, f1]; exact hb.1, ?_⟩
        rcases m2 with ⟨m3, m4⟩ | m5
        · rw [checked_count_congr m3 m4, e2, e1]
          exact hb.2
        · omega

/-- In "one check" mode the release of the pressed button leaves at most one button checked. -/
theorem signal_released_one_checked {b b2 : lv_btnmatrix_t}
    (hb : one_checked b) (h : signal_released b = some b2) : one_checked b2 := by
  unfold signal_released at h
  by_cases hp : b.btn_id_pr ≠ LV_BTNMATRIX_BTN_NONE
  · rw [if_pos hp] at h
    cases hv : (b.ctrl_bits.bind fun cb => cb[b.btn_id_pr]?) with
    | none => simp [hv] at h
    | some v =>
      rw [hv] at h
      dsimp only at h
      have hoc : b.one_check = true := hb.1
      by_cases ht : button_is_tgl_enabled v = true ∧ button_is_inactive v = false
      · rw [if_pos ht] at h
        have hnc : ¬ (button_get_checked v = true ∧ b.one_check = false) := by
          rw [hoc]
          simp
        rw [if_neg hnc, if_pos hoc] at h
        cases hu : ctrl_update b b.btn_id_pr fun w => w ||| LV_BTNMATRIX_CTRL_CHECKED with
        | none => simp [hu] at h
        | some b1 =>
          rw [hu] at h
          simp only [Option.some_bind, Option.map_eq_some'] at h
          obtain ⟨b3, h3, rfl⟩ := h
          obtain ⟨f1, -, -⟩ := ctrl_update_frame hu
          obtain ⟨s1, -, -⟩ := make_one_button_checked_spec (by rw [f1]; exact hoc) h3
          exact s1
      · rw [if_neg ht] at h
        simp only [Option.map_some', Option.some.injEq] at h
        subst h
        exact hb
  · rw [if_neg hp] at h
    simp only [Option.some.injEq] at h
    subst h
    exact hb

theorem cc_take_append (cm cb : List Nat) (n : Nat) (hn : n ≤ cm.length) :
    cc (cm.take n ++ cb) n = cc cm n := by
  unfold cc
  rw [List.take_append_of_le_length (by simp [hn]), List.take_take, Nat.min_self]

/-- `lv_btnmatrix_set_ctrl_map` installs the given control words: afterwards at most one
button is checked when the given map marks at most one of the buttons as checked. -/
theorem set_ctrl_map_one_checked {b b2 : lv_btnmatrix_t} {ctrl_map : List Nat}
    (hb : b.one_check = true) (hm : cc ctrl_map b.btn_cnt ≤ 1)
    (h : lv_btnmatrix_set_ctrl_map b ctrl_map = some b2) : one_checked b2 := by
  unfold lv_btnmatrix_set_ctrl_map at h
  by_cases hc : ctrl_map.length < b.btn_cnt ∨
      (b.btn_cnt ≠ 0 ∧ (b.ctrl_bits.map List.length).getD 0 < b.btn_cnt)
  · rw [if_pos hc] at h
    simp at h
  · rw [if_neg hc] at h
    dsimp only at h
    obtain ⟨m1, m2⟩ := set_map_ctrl h
    refine ⟨by rw [m1]; exact hb, ?_⟩
    rcases m2 with ⟨m3, m4⟩ | m5
    · rw [checked_count_congr m3 m4, checked_count_eq]
      dsimp only
      cases hcb : b.ctrl_bits with
      | none => simp [cc]
      | some cb =>
        simp only [Option.map_some', Option.getD_some]
        rw [cc_take_append _ _ _ (by omega)]
        exact hm
    · omega

/-! ## Button texts on maps without leading or repeated line breaks; flex direction -/

theorem plain_map_ne_nil (w : List (List Nat × Bool)) : plain_map w ≠ [] := by
  cases w with
  | nil => simp [plain_map]
  | cons p w =>
    obtain ⟨t, lb⟩ := p
    unfold plain_map
    split <;> simp

/-- The entry of a plain map that follows a line break is a button text or the closing `""`. -/
theorem plain_map_head (w : List (List Nat × Bool))
    (hv : ∀ p ∈ w, p.1 ≠ LINE_BREAK ∧ p.1.length ≠ 0) :
    ∀ s, (plain_map w)[0]? = some s → s ≠ LINE_BREAK := by
  intro s hs
  cases w with
  | nil =>
    simp only [plain_map, List.getElem?_cons_zero, Option.some.injEq] at hs
    subst hs
    decide
  | cons p w =>
    obtain ⟨t, lb⟩ := p
    have ht := (hv (t, lb) (List.mem_cons_self _ _)).1
    unfold plain_map at hs
    split at hs <;>
    · simp only [List.getElem?_cons_zero, Option.some.injEq] at hs
      subst hs
      exact ht

/-- The text loop on a plain map: from the text of a button, `k` steps lead to the text of
the `k`-th button after it. -/
theorem get_btn_text_loop_plain (k : Nat) :
    ∀ (pre : List (List Nat)) (w : List (List Nat × Bool)) (p : List Nat × Bool),
      (∀ q ∈ w, q.1 ≠ LINE_BREAK ∧ q.1.length ≠ 0) →
      w[k]? = some p →
      pre.length + 2 * k + 2 < 65536 →
      ∃ i, get_btn_text_loop (pre ++ plain_map w) k pre.length = some i ∧
        (pre ++ plain_map w)[i]? = some p.1 := by
  induction k with
  | zero =>
    intro pre w p _ hp _
    cases w with
    | nil => simp at hp
    | cons q w =>
      simp only [List.getElem?_cons_zero, Option.some.injEq] at hp
      subst hp
      obtain ⟨t, lb⟩ := q
      refine ⟨pre.length, rfl, ?_⟩
      unfold plain_map
      split <;> exact getElem?_append_mid pre _ t
  | succ k ih =>
    intro pre w p hv hp hlen
    cases w with
    | nil => simp at hp
    | cons q w =>
      obtain ⟨t, lb⟩ := q
      simp only [List.getElem?_cons_succ] at hp
      have hv' : ∀ q ∈ w, q.1 ≠ LINE_BREAK ∧ q.1.length ≠ 0 :=
        fun q hq => hv q (List.mem_cons_of_mem _ hq)
      have h1 : (pre.length + 1) % 65536 = pre.length + 1 := Nat.mod_eq_of_lt (by omega)
      have h2 : (pre.length + 1 + 1) % 65536 = pre.length + 1 + 1 := Nat.mod_eq_of_lt (by omega)
      cases lb with
      | true =>
        have hM : pre ++ plain_map ((t, true) :: w)
            = (pre ++ [t]) ++ LINE_BREAK :: plain_map w := by simp [plain_map]
        have hM2 : (pre ++ [t]) ++ LINE_BREAK :: plain_map w
            = (pre ++ [t, LINE_BREAK]) ++ plain_map w := by simp
        have hidx : ((pre ++ [t]) ++ LINE_BREAK :: plain_map w)[pre.length + 1]?
            = some LINE_BREAK := by
          have := getElem?_append_mid (pre ++ [t]) (plain_map w) LINE_BREAK
          simpa using this
        obtain ⟨i, hi1, hi2⟩ := ih (pre ++ [t, LINE_BREAK]) w p hv' hp
          (by simp only [List.length_append, List.length_cons, List.length_nil]; omega)
        refine ⟨i, ?_, ?_⟩
        · rw [hM, get_btn_text_loop]
          simp only [h1, hidx]
          rw [if_pos trivial, h2, hM2]
          simpa using hi1
        · rw [hM, hM2]
          exact hi2
      | false =>
        have hM : pre ++ plain_map ((t, false) :: w) = (pre ++ [t]) ++ plain_map w := by
          simp [plain_map]
        obtain ⟨i, hi1, hi2⟩ := ih (pre ++ [t]) w p hv' hp
          (by simp only [List.length_append, List.length_cons, List.length_nil]; omega)
        have hne := plain_map_ne_nil w
        obtain ⟨s, hs⟩ : ∃ s, (plain_map w)[0]? = some s := by
          cases hpm : plain_map w with
          | nil => exact absurd hpm hne
          | cons s l => exact ⟨s, by simp⟩
        have hsne := plain_map_head w hv' s hs
        have hidx : ((pre ++ [t]) ++ plain_map w)[pre.length + 1]? = some s := by
          rw [List.getElem?_append_right (by simp)]
          simpa using hs
        refine ⟨i, ?_, ?_⟩
        · rw [hM, get_btn_text_loop]
          simp only [h1, hidx]
          rw [if_neg hsne]
          simpa using hi1
        · rw [hM]
          exact hi2

/-- The text loop on a plain map is defined for as many steps as buttons follow. -/
theorem get_btn_text_loop_plain_defined (k : Nat) :
    ∀ (pre : List (List Nat)) (w : List (List Nat × Bool)),
      (∀ q ∈ w, q.1 ≠ LINE_BREAK ∧ q.1.length ≠ 0) →
      k ≤ w.length → pre.length + 2 * k + 2 < 65536 →
      ∃ i, get_btn_text_loop (pre ++ plain_map w) k pre.length = some i := by
  induction k with
  | zero => intro pre w _ _ _; exact ⟨_, rfl⟩
  | succ k ih =>
    intro pre w hv hk hlen
    cases w with
    | nil => simp at hk
    | cons q w =>
      obtain ⟨t, lb⟩ := q
      have hk' : k ≤ w.length := by simpa using hk
      have hv' : ∀ q ∈ w, q.1 ≠ LINE_BREAK ∧ q.1.length ≠ 0 :=
        fun q hq => hv q (List.mem_cons_of_mem _ hq)
      have h1 : (pre.length + 1) % 65536 = pre.length + 1 := Nat.mod_eq_of_lt (by omega)
      have h2 : (pre.length + 1 + 1) % 65536 = pre.length + 1 + 1 := Nat.mod_eq_of_lt (by omega)
      cases lb with
      | true =>
        have hM : pre ++ plain_map ((t, true) :: w)
            = (pre ++ [t]) ++ LINE_BREAK :: plain_map w := by simp [plain_map]
        have hM2 : (pre ++ [t]) ++ LINE_BREAK :: plain_map w
            = (pre ++ [t, LINE_BREAK]) ++ plain_map w := by simp
        have hidx : ((pre ++ [t]) ++ LINE_BREAK :: plain_map w)[pre.length + 1]?
            = some LINE_BREAK := by
          have := getElem?_append_mid (pre ++ [t]) (plain_map w) LINE_BREAK
          simpa using this
        obtain ⟨i, hi1⟩ := ih (pre ++ [t, LINE_BREAK]) w hv' hk'
          (by simp only [List.length_append, List.length_cons, List.length_nil]; omega)
        refine ⟨i, ?_⟩
        rw [hM, get_btn_text_loop]
        simp only [h1, hidx]
        rw [if_pos trivial, h2, hM2]
        simpa using hi1
      | false =>
        have hM : pre ++ plain_map ((t, false) :: w) = (pre ++ [t]) ++ plain_map w := by
          simp [plain_map]
        obtain ⟨i, hi1⟩ := ih (pre ++ [t]) w hv' hk'
          (by simp only [List.length_append, List.length_cons, List.length_nil]; omega)
        have hne := plain_map_ne_nil w
        obtain ⟨s, hs⟩ : ∃ s, (plain_map w)[0]? = some s := by
          cases hpm : plain_map w with
          | nil => exact absurd hpm hne
          | cons s l => exact ⟨s, by simp⟩
        have hsne := plain_map_head w hv' s hs
        have hidx : ((pre ++ [t]) ++ plain_map w)[pre.length + 1]? = some s := by
          rw [List.getElem?_append_right (by simp)]
          simpa using hs
        refine ⟨i, ?_⟩
        rw [hM, get_btn_text_loop]
        simp only [h1, hidx]
        rw [if_neg hsne]
        simpa using hi1

/-- The button count of a plain map. -/
theorem count_btns_plain (w : List (List Nat × Bool)) :
    ∀ j n, (∀ q ∈ w, q.1 ≠ LINE_BREAK ∧ q.1.length ≠ 0) → n + w.length < 65536 →
      j + 2 * w.length < 65536 →
      count_btns (plain_map w) j n = some (n + w.length) := by
  induction w with
  | nil => intro j n _ _ _; simp [plain_map, count_btns]
  | cons q w ih =>
    intro j n hv hn hj
    obtain ⟨t, lb⟩ := q
    have ht := hv (t, lb) (List.mem_cons_self _ _)
    have hv' : ∀ q ∈ w, q.1 ≠ LINE_BREAK ∧ q.1.length ≠ 0 :=
      fun q hq => hv q (List.mem_cons_of_mem _ hq)
    rw [List.length_cons] at hn hj
    have h1 : (n + 1) % 65536 = n + 1 := Nat.mod_eq_of_lt (by omega)
    have hj1 : ¬ (j + 1 = 65536) := by omega
    have hj2 : ¬ (j + 1 + 1 = 65536) := by omega
    cases lb with
    | true =>
      have ih' := ih (j + 1 + 1) (n + 1) hv' (by omega) (by omega)
      simp only [plain_map, if_true, count_btns]
      rw [if_pos ht.2, if_neg hj1, if_pos ht.1, h1, if_pos (by decide), if_neg hj2,
        if_neg (by simp), ih', List.length_cons]
      congr 1
      omega
    | false =>
      have ih' := ih (j + 1) (n + 1) hv' (by omega) (by omega)
      simp only [plain_map, Bool.false_eq_true, if_false, count_btns]
      rw [if_pos ht.2, if_neg hj1, if_pos ht.1, h1, ih', List.length_cons]
      congr 1
      omega

/-- On a map in which no line break comes first or follows another line break,
`lv_btnmatrix_get_btn_text` returns the text of the button `k` for every `k` below the button
count, and NULL for every other `k`. -/
theorem lv_btnmatrix_get_btn_text_plain (b : lv_btnmatrix_t) (w : List (List Nat × Bool))
    (hv : ∀ q ∈ w, q.1 ≠ LINE_BREAK ∧ q.1.length ≠ 0)
    (hb : b.map_p = plain_map w) (hc : b.btn_cnt = w.length) (hlen : 2 * w.length + 2 < 65536) :
    count_btns b.map_p 0 0 = some b.btn_cnt ∧
    (∀ k p, w[k]? = some p → lv_btnmatrix_get_btn_text b k = some (some p.1)) ∧
    (∀ k, w.length ≤ k → lv_btnmatrix_get_btn_text b k = some none) := by
  refine ⟨?_, ?_, ?_⟩
  · rw [hb, hc, count_btns_plain w 0 0 hv (by omega) (by omega), Nat.zero_add]
  · intro k p hp
    have hk : k < w.length := by
      by_contra hge
      rw [List.getElem?_eq_none (by omega)] at hp
      simp at hp
    obtain ⟨i, hi1, hi2⟩ := get_btn_text_loop_plain k [] w p hv hp
      (by simp only [List.length_nil]; omega)
    simp only [List.nil_append, List.length_nil] at hi1 hi2
    unfold lv_btnmatrix_get_btn_text
    rw [if_neg (by omega), hb, hi1]
    dsimp only
    rw [if_neg (by omega), hi2]
    rfl
  · intro k hk
    unfold lv_btnmatrix_get_btn_text
    by_cases hgt : k > b.btn_cnt
    · rw [if_pos hgt]
    · rw [if_neg hgt]
      have hke : k = w.length := by omega
      obtain ⟨i, hi⟩ := get_btn_text_loop_plain_defined k [] w hv (by omega)
        (by simp only [List.length_nil]; omega)
      simp only [List.nil_append, List.length_nil] at hi
      rw [hb, hi]
      dsimp only
      rw [if_pos (by omega)]

/-- When the stored direction differs from the argument, `lv_obj_set_flex_dir` stores the
low two bits of the argument and the two flags. -/
theorem lv_obj_set_flex_dir_writes (k : FlexFlags) (obj : FlexObj) (c : lv_flex_cont_t)
    (d : Nat) (hs : obj.spec_attr = some c) (hd : c.dir ≠ d) :
    ∃ obj2, lv_obj_set_flex_dir k obj d = some obj2 ∧
      obj2.spec_attr = some { dir := d &&& 0x3,
                              wrap := if d &&& k._LV_FLEX_WRAP ≠ 0 then 1 else 0,
                              rev := if d &&& k._LV_FLEX_REVERSE ≠ 0 then 1 else 0 } := by
  unfold lv_obj_set_flex_dir lv_obj_allocate_spec_attr
  simp only [hs]
  rw [if_neg hd]
  exact ⟨_, rfl, rfl⟩

end Lvgl
